import Mathlib

/-!
Verification development for the decentralized-notarization-api repository.

The Python sources under `app/` and `asset_manager/` are shallowly embedded:
  * JSON documents (the metadata sidecars) become the inductive `JVal`,
    with Python `dict` update semantics (`jSet`: in-place update of an
    existing key, append otherwise; `jGet`: first binding).
  * The on-disk state becomes `FS`: an association list from absolute
    paths (segment lists, the working directory is the fixed prefix
    `"cwd"`) to file data, plus the set of explicitly created directories.
    File data is either raw bytes (`FData.raw`) or a parsed JSON document
    (`FData.jdata`) for the sidecar files the code writes with
    `json.dumps`; `json.loads` of a `.raw` entry is modelled as a parse
    failure.
  * `pathlib`'s `resolve()` becomes the lexical normalization
    `resolveSegs` (symlinks are out of scope), and `_safe_target`'s guard
    `root not in p.parents and p != root` becomes `root.isPrefixOf p`.
  * The remote custody service (`B4DAppClient`) and `hashlib.sha256` are
    external boundaries: the hash is a function parameter `sha`, and the
    backend is a `Client` record of outcomes; the asset-manager bootstrap
    and funding loop themselves (`B4AssetManager.__init__`,
    `ensure_funded`, `create_asset`) are embedded, emitting an event
    trace (`Ev`) that records balance reads, funding requests, the
    on-chain-metadata artifact write and the asset-issuance submission.
-/

namespace Notary

/-- JSON values, as produced by `json.loads` / consumed by `json.dumps`. -/
inductive JVal : Type
  | str (s : String)
  | num (n : Int)
  | bool (b : Bool)
  | null
  | arr (xs : List JVal)
  | obj (fields : List (String × JVal))

/-- First binding of a key in a field list (Python dict lookup). -/
def lookupStr : List (String × JVal) → String → Option JVal
  | [], _ => none
  | (k', v') :: rest, k => if k' = k then some v' else lookupStr rest k

/-- Python `d[k] = v`: update an existing key in place, else append. -/
def setField : List (String × JVal) → String → JVal → List (String × JVal)
  | [], k, v => [(k, v)]
  | (k', v') :: rest, k, v =>
    if k' = k then (k, v) :: rest else (k', v') :: setField rest k v

/-- `d.get(k)` on a JSON object; `none` on a missing key or a non-object. -/
def jGet (j : JVal) (k : String) : Option JVal :=
  match j with
  | .obj fields => lookupStr fields k
  | _ => none

/-- `d[k] = v` on a JSON object; non-objects are returned unchanged
(Python would raise there; the code only ever indexes dicts). -/
def jSet (j : JVal) (k : String) (v : JVal) : JVal :=
  match j with
  | .obj fields => .obj (setField fields k v)
  | _ => j

/-- Python truthiness of a JSON value (`if not doc_hash`). -/
def jTruthy : JVal → Bool
  | .str s => !(s = "")
  | .num n => !(n = 0)
  | .bool b => b
  | .null => false
  | .arr xs => !xs.isEmpty
  | .obj fields => !fields.isEmpty

/-- Python `value == some_string` for a JSON value read back by
`data.get(k)` (used by `refresh_metadata_paths`'s drift checks). -/
def jOptEqStr (o : Option JVal) (s : String) : Bool :=
  match o with
  | some (.str a) => a = s
  | _ => false

/-- `int(value)` as used by `_extract_asset_id`: ints pass through,
numeric strings parse, bools coerce; anything else raises (`none`). -/
def jToIntOpt : JVal → Option Int
  | .num n => some n
  | .str s => s.toInt?
  | .bool b => some (if b then 1 else 0)
  | _ => none

/- ----------------------------------------------------------------- -/
/- String utilities (structural re-implementations of the library
   functions the Python code uses, so that everything kernel-reduces). -/
/- ----------------------------------------------------------------- -/

/-- Worker for `splitSlash`. -/
def splitAux (sep : Char) : List Char → List Char → List String
  | [], acc => [String.mk acc.reverse]
  | c :: rest, acc =>
    if c = sep then String.mk acc.reverse :: splitAux sep rest []
    else splitAux sep rest (c :: acc)

/-- Python `s.split("/")`. -/
def splitSlash (s : String) : List String := splitAux '/' s.data []

/-- Does the string start with a `/` (POSIX absolute path)? -/
def startsWithSlash (s : String) : Bool :=
  match s.data with
  | '/' :: _ => true
  | _ => false

/-- Does the string contain a `/`? (`with_name` rejects such names). -/
def containsSlashB (s : String) : Bool := s.data.any (fun c => c = '/')

/-- `s.endswith(suf)`. -/
def endsWithM (s suf : String) : Bool := suf.data.isSuffixOf s.data

/-- `s.removesuffix(suf)`. -/
def dropSuffixM (s suf : String) : String :=
  if endsWithM s suf then String.mk (s.data.take (s.data.length - suf.data.length)) else s

/-- Worker for `replaceAllM`; the fuel is the input length (each step
consumes at least one character). -/
def replaceFuel (pat rep : List Char) : Nat → List Char → List Char
  | _, [] => []
  | 0, s => s
  | n + 1, c :: rest =>
    if pat.isPrefixOf (c :: rest) then rep ++ replaceFuel pat rep n (List.drop pat.length (c :: rest))
    else c :: replaceFuel pat rep n rest

/-- Python `s.replace(pat, rep)`: left-to-right, non-overlapping; a
defensive identity for the empty pattern (never used with one). -/
def replaceAllM (s pat rep : String) : String :=
  if pat.data.isEmpty then s
  else String.mk (replaceFuel pat.data rep.data s.data.length s.data)

/-- `s[:n]`. -/
def takeStr (s : String) (n : Nat) : String := String.mk (s.data.take n)

/-- `s.upper()` (ASCII, which is all the code feeds it). -/
def strUpper (s : String) : String := String.mk (s.data.map Char.toUpper)

/-- `s.lower()` (ASCII, which is all the code feeds it). -/
def strLower (s : String) : String := String.mk (s.data.map Char.toLower)

/-- `s.strip()`. -/
def stripWs (s : String) : String :=
  String.mk (((s.data.dropWhile Char.isWhitespace).reverse.dropWhile Char.isWhitespace).reverse)

/-- `s.strip("/")`. -/
def stripSlashes (s : String) : String :=
  String.mk (((s.data.dropWhile (fun c => c = '/')).reverse.dropWhile (fun c => c = '/')).reverse)

/-- `s.lstrip("/")`. -/
def lstripSlashes (s : String) : String :=
  String.mk (s.data.dropWhile (fun c => c = '/'))

/-- `s.lstrip(".")`. -/
def lstripDots (s : String) : String :=
  String.mk (s.data.dropWhile (fun c => c = '.'))

/-- Index of the last occurrence of a character, with `i` the index of
the head of the remaining list. -/
def lastIdxAux (c : Char) : List Char → Nat → Option Nat → Option Nat
  | [], _, r => r
  | d :: rest, i, r => lastIdxAux c rest (i + 1) (if d = c then some i else r)

/-- `s.rfind(c)` as an `Option`. -/
def lastIdxOf (c : Char) (ds : List Char) : Option Nat := lastIdxAux c ds 0 none

/-- `pathlib.PurePath.suffix` of a file name: from the last dot, unless
the dot is the first or last character. -/
def pathSuffix (name : String) : String :=
  match lastIdxOf '.' name.data with
  | some i => if 0 < i ∧ i + 1 < name.data.length then String.mk (name.data.drop i) else ""
  | none => ""

/-- `pathlib.PurePath.stem` of a file name. -/
def pathStem (name : String) : String :=
  match lastIdxOf '.' name.data with
  | some i => if 0 < i ∧ i + 1 < name.data.length then String.mk (name.data.take i) else name
  | none => name

/-- Python `ch.isprintable()`, restricted to the Latin-1 range the code
can meet in file names (controls and U+007F..U+00A0 are unprintable). -/
def isPrintableM (c : Char) : Bool :=
  decide (0x20 ≤ c.toNat) && !(decide (0x7f ≤ c.toNat) && decide (c.toNat ≤ 0xa0))

/-- `_sanitize_unit_name`: uppercase, non-alphanumerics to `_`, cut to 8. -/
def sanitizeUnit (s : String) : String :=
  String.mk (((strUpper s).data.map (fun ch => if ch.isAlphanum then ch else '_')).take 8)

/-- `_sanitize_asset_name`: strip, unprintables to `?`, cut to 32. -/
def sanitizeAsset (s : String) : String :=
  String.mk (((stripWs s).data.map (fun ch => if isPrintableM ch then ch else '?')).take 32)

/-- Lowercase hex digit. -/
def hexDigL (n : Nat) : Char :=
  if n < 10 then Char.ofNat ('0'.toNat + n) else Char.ofNat ('a'.toNat + n - 10)

/-- Uppercase hex digit. -/
def hexDigU (n : Nat) : Char :=
  if n < 10 then Char.ofNat ('0'.toNat + n) else Char.ofNat ('A'.toNat + n - 10)

/-- UTF-8 encoding of one character. -/
def utf8Char (c : Char) : List Nat :=
  let n := c.toNat
  if n < 0x80 then [n]
  else if n < 0x800 then [0xc0 + n / 0x40, 0x80 + n % 0x40]
  else if n < 0x10000 then [0xe0 + n / 0x1000, 0x80 + n / 0x40 % 0x40, 0x80 + n % 0x40]
  else [0xf0 + n / 0x40000, 0x80 + n / 0x1000 % 0x40, 0x80 + n / 0x40 % 0x40, 0x80 + n % 0x40]

/-- `s.encode("utf-8")`. -/
def utf8Bytes (s : String) : List Nat := (s.data.map utf8Char).flatten

/-- One character under `json.dumps(..., ensure_ascii=False)` string
escaping. -/
def jsonEscapeChar (c : Char) : List Char :=
  if c = '"' then ['\\', '"']
  else if c = '\\' then ['\\', '\\']
  else if c = '\n' then ['\\', 'n']
  else if c = '\t' then ['\\', 't']
  else if c = '\r' then ['\\', 'r']
  else if c.toNat = 0x08 then ['\\', 'b']
  else if c.toNat = 0x0c then ['\\', 'f']
  else if c.toNat < 0x20 then
    ['\\', 'u', '0', '0', hexDigL (c.toNat / 16), hexDigL (c.toNat % 16)]
  else [c]

/-- A JSON string literal as `json.dumps` serializes it. -/
def jsonStrLit (s : String) : String :=
  "\x22" ++ String.mk (s.data.map jsonEscapeChar).flatten ++ "\x22"

/-- Hexadecimal value of a character (`bytes.fromhex` would raise on a
non-hex digit; modelled as 0, unreachable for real digest strings). -/
def hexVal (c : Char) : Nat :=
  if '0' ≤ c ∧ c ≤ '9' then c.toNat - '0'.toNat
  else if 'a' ≤ c ∧ c ≤ 'f' then c.toNat - 'a'.toNat + 10
  else if 'A' ≤ c ∧ c ≤ 'F' then c.toNat - 'A'.toNat + 10
  else 0

/-- `bytes.fromhex`, pairwise. -/
def hexToBytesL : List Char → List Nat
  | a :: b :: rest => (hexVal a * 16 + hexVal b) :: hexToBytesL rest
  | _ => []

/-- `bytes.fromhex` on a string. -/
def hexToBytes (s : String) : List Nat := hexToBytesL s.data

/-- Standard base64 alphabet. -/
def b64Char (n : Nat) : Char :=
  if n < 26 then Char.ofNat ('A'.toNat + n)
  else if n < 52 then Char.ofNat ('a'.toNat + n - 26)
  else if n < 62 then Char.ofNat ('0'.toNat + n - 52)
  else if n = 62 then '+' else '/'

/-- `base64.b64encode`, three bytes at a time. -/
def b64core : List Nat → List Char
  | [] => []
  | [a] => [b64Char (a / 4), b64Char (a % 4 * 16), '=', '=']
  | [a, b] => [b64Char (a / 4), b64Char (a % 4 * 16 + b / 16), b64Char (b % 16 * 4), '=']
  | a :: b :: c :: rest =>
    b64Char (a / 4) :: b64Char (a % 4 * 16 + b / 16) :: b64Char (b % 16 * 4 + c / 64)
      :: b64Char (c % 64) :: b64core rest

/-- `base64.b64encode(...).decode("ascii")`. -/
def b64encode (bs : List Nat) : String := String.mk (b64core bs)

/-- `urllib.parse.quote(s, safe="/")` for one character. -/
def quoteChar (c : Char) : List Char :=
  if (c.isAlphanum && decide (c.toNat < 128)) || c = '_' || c = '.' || c = '-' || c = '~' || c = '/'
  then [c]
  else ((utf8Char c).map (fun b => ['%', hexDigU (b / 16), hexDigU (b % 16)])).flatten

/-- `urllib.parse.quote(s, safe="/")`. -/
def quotePathStr (s : String) : String := String.mk (s.data.map quoteChar).flatten

/-- Join path segments with `/` (`PurePath.as_posix` of a relative
path; the empty list gives `""`, matching the code's normalization of
`"."` to `""`). -/
def joinSegs : List String → String
  | [] => ""
  | [x] => x
  | x :: y :: rest => x ++ "/" ++ joinSegs (y :: rest)

/- ----------------------------------------------------------------- -/
/- Paths and the traversal guard.                                     -/
/- ----------------------------------------------------------------- -/

/-- One path segment. -/
abbrev Seg := String

/-- An absolute path as its list of segments below the filesystem
root (`[]` is `/`). -/
abbrev FPath := List Seg

/-- The process working directory (`Path("DATA")` is relative to it). -/
def cwdPath : FPath := ["cwd"]

/-- `Path("DATA") / storage_id`, resolved: the namespace root. -/
def rootPath (storage_id : String) : FPath := ["cwd", "DATA", storage_id]

/-- Lexical normalization of a segment sequence against a base, as
`Path.resolve()` performs it on a symlink-free tree: empty and `.`
segments vanish, `..` pops (and at `/` stays put). -/
def resolveSegs : FPath → List String → FPath
  | acc, [] => acc
  | acc, seg :: rest =>
    if seg = "" ∨ seg = "." then resolveSegs acc rest
    else if seg = ".." then resolveSegs acc.dropLast rest
    else resolveSegs (acc ++ [seg]) rest

/-- `(base / Path(rel)).resolve()`: an absolute `rel` replaces the base
(`pathlib` semantics), otherwise the segments are appended and
normalized. -/
def resolveRel (base : FPath) (rel : String) : FPath :=
  if startsWithSlash rel then resolveSegs [] (splitSlash rel)
  else resolveSegs base (splitSlash rel)

/-- Error outcomes, following the spec's taxonomy: `pathViolation` is
HTTP 400 "Percorso non ammesso", `unimplemented` the 400 from
`validate_blockchains`, `notFound` 404, `directoryNotEmpty` the 400
"Cartella non vuota"; `valueError`/`osError`/`jsonError`/`typeError`
model uncaught Python exceptions (HTTP 500). -/
inductive Err : Type
  | pathViolation
  | unimplemented
  | notFound
  | directoryNotEmpty
  | valueError
  | osError
  | jsonError
  | typeError
deriving DecidableEq

/-- `_safe_target(root, relative)`: resolve, then require the result to
be the namespace root or below it (`root in p.parents or p == root`). -/
def safeTarget (root : FPath) (relative : String) : Except Err FPath :=
  let p := resolveRel root relative
  if root.isPrefixOf p then .ok p else .error .pathViolation

/-- Last segment of a path (`Path.name`). -/
def lastNameOf (p : FPath) : Seg := p.getLastD ""

/-- `<file>-METADATA.JSON` next to a content path. -/
def metaPathOf (p : FPath) : FPath := p.dropLast ++ [lastNameOf p ++ "-METADATA.JSON"]

/-- `<file>-ONCHAIN-METADATA.JSON` next to a content path. -/
def onchainPathOf (p : FPath) : FPath := p.dropLast ++ [lastNameOf p ++ "-ONCHAIN-METADATA.JSON"]

/- ----------------------------------------------------------------- -/
/- The filesystem state.                                              -/
/- ----------------------------------------------------------------- -/

/-- Contents of one file: raw bytes, or the parsed JSON document of a
sidecar written via `json.dumps` (the serialize/parse round trip is the
identity on this value space). -/
inductive FData : Type
  | raw (bytes : List Nat)
  | jdata (j : JVal)

/-- The on-disk state: files (path to contents) and the explicitly
created directories. -/
structure FS : Type where
  files : List (FPath × FData)
  dirs : List FPath

/-- First entry at a path. -/
def lookupF : List (FPath × FData) → FPath → Option FData
  | [], _ => none
  | (q, d) :: rest, p => if q = p then some d else lookupF rest p

/-- Remove every entry at a path. -/
def eraseF (l : List (FPath × FData)) (p : FPath) : List (FPath × FData) :=
  l.filter (fun e => !(e.1 = p : Bool))

/-- Write (create or overwrite) a file. -/
def insertF (l : List (FPath × FData)) (p : FPath) (d : FData) : List (FPath × FData) :=
  (p, d) :: eraseF l p

/-- `p` is a proper prefix of `q`. -/
def properPrefixB (p q : FPath) : Bool := p.isPrefixOf q && !(p = q : Bool)

/-- The path holds a regular file. -/
def isFileB (fs : FS) (p : FPath) : Bool := (lookupF fs.files p).isSome

/-- The path is a directory: explicitly created, or an ancestor of some
entry. -/
def dirExistsB (fs : FS) (p : FPath) : Bool :=
  fs.dirs.contains p || fs.files.any (fun e => properPrefixB p e.1)
    || fs.dirs.any (fun d => properPrefixB p d)

/-- `Path.exists()`. -/
def existsB (fs : FS) (p : FPath) : Bool := isFileB fs p || dirExistsB fs p

/-- The directory has at least one entry strictly below it. -/
def hasChildB (fs : FS) (p : FPath) : Bool :=
  fs.files.any (fun e => properPrefixB p e.1) || fs.dirs.any (fun d => properPrefixB p d)

/-- All non-empty prefixes of a path. -/
def prefixesOf (p : FPath) : List FPath := (List.range p.length).map (fun i => p.take (i + 1))

/-- `mkdir(parents=True, exist_ok=True)`. -/
def mkdirP (fs : FS) (p : FPath) : FS := ⟨fs.files, prefixesOf p ++ fs.dirs⟩

/-- `shutil.rmtree`. -/
def rmtreeF (fs : FS) (p : FPath) : FS :=
  ⟨fs.files.filter (fun e => !(p.isPrefixOf e.1)),
   fs.dirs.filter (fun d => !(p.isPrefixOf d))⟩

/-- `os.rename` on a single file (overwrites an existing destination
file, as POSIX rename does). -/
def moveEntry (fs : FS) (src dst : FPath) : FS :=
  match lookupF fs.files src with
  | some d => ⟨insertF (eraseF fs.files src) dst d, fs.dirs⟩
  | none => fs

/-- `os.rename` on a directory: re-root every entry below it. -/
def renamePrefix (fs : FS) (src dst : FPath) : FS :=
  ⟨fs.files.map (fun e => if src.isPrefixOf e.1 then (dst ++ e.1.drop src.length, e.2) else e),
   fs.dirs.map (fun d => if src.isPrefixOf d then dst ++ d.drop src.length else d)⟩

/- ----------------------------------------------------------------- -/
/- Storage Manager / Metadata Store operations (app/main.py,
   app/utils.py).  Mutating operations return the post state together
   with the outcome, so an early error provably leaves the state as it
   was.                                                               -/
/- ----------------------------------------------------------------- -/

/-- Return value of `save_document_and_metadata`. -/
structure SaveInfo : Type where
  file_hash : String
  file_weight : Nat
  file_type : String
  upload_date : String
deriving DecidableEq

/-- `save_document_and_metadata` (`app/main.py`): traversal guard on the
folder, `mkdir -p`, write the decoded bytes, then write the sidecar with
the computed fields merged over the caller's `metadata` dict.  The
Base64 decoding of the request body happens before this logic and is
outside the model (`file_bytes` is the decoded content); `sha` stands
for `hashlib.sha256(...).hexdigest()` and `now` for
`datetime.utcnow().isoformat()`.  A write whose parent directory does
not exist fails (`osError`), standing for the uncaught `FileNotFoundError`
(the lexical resolution of `..` inside `file_name` assumes the traversed
intermediate directories exist, which `mkdir` guarantees for the
folder's own ancestry). -/
def save_document_and_metadata (sha : List Nat → String) (now : String) (fs : FS)
    (file_bytes : List Nat) (file_name storage_id folder_path : String)
    (metadata : Option JVal) : FS × Except Err SaveInfo :=
  let root := rootPath storage_id
  let target := resolveRel root folder_path
  if root.isPrefixOf target then
    let fs1 := mkdirP fs target
    let filePath := resolveRel target file_name
    if dirExistsB fs1 filePath.dropLast then
      let fs2 : FS := ⟨insertF fs1.files filePath (.raw file_bytes), fs1.dirs⟩
      let file_hash := sha file_bytes
      let file_weight := file_bytes.length
      let sfx := lstripDots (pathSuffix (lastNameOf filePath))
      let file_type := if sfx = "" then "unknown" else sfx
      let meta0 := metadata.getD (.obj [])
      let meta1 := jSet meta0 "document_hash" (.str file_hash)
      let meta2 := jSet meta1 "storage_id" (.str storage_id)
      let meta3 := jSet meta2 "folder_path" (.str folder_path)
      let meta4 := jSet meta3 "file_name" (.str file_name)
      let meta5 := jSet meta4 "file_weight" (.num file_weight)
      let meta6 := jSet meta5 "file_type" (.str file_type)
      let meta7 := jSet meta6 "upload_date" (.str now)
      let meta8 := jSet meta7 "validations" (.arr [])
      let metaPath := resolveRel target (file_name ++ "-METADATA.JSON")
      let fs3 : FS := ⟨insertF fs2.files metaPath (.jdata meta8), fs2.dirs⟩
      (fs3, .ok ⟨file_hash, file_weight, file_type, now⟩)
    else (fs1, .error .osError)
  else (fs, .error .pathViolation)

/-- `validate_blockchains` raises for any chain whose lowercase form is
not `"algo"`. -/
def validateBlockchainsFails (chains : List String) : Bool :=
  chains.any (fun c => !(strLower c = "algo" : Bool))

/-- Request body of `POST /scenario1/notarize` (post Base64 decoding). -/
structure S1Req : Type where
  document_bytes : List Nat
  file_name : String
  storage_id : String
  folder_path : String
  metadata : Option JVal
  selected_chain : List String

/-- A deferred `simulate_transaction` task queued via `BackgroundTasks`. -/
structure BgTask : Type where
  storage_id : String
  rel : String
deriving DecidableEq

/-- The `NotarizationResponse` fields the endpoint fills. -/
structure S1Resp : Type where
  success : Bool
  file_weight : Nat
  file_type : String
  upload_date : String
  message : String
deriving DecidableEq

/-- `scenario1_notarize_document`: network validation first, then the
save, then the deferred notarization task is queued.  An error carries
no task list, so nothing is ever submitted for a rejected request. -/
def scenario1_notarize (sha : List Nat → String) (now : String) (fs : FS) (req : S1Req) :
    FS × Except Err (List BgTask × S1Resp) :=
  if validateBlockchainsFails req.selected_chain then (fs, .error .unimplemented)
  else
    match save_document_and_metadata sha now fs req.document_bytes req.file_name
        req.storage_id req.folder_path req.metadata with
    | (fs1, .ok info) =>
      let rel := lstripSlashes (req.folder_path ++ "/" ++ req.file_name)
      (fs1, .ok ([⟨req.storage_id, rel⟩],
        ⟨true, info.file_weight, info.file_type, info.upload_date,
         "Documento '" ++ req.file_name ++ "' salvato in '" ++ req.folder_path
           ++ "' – hash " ++ info.file_hash⟩))
    | (fs1, .error e) => (fs1, .error e)

/-- `scenario1_query_document_status`: network validation, traversal
guard on the folder, then the sidecar is read back. -/
def scenario1_query (fs : FS) (storage_id folder_path file_name : String)
    (chains : List String) : Except Err JVal :=
  if validateBlockchainsFails chains then .error .unimplemented
  else
    let root := rootPath storage_id
    let target := resolveRel root folder_path
    if root.isPrefixOf target then
      let metaPath := resolveRel target (file_name ++ "-METADATA.JSON")
      match lookupF fs.files metaPath with
      | some (.jdata j) => .ok j
      | some (.raw _) => .error .jsonError
      | none => if dirExistsB fs metaPath then .error .osError else .error .notFound
    else .error .pathViolation

/-- Result of the download endpoint: a raw file stream, or the in-memory
zip of a directory subtree (entries keyed relative to the directory's
parent, as `_zip_directory_to_bytes` does). -/
inductive DlRes : Type
  | fileRes (d : FData)
  | zipRes (entries : List (FPath × FData))

/-- `download_item` (`GET /storage/{sid}/download/{path}`). -/
def download_item (fs : FS) (storage_id relative_path : String) : Except Err DlRes :=
  let root := rootPath storage_id
  match safeTarget root relative_path with
  | .error e => .error e
  | .ok target =>
    match lookupF fs.files target with
    | some d => .ok (.fileRes d)
    | none =>
      if dirExistsB fs target then
        .ok (.zipRes ((fs.files.filter (fun e => properPrefixB target e.1)).map
          (fun e => (e.1.drop (target.length - 1), e.2))))
      else .error .notFound

/-- `list_files_with_metadata`: every `*-METADATA.JSON` below the root
except the `-ONCHAIN-` ones, keyed by the content's relative POSIX path
with the suffix removed; unreadable sidecars (raw bytes, or a directory
whose name matches the glob) yield an error marker keyed by the sidecar
path itself. -/
def list_files_with_metadata (fs : FS) (storage_id : String) :
    Except Err (List (String × JVal)) :=
  let root := rootPath storage_id
  if existsB fs root then
    .ok ((fs.files.filterMap (fun e =>
      if properPrefixB root e.1 && endsWithM (lastNameOf e.1) "-METADATA.JSON" then
        if endsWithM (lastNameOf e.1) "-ONCHAIN-METADATA.JSON" then none
        else
          match e.2 with
          | .jdata j => some (dropSuffixM (joinSegs (e.1.drop root.length)) "-METADATA.JSON", j)
          | .raw _ =>
            some (joinSegs (e.1.drop root.length),
              JVal.obj [("error", .str "metadata file unreadable")])
      else none))
      ++ (fs.dirs.filterMap (fun d =>
        if properPrefixB root d && endsWithM (lastNameOf d) "-METADATA.JSON"
            && !endsWithM (lastNameOf d) "-ONCHAIN-METADATA.JSON" then
          some (joinSegs (d.drop root.length),
            JVal.obj [("error", .str "metadata file unreadable")])
        else none)))
  else .error .notFound

/-- The sidecar-handling block shared verbatim by `rename_item` and
`move_item` (the source duplicates it): relocate `<name>-METADATA.JSON`
and `<name>-ONCHAIN-METADATA.JSON` if present, then apply the path-field
rewrite `f` to the sidecar now expected at the destination.  An
unparseable sidecar raises out of the endpoint (`jsonError`) after the
relocations already happened. -/
def relocateSidecars (fs : FS) (target newPath : FPath) (f : JVal → JVal) :
    FS × Except Err Unit :=
  let metaNew := metaPathOf newPath
  let fs2 := if isFileB fs (metaPathOf target) then
    moveEntry fs (metaPathOf target) metaNew else fs
  let fs3 := if isFileB fs2 (onchainPathOf target) then
    moveEntry fs2 (onchainPathOf target) (onchainPathOf newPath) else fs2
  match lookupF fs3.files metaNew with
  | some (.jdata j) => (⟨insertF fs3.files metaNew (.jdata (f j)), fs3.dirs⟩, .ok ())
  | some (.raw _) => (fs3, .error .jsonError)
  | none => (fs3, .ok ())

/-- `rename_item`: guard, `with_name` validity, `os.rename`, then for a
file also relocate the sidecar and the on-chain artifact and rewrite the
sidecar's `file_name`. -/
def rename_item (fs : FS) (storage_id path new_name : String) : FS × Except Err Unit :=
  let root := rootPath storage_id
  match safeTarget root path with
  | .error e => (fs, .error e)
  | .ok target =>
    if new_name = "" || new_name = "." || containsSlashB new_name then (fs, .error .valueError)
    else
      let newPath := target.dropLast ++ [new_name]
      if isFileB fs target then
        if dirExistsB fs newPath then (fs, .error .osError)
        else
          relocateSidecars (moveEntry fs target newPath) target newPath
            (fun j => jSet j "file_name" (.str new_name))
      else if dirExistsB fs target then
        if existsB fs newPath then (fs, .error .osError)
        else (renamePrefix fs target newPath, .ok ())
      else (fs, .error .osError)

/-- `move_item`: both guards run before the destination `mkdir`; a moved
file drags its sidecar and artifact along and gets `folder_path` (the
raw destination argument) and `file_name` rewritten. -/
def move_item (fs : FS) (storage_id src dst_folder : String) : FS × Except Err Unit :=
  let root := rootPath storage_id
  match safeTarget root src with
  | .error e => (fs, .error e)
  | .ok source =>
    match safeTarget root dst_folder with
    | .error e => (fs, .error e)
    | .ok destDir =>
      let fs0 := mkdirP fs destDir
      let newPath := destDir ++ [lastNameOf source]
      if isFileB fs0 source then
        let finalPath := if dirExistsB fs0 newPath then newPath ++ [lastNameOf source]
          else newPath
        let fs1 := moveEntry fs0 source finalPath
        if isFileB fs1 newPath then
          relocateSidecars fs1 source newPath
            (fun j => jSet (jSet j "folder_path" (.str dst_folder))
              "file_name" (.str (lastNameOf newPath)))
        else (fs1, .ok ())
      else if dirExistsB fs0 source then
        if existsB fs0 newPath then (fs0, .error .osError)
        else (renamePrefix fs0 source newPath, .ok ())
      else (fs0, .error .osError)

/-- `delete_item`: a directory needs `recursive` unless empty; a file is
removed together with its sidecar and its on-chain artifact; a missing
path is 404. -/
def delete_item (fs : FS) (storage_id path : String) (recursive : Bool) :
    FS × Except Err Unit :=
  let root := rootPath storage_id
  match safeTarget root path with
  | .error e => (fs, .error e)
  | .ok target =>
    if dirExistsB fs target then
      if recursive then (rmtreeF fs target, .ok ())
      else if hasChildB fs target then (fs, .error .directoryNotEmpty)
      else (⟨fs.files, fs.dirs.filter (fun d => !(d = target : Bool))⟩, .ok ())
    else if isFileB fs target then
      (⟨eraseF (eraseF (eraseF fs.files target) (metaPathOf target)) (onchainPathOf target),
        fs.dirs⟩, .ok ())
    else (fs, .error .notFound)

/-- One sidecar's pass of `refresh_metadata_paths`: skip non-sidecars,
`-ONCHAIN-` artifacts, unparseable files and sidecars whose content file
is gone; otherwise rewrite `folder_path` / `file_name` if and only if
they differ from the content file's real location. -/
def refreshData (fs : FS) (root : FPath) (p : FPath) (d : FData) : FData :=
  match d with
  | .raw b => .raw b
  | .jdata j =>
    let name := lastNameOf p
    if properPrefixB root p && endsWithM name "-METADATA.JSON"
        && !endsWithM name "-ONCHAIN-METADATA.JSON" then
      let contentPath := p.dropLast ++ [replaceAllM name "-METADATA.JSON" ""]
      if existsB fs contentPath then
        let folderRel := joinSegs (p.dropLast.drop root.length)
        let j1 := if jOptEqStr (jGet j "folder_path") folderRel then j
          else jSet j "folder_path" (.str folderRel)
        let j2 := if jOptEqStr (jGet j1 "file_name") (lastNameOf contentPath) then j1
          else jSet j1 "file_name" (.str (lastNameOf contentPath))
        .jdata j2
      else .jdata j
    else .jdata j

/-- `refresh_metadata_paths`: walk every sidecar below the namespace
root and realign its path fields with the disk layout (contents change,
locations never do, so a single map over the entries is faithful). -/
def refresh_metadata_paths (fs : FS) (storage_id : String) : FS :=
  let root := rootPath storage_id
  if existsB fs root then
    ⟨fs.files.map (fun e => (e.1, refreshData fs root e.1 e.2)), fs.dirs⟩
  else fs

/-- `POST /storage/rename`: `rename_item` then the resynchronization. -/
def storage_rename (fs : FS) (storage_id path new_name : String) : FS × Except Err Unit :=
  match rename_item fs storage_id path new_name with
  | (fs1, .ok ()) => (refresh_metadata_paths fs1 storage_id, .ok ())
  | (fs1, .error e) => (fs1, .error e)

/-- `POST /storage/move`: `move_item` then the resynchronization. -/
def storage_move (fs : FS) (storage_id src dst_folder : String) : FS × Except Err Unit :=
  match move_item fs storage_id src dst_folder with
  | (fs1, .ok ()) => (refresh_metadata_paths fs1 storage_id, .ok ())
  | (fs1, .error e) => (fs1, .error e)

/- ----------------------------------------------------------------- -/
/- Identity/Wallet Manager (asset_manager/b4dapp_asset_manager.py)
   and the deferred notarization task (app/utils.py).                 -/
/- ----------------------------------------------------------------- -/

/-- Observable events of one notarization run, in program order:
remote-service bootstrap steps, indexer balance reads, dispenser
funding requests (each an on-ledger payment), the local write of the
on-chain metadata artifact, and the asset-issuance submission. -/
inductive Ev : Type
  | login
  | dappSetup
  | jwtSetup
  | walletSetup
  | balanceRead (bal : Nat)
  | fundingRequest (amount : Nat)
  | artifactWrite (p : FPath) (payload : String)
  | submitAsset (payload : String)
deriving DecidableEq

/-- How `create_asset` can fail: a backend `ApiError`, or any other
exception. -/
inductive SubmitErr : Type
  | apiError (msg : String)
  | unexpected (msg : String)
deriving DecidableEq

/-- Outcomes of the remote custody service for one run, over an
environment type `σ` (the remote wallet/ledger state): the bootstrap
steps either succeed or raise, the balance/funding/sleep functions
drive `ensure_funded`, and `submitRes` is `asset_create_txn`'s outcome
in the state reached at submission time. -/
structure Client (σ : Type) : Type where
  loginErr : Option String
  dappErr : Option String
  jwtErr : Option String
  walletRes : Except String String
  getBalance : σ → Nat
  fundWallet : σ → Nat → σ
  sleepStep : σ → σ
  minBalance : Nat
  topupAmount : Nat
  submitRes : σ → Except SubmitErr JVal
  now : String

/-- `B4AssetManager.ensure_funded`: up to `maxAttempts` iterations of
read-balance / return-if-funded / fund-and-sleep, then one final read
whose value is returned regardless of the threshold.  Returns the
observed balance, the final environment, and the event trace (each
`fundingRequest` is one dispenser call). -/
def ensure_funded {σ : Type} (getBal : σ → Nat) (fund : σ → Nat → σ) (sleep : σ → σ)
    (minBal topup : Nat) : Nat → σ → Nat × σ × List Ev
  | 0, s => (getBal s, s, [.balanceRead (getBal s)])
  | n + 1, s =>
    let b := getBal s
    if minBal ≤ b then (b, s, [.balanceRead b])
    else
      let s1 := sleep (fund s topup)
      let r := ensure_funded getBal fund sleep minBal topup n s1
      (r.1, r.2.1, .balanceRead b :: .fundingRequest topup :: r.2.2)

/-- `B4AssetManager.__init__` (`_get_asset_manager()` builds a fresh
instance per run): login, DApp setup, JWT, wallet resolution, then
`ensure_funded(min_balance, topup_amount)` with the default
`max_attempts = 6`.  Yields the creator address and the environment
after funding, or the raised message. -/
def bootstrapMgr {σ : Type} (c : Client σ) (s : σ) : List Ev × Except String (String × σ) :=
  match c.loginErr with
  | some m => ([.login], .error m)
  | none =>
    match c.dappErr with
    | some m => ([.login, .dappSetup], .error m)
    | none =>
      match c.jwtErr with
      | some m => ([.login, .dappSetup, .jwtSetup], .error m)
      | none =>
        match c.walletRes with
        | .error m => ([.login, .dappSetup, .jwtSetup, .walletSetup], .error m)
        | .ok addr =>
          let r := ensure_funded c.getBalance c.fundWallet c.sleepStep
            c.minBalance c.topupAmount 6 s
          ([.login, .dappSetup, .jwtSetup, .walletSetup] ++ r.2.2, .ok (addr, r.2.1))

/-- `B4AssetManager.create_asset` with `roles_mode="self"` as the task
calls it: `ensure_funded` again, then the issuance submission. -/
def create_assetM {σ : Type} (c : Client σ) (payload : String) (s : σ) :
    List Ev × σ × Except SubmitErr JVal :=
  let r := ensure_funded c.getBalance c.fundWallet c.sleepStep
    c.minBalance c.topupAmount 6 s
  (r.2.2 ++ [.submitAsset payload], r.2.1, c.submitRes r.2.1)

/-- The canonical commitment payload
`{"hash": ..., "storage_id": ..., "path": ..., "file": ...}` exactly as
`json.dumps(onchain_meta, ensure_ascii=False)` serializes it: fixed
field order, `", "` / `": "` separators.  A pure function of the four
identity inputs. -/
def commitmentPayloadStr (h sid path file : String) : String :=
  "\x7b" ++ jsonStrLit "hash" ++ ": " ++ jsonStrLit h
    ++ ", " ++ jsonStrLit "storage_id" ++ ": " ++ jsonStrLit sid
    ++ ", " ++ jsonStrLit "path" ++ ": " ++ jsonStrLit path
    ++ ", " ++ jsonStrLit "file" ++ ": " ++ jsonStrLit file ++ "\x7d"

/-- The same payload under `json.dumps(..., ensure_ascii=False,
indent=4)` — the bytes persisted to `<file>-ONCHAIN-METADATA.JSON`. -/
def commitmentPayloadIndentStr (h sid path file : String) : String :=
  "\x7b\n    " ++ jsonStrLit "hash" ++ ": " ++ jsonStrLit h
    ++ ",\n    " ++ jsonStrLit "storage_id" ++ ": " ++ jsonStrLit sid
    ++ ",\n    " ++ jsonStrLit "path" ++ ": " ++ jsonStrLit path
    ++ ",\n    " ++ jsonStrLit "file" ++ ": " ++ jsonStrLit file ++ "\n\x7d"

/-- The configured public base URL (`NOTARIZATION_PUBLIC_BASE_URL`'s
default; the second assignment in the source wins). -/
def publicBase : String := "http://65.109.230.229:8666/notarization-api"

/-- `_build_onchain_metadata_url`. -/
def onchainMetaUrl (sid rel : String) : String :=
  publicBase ++ "/storage/" ++ sid ++ "/metadata-onchain/" ++ quotePathStr (stripSlashes rel)

/-- `_build_content_download_url`. -/
def contentDownloadUrl (sid rel : String) : String :=
  publicBase ++ "/storage/" ++ sid ++ "/download/" ++ quotePathStr (stripSlashes rel)

/-- `_extract_asset_id`'s ordered strategies: `asset-index`, `asset_id`,
then `asset.index`; `none` models the raised extraction failure. -/
def extractAssetId (resp : JVal) : Option Int :=
  match jGet resp "asset-index" with
  | some v => jToIntOpt v
  | none =>
    match jGet resp "asset_id" with
    | some v => jToIntOpt v
    | none =>
      match jGet resp "asset" with
      | some (.obj o) =>
        match lookupStr o "index" with
        | some v => jToIntOpt v
        | none => none
      | _ => none

/-- The `Error` ValidationEntry the task appends on any failure: no
ledger identifiers (all the legacy fields are `null`), a timestamp, and
the stringified exception. -/
def mkErrEntry (kind msg now : String) : JVal :=
  .obj [("network", .str "algo"), ("type", .str kind), ("error", .str msg),
        ("timestamp", .str now), ("txid", .null), ("sender", .null),
        ("receiver", .null), ("note", .null), ("round_time", .str now)]

/-- Append one validation entry, resetting a missing or non-list
`validations` field first, exactly as the task does. -/
def appendValidation (m e : JVal) : JVal :=
  match jGet m "validations" with
  | some (.arr vs) => jSet m "validations" (.arr (vs ++ [e]))
  | _ => jSet m "validations" (.arr [e])

/-- `create_res.get("txn", {}).get("txn", {})` guarded by the
`isinstance` check. -/
def innerTxn (resp : JVal) : JVal :=
  match jGet resp "txn" with
  | some (.obj o) => (lookupStr o "txn").getD (.obj [])
  | _ => .obj []

/-- `d.get(k)` with Python's `None` default, as a JSON value. -/
def optField (l : List (String × JVal)) (k : String) : JVal := (lookupStr l k).getD .null

/-- The `Success` ValidationEntry (`asa_mint`), in the insertion order
of the source, legacy fields last. -/
def mkSuccessEntry (addr : String) (aid : Int) (unit_name asset_name note murl curl
    mHex mB64 : String) (mLen : Nat) (onchainFile : String) (resp : JVal)
    (t a : List (String × JVal)) (now : String) : JVal :=
  .obj [("network", .str "algo"), ("type", .str "asa_mint"), ("timestamp", .str now),
        ("asset_id", .num aid), ("unit_name", .str unit_name), ("asset_name", .str asset_name),
        ("addresses", .obj [("creator", .str addr), ("manager", optField a "m"),
          ("reserve", optField a "r"), ("freeze", optField a "f"),
          ("clawback", optField a "c")]),
        ("confirmed_round", (jGet resp "confirmed-round").getD .null),
        ("fee", optField t "fee"), ("first_valid", optField t "fv"),
        ("last_valid", optField t "lv"), ("genesis_id", optField t "gen"),
        ("genesis_hash_b64", optField t "gh"),
        ("metadata_url", .str murl), ("metadata_sha256_hex", .str mHex),
        ("metadata_sha256_b64", .str mB64), ("metadata_len", .num mLen),
        ("onchain_metadata_file", .str onchainFile),
        ("content_download_url", .str curl), ("raw", resp),
        ("txid", .str (toString aid)), ("sender", .str addr), ("receiver", .str addr),
        ("note", .str note), ("round_time", .str now)]

/-- Append an error entry and persist the sidecar (the swallowed
`_write_metadata` failure is modelled as a successful write). -/
def errBranchFS (fs1 : FS) (metaPath : FPath) (meta : JVal) (kind msg now : String) : FS :=
  ⟨insertF fs1.files metaPath (.jdata (appendValidation meta (mkErrEntry kind msg now))),
   fs1.dirs⟩

/-- The tail of `simulate_transaction` after the document hash is in
hand: manager bootstrap (a raise returns silently), ASA field
preparation, commitment hash + artifact write, `create_asset`, and the
success/error validation append. -/
def simulateStep3 {σ : Type} (sha : List Nat → String) (c : Client σ) (fs : FS) (s : σ)
    (sid rel : String) (contentPath metaPath onchainPath : FPath) (h : String)
    (meta : JVal) : FS × σ × List Ev × Except Err Unit :=
  match bootstrapMgr c s with
  | (evB, .error _) => (fs, s, evB, .ok ())
  | (evB, .ok (addr, s1)) =>
    let unit_name := sanitizeUnit (strUpper ("DOC" ++ takeStr h 6))
    let asset_name := sanitizeAsset (pathStem (lastNameOf contentPath))
    let note := "notarization " ++ sid ++ "/" ++ rel
    let payloadStr := commitmentPayloadStr h sid rel (lastNameOf contentPath)
    let payloadBytes := utf8Bytes payloadStr
    let mHex := sha payloadBytes
    let mB64 := b64encode (hexToBytes mHex)
    let mLen := payloadBytes.length
    let fs1 : FS := ⟨insertF fs.files onchainPath
      (.raw (utf8Bytes (commitmentPayloadIndentStr h sid rel (lastNameOf contentPath)))),
      fs.dirs⟩
    let evA := evB ++ [.artifactWrite onchainPath payloadStr]
    let murl := onchainMetaUrl sid rel
    let curl := contentDownloadUrl sid rel
    match create_assetM c payloadStr s1 with
    | (evC, s2, .error (.apiError m)) =>
      (errBranchFS fs1 metaPath meta "asa_mint_error" m c.now, s2, evA ++ evC, .ok ())
    | (evC, s2, .error (.unexpected m)) =>
      (errBranchFS fs1 metaPath meta "unexpected_error" m c.now, s2, evA ++ evC, .ok ())
    | (evC, s2, .ok resp) =>
      match extractAssetId resp with
      | none =>
        (errBranchFS fs1 metaPath meta "unexpected_error"
          "Impossibile ricavare asset_id dalla risposta" c.now, s2, evA ++ evC, .ok ())
      | some aid =>
        match innerTxn resp with
        | .obj t =>
          match lookupStr t "apar" with
          | some (.obj a) =>
            let entry := mkSuccessEntry addr aid unit_name asset_name note murl curl
              mHex mB64 mLen (lastNameOf onchainPath) resp t a c.now
            (⟨insertF fs1.files metaPath (.jdata (appendValidation meta entry)), fs1.dirs⟩,
              s2, evA ++ evC, .ok ())
          | some _ =>
            (errBranchFS fs1 metaPath meta "unexpected_error" "apar non dict" c.now,
              s2, evA ++ evC, .ok ())
          | none =>
            let entry := mkSuccessEntry addr aid unit_name asset_name note murl curl
              mHex mB64 mLen (lastNameOf onchainPath) resp t [] c.now
            (⟨insertF fs1.files metaPath (.jdata (appendValidation meta entry)), fs1.dirs⟩,
              s2, evA ++ evC, .ok ())
        | _ =>
          (errBranchFS fs1 metaPath meta "unexpected_error" "txn non dict" c.now,
            s2, evA ++ evC, .ok ())

/-- The recompute-and-persist branch of the hash resolution: read the
stored bytes, hash them, write `document_hash` back, then continue; a
failed read returns silently. -/
def simulateRecompute {σ : Type} (sha : List Nat → String) (c : Client σ) (fs : FS) (s : σ)
    (sid rel : String) (contentPath metaPath onchainPath : FPath) (meta0 : JVal) :
    FS × σ × List Ev × Except Err Unit :=
  match lookupF fs.files contentPath with
  | some (.raw bs) =>
    let h := sha bs
    let meta1 := jSet meta0 "document_hash" (.str h)
    let fs1 : FS := ⟨insertF fs.files metaPath (.jdata meta1), fs.dirs⟩
    simulateStep3 sha c fs1 s sid rel contentPath metaPath onchainPath h meta1
  | _ => (fs, s, [], .ok ())

/-- The document-hash resolution step of `simulate_transaction`: use a
truthy string `document_hash`, recompute and persist it when it is
missing or falsy, return silently when the content cannot be read.  A
truthy non-string value would make the Python crash further down
(unreachable for metadata this system writes); modelled as
`typeError`. -/
def simulateStep2 {σ : Type} (sha : List Nat → String) (c : Client σ) (fs : FS) (s : σ)
    (sid rel : String) (contentPath metaPath onchainPath : FPath) (meta0 : JVal) :
    FS × σ × List Ev × Except Err Unit :=
  match jGet meta0 "document_hash" with
  | some (.str h) =>
    if h = "" then simulateRecompute sha c fs s sid rel contentPath metaPath onchainPath meta0
    else simulateStep3 sha c fs s sid rel contentPath metaPath onchainPath h meta0
  | some v =>
    if jTruthy v then (fs, s, [], .error .typeError)
    else simulateRecompute sha c fs s sid rel contentPath metaPath onchainPath meta0
  | none => simulateRecompute sha c fs s sid rel contentPath metaPath onchainPath meta0

/-- `simulate_transaction(storage_id, relative_path)`, the deferred
notarization task.  The traversal guard raises out of the background
task (`pathViolation`); a missing or unreadable sidecar returns
silently; every other path runs to completion appending exactly one
validation entry. -/
def simulate_transaction {σ : Type} (sha : List Nat → String) (c : Client σ) (fs : FS)
    (s : σ) (storage_id relative_path : String) : FS × σ × List Ev × Except Err Unit :=
  let root := rootPath storage_id
  match safeTarget root relative_path with
  | .error _ => (fs, s, [], .error .pathViolation)
  | .ok contentPath =>
    let metaPath := metaPathOf contentPath
    let onchainPath := onchainPathOf contentPath
    match lookupF fs.files metaPath with
    | some (.jdata meta0) =>
      simulateStep2 sha c fs s storage_id relative_path contentPath metaPath onchainPath meta0
    | _ => (fs, s, [], .ok ())

/- ----------------------------------------------------------------- -/
/- Helper lemmas about the state model.                               -/
/- ----------------------------------------------------------------- -/

theorem lookupF_insert_self (l : List (FPath × FData)) (p : FPath) (d : FData) :
    lookupF (insertF l p d) p = some d := by
  simp [insertF, lookupF]

theorem lookupF_erase_ne (l : List (FPath × FData)) (p q : FPath) (h : ¬ q = p) :
    lookupF (eraseF l p) q = lookupF l q := by
  induction l with
  | nil => simp [eraseF, lookupF]
  | cons e rest ih =>
    by_cases he : e.1 = p
    · have : ¬ e.1 = q := by
        intro hq
        exact h (hq ▸ he ▸ rfl)
      simp_all [eraseF, lookupF, List.filter]
    · by_cases hq : e.1 = q
      · simp_all [eraseF, lookupF, List.filter]
      · simp_all [eraseF, lookupF, List.filter]

theorem lookupF_erase_self (l : List (FPath × FData)) (p : FPath) :
    lookupF (eraseF l p) p = none := by
  induction l with
  | nil => simp [eraseF, lookupF]
  | cons e rest ih =>
    by_cases he : e.1 = p
    · simp_all [eraseF, List.filter]
    · simp_all [eraseF, lookupF, List.filter]

theorem lookupF_insert_ne (l : List (FPath × FData)) (p q : FPath) (d : FData)
    (h : ¬ q = p) : lookupF (insertF l p d) q = lookupF l q := by
  show (if p = q then some d else lookupF (eraseF l p) q) = lookupF l q
  rw [if_neg (fun hh => h hh.symm), lookupF_erase_ne l p q h]

theorem lookupF_moveEntry_other (fs : FS) (src dst q : FPath)
    (h1 : ¬ q = src) (h2 : ¬ q = dst) :
    lookupF (moveEntry fs src dst).files q = lookupF fs.files q := by
  unfold moveEntry
  cases hs : lookupF fs.files src with
  | none => rfl
  | some d =>
    show lookupF (insertF (eraseF fs.files src) dst d) q = lookupF fs.files q
    rw [lookupF_insert_ne _ _ _ _ h2, lookupF_erase_ne _ _ _ h1]

theorem lookupF_moveEntry_dst (fs : FS) (src dst : FPath) (d : FData)
    (hs : lookupF fs.files src = some d) :
    lookupF (moveEntry fs src dst).files dst = some d := by
  unfold moveEntry
  rw [hs]
  exact lookupF_insert_self _ _ _

theorem lookupF_moveEntry_src (fs : FS) (src dst : FPath) (d : FData)
    (hs : lookupF fs.files src = some d) (hne : ¬ src = dst) :
    lookupF (moveEntry fs src dst).files src = none := by
  unfold moveEntry
  rw [hs]
  show lookupF (insertF (eraseF fs.files src) dst d) src = none
  rw [lookupF_insert_ne _ _ _ _ hne, lookupF_erase_self]

/- jGet / jSet lemmas. -/

theorem lookupStr_set_self (l : List (String × JVal)) (k : String) (v : JVal) :
    lookupStr (setField l k v) k = some v := by
  induction l with
  | nil => simp [setField, lookupStr]
  | cons e rest ih =>
    by_cases he : e.1 = k
    · simp [setField, lookupStr, he]
    · simp [setField, lookupStr, he, ih]

theorem lookupStr_set_ne (l : List (String × JVal)) (k k' : String) (v : JVal)
    (h : ¬ k' = k) : lookupStr (setField l k v) k' = lookupStr l k' := by
  have h' : ¬ k = k' := fun hk => h hk.symm
  induction l with
  | nil => simp [setField, lookupStr, h']
  | cons e rest ih =>
    by_cases he : e.1 = k
    · simp [setField, lookupStr, he, h']
    · by_cases he' : e.1 = k'
      · simp [setField, lookupStr, he, he', h]
      · simp [setField, lookupStr, he, he', ih]

theorem setField_set_set (l : List (String × JVal)) (k : String) (a b : JVal) :
    setField (setField l k a) k b = setField l k b := by
  induction l with
  | nil => simp [setField]
  | cons e rest ih =>
    by_cases he : e.1 = k
    · simp [setField, he]
    · simp [setField, he, ih]

theorem setField_self (l : List (String × JVal)) (k : String) (v : JVal)
    (h : lookupStr l k = some v) : setField l k v = l := by
  induction l with
  | nil => simp [lookupStr] at h
  | cons e rest ih =>
    obtain ⟨k1, v1⟩ := e
    by_cases he : k1 = k
    · subst he
      simp only [lookupStr, if_pos rfl] at h
      injection h with h1
      subst h1
      simp [setField]
    · simp only [lookupStr, if_neg he] at h
      simp [setField, he, ih h]

theorem jGet_obj (fields : List (String × JVal)) (k : String) :
    jGet (.obj fields) k = lookupStr fields k := rfl

theorem jGet_some_obj (j : JVal) (k : String) (v : JVal) (h : jGet j k = some v) :
    ∃ fields, j = .obj fields := by
  cases j <;> simp [jGet] at h ⊢

theorem jGet_jSet_self (fields : List (String × JVal)) (k : String) (v : JVal) :
    jGet (jSet (.obj fields) k v) k = some v := by
  simp [jGet, jSet, lookupStr_set_self]

theorem jGet_jSet_ne (fields : List (String × JVal)) (k k' : String) (v : JVal)
    (h : ¬ k' = k) : jGet (jSet (.obj fields) k v) k' = jGet (.obj fields) k' := by
  simp [jGet, jSet, lookupStr_set_ne _ _ _ _ h]

theorem jSet_jSet (j : JVal) (k : String) (a b : JVal) :
    jSet (jSet j k a) k b = jSet j k b := by
  cases j <;> simp [jSet, setField_set_set]

theorem jSet_self (j : JVal) (k : String) (v : JVal) (h : jGet j k = some v) :
    jSet j k v = j := by
  obtain ⟨fields, rfl⟩ := jGet_some_obj j k v h
  simp only [jGet] at h
  simp [jSet, setField_self _ _ _ h]

theorem jGet_appendValidation_ne (m e : JVal) (k : String) (h : ¬ k = "validations")
    (hm : ∃ fields, m = .obj fields) :
    jGet (appendValidation m e) k = jGet m k := by
  obtain ⟨fields, rfl⟩ := hm
  unfold appendValidation
  cases hv : jGet (JVal.obj fields) k with
  | none =>
    cases hvv : jGet (JVal.obj fields) "validations" with
    | none => simp [jGet_jSet_ne _ _ _ _ h, hv]
    | some w => cases w <;> simp [jGet_jSet_ne _ _ _ _ h, hv]
  | some w =>
    cases hvv : jGet (JVal.obj fields) "validations" with
    | none => simp [jGet_jSet_ne _ _ _ _ h, hv]
    | some w' => cases w' <;> simp [jGet_jSet_ne _ _ _ _ h, hv]

theorem jGet_appendValidation_self (m e : JVal) (vs : List JVal)
    (h : jGet m "validations" = some (.arr vs)) :
    jGet (appendValidation m e) "validations" = some (.arr (vs ++ [e])) := by
  obtain ⟨fields, rfl⟩ := jGet_some_obj _ _ _ h
  unfold appendValidation
  rw [h]
  exact jGet_jSet_self _ _ _

/- ----------------------------------------------------------------- -/
/- C2: unsupported networks are rejected before any side effect.      -/
/- ----------------------------------------------------------------- -/

/-- C2: if any requested network differs (case-insensitively) from the
single enabled network `"algo"`, `scenario1_notarize` fails with the
`Unimplemented` error and returns the input state unchanged — no
document bytes are stored, no metadata file is written, and no deferred
notarization task (the only route to a ledger submission) is queued,
since an error outcome carries no task list. -/
theorem C2_unsupported_network_rejected (sha : List Nat → String) (now : String)
    (fs : FS) (req : S1Req)
    (h : ∃ ch ∈ req.selected_chain, ¬ strLower ch = "algo") :
    scenario1_notarize sha now fs req = (fs, .error .unimplemented) := by
  have hb : validateBlockchainsFails req.selected_chain = true := by
    rcases h with ⟨ch, hmem, hne⟩
    simp only [validateBlockchainsFails, List.any_eq_true]
    exact ⟨ch, hmem, by simpa using hne⟩
  simp [scenario1_notarize, hb]

/-- Witness for C2 at the spec's own scenario `["algo", "other"]`. -/
theorem C2_unsupported_network_rejected_witness :
    (∃ ch ∈ ["algo", "other"], ¬ strLower ch = "algo") ∧
    scenario1_notarize (fun _ => "") "T" ⟨[], []⟩
      ⟨[1, 2], "a.txt", "ns", "", none, ["algo", "other"]⟩
      = (⟨[], []⟩, .error .unimplemented) :=
  ⟨⟨"other", by simp, by decide⟩,
   C2_unsupported_network_rejected _ _ _ _ ⟨"other", by simp, by decide⟩⟩

/- ----------------------------------------------------------------- -/
/- C3: the bounded-retry funding loop.                                -/
/- ----------------------------------------------------------------- -/

/-- C3: `ensure_funded` iterates at most `maxAttempts` times; an
iteration reads the balance and returns it at once when it meets
`minBalance`, and otherwise issues exactly one funding request for
`topupAmount` (one `fundingRequest` event) and sleeps before the next
check; exhausted attempts end with a final read whose value is returned
without raising, threshold met or not.  On the spec's scenario
(min 100, top-up 50, 3 attempts, balance 0, each request adding 50) the
loop returns 100 after exactly two funding requests — the third
iteration reads 100 and stops without a third request. -/
theorem C3_ensure_funded_loop :
    (∀ (σ : Type) (getBal : σ → Nat) (fund : σ → Nat → σ) (sleep : σ → σ)
        (minBal topup n : Nat) (s : σ),
      (minBal ≤ getBal s →
        ensure_funded getBal fund sleep minBal topup (n + 1) s
          = (getBal s, s, [.balanceRead (getBal s)])) ∧
      (¬ minBal ≤ getBal s →
        ensure_funded getBal fund sleep minBal topup (n + 1) s
          = (let r := ensure_funded getBal fund sleep minBal topup n (sleep (fund s topup))
             (r.1, r.2.1, .balanceRead (getBal s) :: .fundingRequest topup :: r.2.2))) ∧
      ensure_funded getBal fund sleep minBal topup 0 s
        = (getBal s, s, [.balanceRead (getBal s)]))
    ∧ ensure_funded (σ := Nat) id (fun b a => b + a) id 100 50 3 0
        = (100, 100, [.balanceRead 0, .fundingRequest 50, .balanceRead 50,
            .fundingRequest 50, .balanceRead 100]) := by
  refine ⟨fun σ getBal fund sleep minBal topup n s => ⟨fun h => ?_, fun h => ?_, rfl⟩, by decide⟩
  · simp [ensure_funded, h]
  · simp [ensure_funded, h]

/-- Witness for C3: an environment already above the threshold returns
its balance at once with no funding request. -/
theorem C3_ensure_funded_loop_witness :
    (100 ≤ (150 : Nat)) ∧
    ensure_funded (σ := Nat) id (fun b a => b + a) id 100 50 6 150
      = (150, 150, [.balanceRead 150]) :=
  ⟨by decide,
   (C3_ensure_funded_loop.1 Nat id (fun b a => b + a) id 100 50 5 150).1 (by decide)⟩

/- ----------------------------------------------------------------- -/
/- C5: the MetadataRecord computed on upload.                         -/
/- ----------------------------------------------------------------- -/

/-- C5 counterexample: the claim says `type` is the *lowercase* file
extension, but `save_document_and_metadata` stores
`file_path.suffix.lstrip(".")` without case normalization: uploading
`A.TXT` records `file_type = "TXT"`, not `"txt"`. -/
theorem C5_counterexample_type_not_lowercased :
    (save_document_and_metadata (fun _ => "h0") "T0" ⟨[], []⟩ [1] "A.TXT" "ns" "" none).2
        = .ok ⟨"h0", 1, "TXT", "T0"⟩
      ∧ ¬ ("TXT" : String) = "txt" := by
  constructor
  · rfl
  · decide

/-- C5 (amended: `type` is the extension exactly as written in the file
name — `suffix.lstrip('.')` — with the `"unknown"` sentinel when there
is none; it is not lowercased): a successful upload persists the bytes
unchanged at the resolved path and stores a sidecar whose
`document_hash` is the content hash of exactly those bytes,
`file_weight` their count, `file_type` as above, `validations` the
empty list, `upload_date` the write-time stamp; the caller's `extras`
mapping is merged, every non-computed key surviving verbatim, and on a
collision the computed field wins (the computed value is stored no
matter what `extras` held). -/
theorem C5_upload_metadata_fields (sha : List Nat → String) (now : String) (fs : FS)
    (file_bytes : List Nat) (file_name storage_id folder_path : String)
    (extras : List (String × JVal))
    (hguard : (rootPath storage_id).isPrefixOf
      (resolveRel (rootPath storage_id) folder_path) = true)
    (hparent : dirExistsB (mkdirP fs (resolveRel (rootPath storage_id) folder_path))
      (resolveRel (resolveRel (rootPath storage_id) folder_path) file_name).dropLast = true)
    (hne : ¬ resolveRel (resolveRel (rootPath storage_id) folder_path)
        (file_name ++ "-METADATA.JSON")
      = resolveRel (resolveRel (rootPath storage_id) folder_path) file_name) :
    let target := resolveRel (rootPath storage_id) folder_path
    let filePath := resolveRel target file_name
    let metaPath := resolveRel target (file_name ++ "-METADATA.JSON")
    let sfx := lstripDots (pathSuffix (lastNameOf filePath))
    let ftype := if sfx = "" then "unknown" else sfx
    let r := save_document_and_metadata sha now fs file_bytes file_name storage_id
      folder_path (some (.obj extras))
    r.2 = .ok ⟨sha file_bytes, file_bytes.length, ftype, now⟩
      ∧ lookupF r.1.files filePath = some (.raw file_bytes)
      ∧ (∃ m, lookupF r.1.files metaPath = some (.jdata m)
          ∧ jGet m "document_hash" = some (.str (sha file_bytes))
          ∧ jGet m "file_weight" = some (.num file_bytes.length)
          ∧ jGet m "file_type" = some (.str ftype)
          ∧ jGet m "upload_date" = some (.str now)
          ∧ jGet m "validations" = some (.arr [])
          ∧ (∀ k, ¬ k ∈ ["document_hash", "storage_id", "folder_path", "file_name",
              "file_weight", "file_type", "upload_date", "validations"] →
              jGet m k = lookupStr extras k)) := by
  intro target filePath metaPath sfx ftype r
  have hr : r = save_document_and_metadata sha now fs file_bytes file_name storage_id
      folder_path (some (.obj extras)) := rfl
  rw [save_document_and_metadata] at hr
  simp only [hguard, if_true, hparent, if_true] at hr
  refine ⟨by rw [hr], ?_, ?_⟩
  · rw [hr]
    show lookupF (insertF _ metaPath _) filePath = some (.raw file_bytes)
    rw [lookupF_insert_ne _ _ _ _ (fun hh => hne hh.symm)]
    exact lookupF_insert_self _ _ _
  · refine ⟨_, by rw [hr]; exact lookupF_insert_self _ _ _, ?_, ?_, ?_, ?_, ?_, ?_⟩
    · simp only [Option.getD, jSet, jGet]
      rw [lookupStr_set_ne _ _ _ _ (by decide), lookupStr_set_ne _ _ _ _ (by decide),
        lookupStr_set_ne _ _ _ _ (by decide), lookupStr_set_ne _ _ _ _ (by decide),
        lookupStr_set_ne _ _ _ _ (by decide), lookupStr_set_ne _ _ _ _ (by decide),
        lookupStr_set_ne _ _ _ _ (by decide)]
      exact lookupStr_set_self _ _ _
    · simp only [Option.getD, jSet, jGet]
      rw [lookupStr_set_ne _ _ _ _ (by decide), lookupStr_set_ne _ _ _ _ (by decide),
        lookupStr_set_ne _ _ _ _ (by decide)]
      exact lookupStr_set_self _ _ _
    · simp only [Option.getD, jSet, jGet]
      rw [lookupStr_set_ne _ _ _ _ (by decide), lookupStr_set_ne _ _ _ _ (by decide)]
      exact lookupStr_set_self _ _ _
    · simp only [Option.getD, jSet, jGet]
      rw [lookupStr_set_ne _ _ _ _ (by decide)]
      exact lookupStr_set_self _ _ _
    · simp only [Option.getD, jSet, jGet]
      exact lookupStr_set_self _ _ _
    · intro k hk
      simp only [List.mem_cons, List.not_mem_nil, or_false] at hk
      push_neg at hk
      obtain ⟨h1, h2, h3, h4, h5, h6, h7, h8⟩ := hk
      simp only [Option.getD, jSet, jGet]
      rw [lookupStr_set_ne _ _ _ _ h8, lookupStr_set_ne _ _ _ _ h7,
        lookupStr_set_ne _ _ _ _ h6, lookupStr_set_ne _ _ _ _ h5,
        lookupStr_set_ne _ _ _ _ h4, lookupStr_set_ne _ _ _ _ h3,
        lookupStr_set_ne _ _ _ _ h2, lookupStr_set_ne _ _ _ _ h1]

/- ----------------------------------------------------------------- -/
/- C1: the traversal guard.                                           -/
/- ----------------------------------------------------------------- -/

/-- C1 counterexample: the claim demands that *every* path argument
which does not canonicalize to a location strictly inside the namespace
root fail with `PathViolation` before any mutation, and in particular
that any escaping `..` path create nothing.  Uploading with
`folder_path = ""` (which canonicalizes to the root itself, not
strictly inside it) and `file_name = "../evil.txt"` (a traversal
segment, joined after the guard without its own check) succeeds and
creates `DATA/evil.txt` *outside* the namespace root `DATA/ns`. -/
theorem C1_counterexample_filename_traversal :
    (save_document_and_metadata (fun _ => "h0") "T0" ⟨[], []⟩ [7] "../evil.txt" "ns" "" none).2
        = .ok ⟨"h0", 1, "txt", "T0"⟩
    ∧ lookupF (save_document_and_metadata (fun _ => "h0") "T0" ⟨[], []⟩ [7] "../evil.txt"
        "ns" "" none).1.files ["cwd", "DATA", "evil.txt"] = some (.raw [7])
    ∧ (rootPath "ns").isPrefixOf ["cwd", "DATA", "evil.txt"] = false
    ∧ resolveRel (rootPath "ns") "" = rootPath "ns" := by
  exact ⟨rfl, rfl, by decide, by decide⟩

/-- C1 (amended: every *guarded* path argument — the upload
`folder_path`, the query `folder_path`, the rename/move/delete `path`,
the move destination folder, the download path and the deferred task's
relative path — that does not canonicalize to the namespace root or a
location inside it fails with `PathViolation` before any filesystem
mutation, the state being returned unchanged; the namespace root itself
is accepted, and the upload `file_name` is joined after the guard
without a check of its own): each operation returns the input state
untouched together with the `PathViolation` error whenever its guarded
argument escapes. -/
theorem C1_guarded_paths_rejected (fs : FS) (sid rel : String)
    (hesc : (rootPath sid).isPrefixOf (resolveRel (rootPath sid) rel) = false) :
    (∀ sha now bytes fn extras,
      save_document_and_metadata sha now fs bytes fn sid rel extras
        = (fs, .error .pathViolation))
    ∧ (∀ fn chains, validateBlockchainsFails chains = false →
      scenario1_query fs sid rel fn chains = .error .pathViolation)
    ∧ (∀ nn, rename_item fs sid rel nn = (fs, .error .pathViolation))
    ∧ (∀ dst, move_item fs sid rel dst = (fs, .error .pathViolation))
    ∧ (∀ src t, safeTarget (rootPath sid) src = .ok t →
      move_item fs sid src rel = (fs, .error .pathViolation))
    ∧ (∀ rec, delete_item fs sid rel rec = (fs, .error .pathViolation))
    ∧ download_item fs sid rel = .error .pathViolation
    ∧ (∀ (σ : Type) (sha : List Nat → String) (c : Client σ) (s : σ),
      simulate_transaction sha c fs s sid rel = (fs, s, [], .error .pathViolation)) := by
  have hsafe : safeTarget (rootPath sid) rel = .error .pathViolation := by
    unfold safeTarget
    simp [hesc]
  refine ⟨?_, ?_, ?_, ?_, ?_, ?_, ?_, ?_⟩
  · intro sha now bytes fn extras
    simp [save_document_and_metadata, hesc]
  · intro fn chains hch
    simp [scenario1_query, hch, hesc]
  · intro nn
    simp [rename_item, hsafe]
  · intro dst
    simp [move_item, hsafe]
  · intro src t hsrc
    simp [move_item, hsrc, hsafe]
  · intro rec
    simp [delete_item, hsafe]
  · simp [download_item, hsafe]
  · intro σ sha c s
    simp [simulate_transaction, hsafe]

/-- Witness for C1 at the escaping path `"../x"`. -/
theorem C1_guarded_paths_rejected_witness :
    ((rootPath "ns").isPrefixOf (resolveRel (rootPath "ns") "../x") = false)
    ∧ rename_item ⟨[], []⟩ "ns" "../x" "y" = (⟨[], []⟩, .error .pathViolation)
    ∧ delete_item ⟨[], []⟩ "ns" "../x" true = (⟨[], []⟩, .error .pathViolation)
    ∧ download_item ⟨[], []⟩ "ns" "../x" = .error .pathViolation := by
  have h := C1_guarded_paths_rejected ⟨[], []⟩ "ns" "../x" (by decide)
  exact ⟨by decide, h.2.2.1 "y", h.2.2.2.2.2.1 true, h.2.2.2.2.2.2.1⟩

/-- Witness for C5 at the spec's scenario: 10 bytes named `a.txt` in
namespace `ns1` give fingerprint `sha(bytes)`, type `txt`, size 10. -/
theorem C5_upload_metadata_fields_witness :
    ((rootPath "ns1").isPrefixOf (resolveRel (rootPath "ns1") "") = true)
    ∧ (save_document_and_metadata (fun bs => "H" ++ toString bs.length) "T0" ⟨[], []⟩
        [0, 1, 2, 3, 4, 5, 6, 7, 8, 9] "a.txt" "ns1" "" (some (.obj [("autore", .str "MR")]))).2
      = .ok ⟨"H10", 10, "txt", "T0"⟩ := by
  refine ⟨by decide, ?_⟩
  have h := C5_upload_metadata_fields (fun bs => "H" ++ toString bs.length) "T0" ⟨[], []⟩
    [0, 1, 2, 3, 4, 5, 6, 7, 8, 9] "a.txt" "ns1" "" [("autore", .str "MR")]
    (by decide) (by decide) (by decide)
  exact h.1

/- ----------------------------------------------------------------- -/
/- Frame lemmas: which paths each operation can touch.                -/
/- ----------------------------------------------------------------- -/

theorem simulateStep3_frame {σ : Type} (sha : List Nat → String) (c : Client σ) (fs : FS)
    (s : σ) (sid rel : String) (contentPath metaPath onchainPath : FPath) (h : String)
    (meta : JVal) (p : FPath) (hp1 : ¬ p = metaPath) (hp2 : ¬ p = onchainPath) :
    lookupF (simulateStep3 sha c fs s sid rel contentPath metaPath onchainPath h meta).1.files p
      = lookupF fs.files p := by
  unfold simulateStep3 errBranchFS
  split
  · rfl
  · dsimp only
    split
    all_goals try (rw [lookupF_insert_ne _ _ _ _ hp1, lookupF_insert_ne _ _ _ _ hp2])
    split
    all_goals try (rw [lookupF_insert_ne _ _ _ _ hp1, lookupF_insert_ne _ _ _ _ hp2])
    split
    all_goals try (rw [lookupF_insert_ne _ _ _ _ hp1, lookupF_insert_ne _ _ _ _ hp2])
    split
    all_goals rw [lookupF_insert_ne _ _ _ _ hp1, lookupF_insert_ne _ _ _ _ hp2]

theorem simulateRecompute_frame {σ : Type} (sha : List Nat → String) (c : Client σ) (fs : FS)
    (s : σ) (sid rel : String) (contentPath metaPath onchainPath : FPath) (meta0 : JVal)
    (p : FPath) (hp1 : ¬ p = metaPath) (hp2 : ¬ p = onchainPath) :
    lookupF (simulateRecompute sha c fs s sid rel contentPath metaPath onchainPath meta0).1.files p
      = lookupF fs.files p := by
  unfold simulateRecompute
  split
  · rw [simulateStep3_frame _ _ _ _ _ _ _ _ _ _ _ _ hp1 hp2, lookupF_insert_ne _ _ _ _ hp1]
  · rfl

theorem simulateStep2_frame {σ : Type} (sha : List Nat → String) (c : Client σ) (fs : FS)
    (s : σ) (sid rel : String) (contentPath metaPath onchainPath : FPath) (meta0 : JVal)
    (p : FPath) (hp1 : ¬ p = metaPath) (hp2 : ¬ p = onchainPath) :
    lookupF (simulateStep2 sha c fs s sid rel contentPath metaPath onchainPath meta0).1.files p
      = lookupF fs.files p := by
  unfold simulateStep2
  split
  · split
    · exact simulateRecompute_frame _ _ _ _ _ _ _ _ _ _ _ hp1 hp2
    · exact simulateStep3_frame _ _ _ _ _ _ _ _ _ _ _ _ hp1 hp2
  · split
    · rfl
    · exact simulateRecompute_frame _ _ _ _ _ _ _ _ _ _ _ hp1 hp2
  · exact simulateRecompute_frame _ _ _ _ _ _ _ _ _ _ _ hp1 hp2

theorem simulate_transaction_frame {σ : Type} (sha : List Nat → String) (c : Client σ)
    (fs : FS) (s : σ) (sid rel : String) (t : FPath)
    (hsafe : safeTarget (rootPath sid) rel = .ok t) (p : FPath)
    (hp1 : ¬ p = metaPathOf t) (hp2 : ¬ p = onchainPathOf t) :
    lookupF (simulate_transaction sha c fs s sid rel).1.files p = lookupF fs.files p := by
  unfold simulate_transaction
  dsimp only
  rw [hsafe]
  dsimp only
  split
  · exact simulateStep2_frame _ _ _ _ _ _ _ _ _ _ _ hp1 hp2
  · rfl

theorem lookupF_mapData (f : FPath → FData → FData) (l : List (FPath × FData)) (p : FPath) :
    lookupF (l.map (fun e => (e.1, f e.1 e.2))) p = (lookupF l p).map (f p) := by
  induction l with
  | nil => rfl
  | cons e rest ih =>
    obtain ⟨q, d⟩ := e
    by_cases hq : q = p
    · subst hq
      simp [lookupF]
    · simp [lookupF, hq, ih]

theorem refresh_raw_frame (fs : FS) (sid : String) (p : FPath) (bs : List Nat)
    (h : lookupF fs.files p = some (.raw bs)) :
    lookupF (refresh_metadata_paths fs sid).files p = some (.raw bs) := by
  unfold refresh_metadata_paths
  dsimp only
  split
  · show lookupF (fs.files.map (fun e => (e.1, refreshData fs (rootPath sid) e.1 e.2))) p = _
    rw [lookupF_mapData, h]
    rfl
  · exact h

theorem delete_item_file_frame (fs : FS) (sid path : String) (target : FPath)
    (hsafe : safeTarget (rootPath sid) path = .ok target)
    (hdir : dirExistsB fs target = false) (hf : isFileB fs target = true)
    (rec : Bool) (p : FPath) (h1 : ¬ p = target) (h2 : ¬ p = metaPathOf target)
    (h3 : ¬ p = onchainPathOf target) :
    lookupF (delete_item fs sid path rec).1.files p = lookupF fs.files p := by
  unfold delete_item
  dsimp only
  rw [hsafe]
  dsimp only
  simp only [hdir, hf, Bool.false_eq_true, if_false, if_true]
  rw [lookupF_erase_ne _ _ _ h3, lookupF_erase_ne _ _ _ h2, lookupF_erase_ne _ _ _ h1]

theorem relocateSidecars_frame (fs : FS) (target newPath : FPath) (f : JVal → JVal)
    (p : FPath)
    (h3 : ¬ p = metaPathOf target) (h4 : ¬ p = metaPathOf newPath)
    (h5 : ¬ p = onchainPathOf target) (h6 : ¬ p = onchainPathOf newPath) :
    lookupF (relocateSidecars fs target newPath f).1.files p = lookupF fs.files p := by
  unfold relocateSidecars
  dsimp only
  repeat' split
  all_goals simp only [lookupF_insert_ne, lookupF_moveEntry_other, h3, h4, h5, h6,
    not_false_eq_true]

theorem rename_item_file_frame (fs : FS) (sid path nn : String) (target : FPath)
    (hsafe : safeTarget (rootPath sid) path = .ok target)
    (hv1 : ¬ nn = "") (hv2 : ¬ nn = ".") (hv3 : containsSlashB nn = false)
    (hf : isFileB fs target = true)
    (hd : dirExistsB fs (target.dropLast ++ [nn]) = false)
    (p : FPath)
    (h1 : ¬ p = target) (h2 : ¬ p = target.dropLast ++ [nn])
    (h3 : ¬ p = metaPathOf target) (h4 : ¬ p = metaPathOf (target.dropLast ++ [nn]))
    (h5 : ¬ p = onchainPathOf target) (h6 : ¬ p = onchainPathOf (target.dropLast ++ [nn])) :
    lookupF (rename_item fs sid path nn).1.files p = lookupF fs.files p := by
  unfold rename_item
  dsimp only
  rw [hsafe]
  dsimp only
  simp only [hv1, hv2, hv3, hf, hd, Bool.false_or, Bool.or_false,
    Bool.or_self, Bool.false_eq_true, if_false, if_true, decide_eq_true_eq, if_pos, ite_true,
    ite_false, not_false_eq_true]
  rw [relocateSidecars_frame _ _ _ _ _ h3 h4 h5 h6]
  exact lookupF_moveEntry_other _ _ _ _ h1 h2

theorem move_item_file_frame (fs : FS) (sid src dst : String) (source destDir : FPath)
    (hsafe : safeTarget (rootPath sid) src = .ok source)
    (hsafe2 : safeTarget (rootPath sid) dst = .ok destDir)
    (hf : isFileB fs source = true)
    (hd : dirExistsB (mkdirP fs destDir) (destDir ++ [lastNameOf source]) = false)
    (p : FPath)
    (h1 : ¬ p = source) (h2 : ¬ p = destDir ++ [lastNameOf source])
    (h3 : ¬ p = metaPathOf source) (h4 : ¬ p = metaPathOf (destDir ++ [lastNameOf source]))
    (h5 : ¬ p = onchainPathOf source)
    (h6 : ¬ p = onchainPathOf (destDir ++ [lastNameOf source])) :
    lookupF (move_item fs sid src dst).1.files p = lookupF fs.files p := by
  unfold move_item
  dsimp only
  rw [hsafe, hsafe2]
  dsimp only
  have hf0 : isFileB (mkdirP fs destDir) source = true := hf
  simp only [hf0, hd, Bool.false_eq_true, if_false, if_true, ite_true, ite_false]
  split
  · rw [relocateSidecars_frame _ _ _ _ _ h3 h4 h5 h6]
    exact lookupF_moveEntry_other _ _ _ _ h1 h2
  · exact lookupF_moveEntry_other _ _ _ _ h1 h2

/- ----------------------------------------------------------------- -/
/- C9: document immutability.                                         -/
/- ----------------------------------------------------------------- -/

/-- C9 counterexample: the claim says the only way to change the
content at a path is delete-then-recreate, but a second upload to the
same namespace, folder and file name overwrites the stored bytes in
place with no delete operation involved: after uploading `[1]` and then
`[2]` as `ns/a.txt`, the path holds `[2]`. -/
theorem C9_counterexample_upload_overwrite :
    lookupF (save_document_and_metadata (fun _ => "h1") "T1" ⟨[], []⟩ [1] "a.txt" "ns" ""
      none).1.files ["cwd", "DATA", "ns", "a.txt"] = some (.raw [1])
    ∧ lookupF (save_document_and_metadata (fun _ => "h2") "T2"
        (save_document_and_metadata (fun _ => "h1") "T1" ⟨[], []⟩ [1] "a.txt" "ns" "" none).1
        [2] "a.txt" "ns" "" none).1.files ["cwd", "DATA", "ns", "a.txt"] = some (.raw [2])
    ∧ (save_document_and_metadata (fun _ => "h2") "T2"
        (save_document_and_metadata (fun _ => "h1") "T1" ⟨[], []⟩ [1] "a.txt" "ns" "" none).1
        [2] "a.txt" "ns" "" none).2 = .ok ⟨"h2", 1, "txt", "T2"⟩ :=
  ⟨rfl, rfl, rfl⟩

/-- C9 (amended: no operation *other than upload* edits the bytes
stored at an existing path — upload to an existing path overwrites its
bytes in place, and rename/move may likewise replace a colliding
destination, so delete-then-recreate is not the only way to change
content at a path; all other operations leave raw bytes untouched):
a file rename touches nothing outside the six source/destination
content, sidecar and artifact paths and carries the source's bytes to
the destination unchanged; a file move likewise; a file delete touches
nothing outside the removed triple; the metadata resynchronization
never modifies any raw-bytes file; and the deferred notarization task
touches nothing outside the sidecar and artifact paths — in particular
it never rewrites the document bytes themselves. -/
theorem C9_no_inplace_edit_except_upload :
    (∀ (fs : FS) (sid path nn : String) (target : FPath),
      safeTarget (rootPath sid) path = .ok target → ¬ nn = "" → ¬ nn = "." →
      containsSlashB nn = false → isFileB fs target = true →
      dirExistsB fs (target.dropLast ++ [nn]) = false →
      (∀ p, ¬ p = target → ¬ p = target.dropLast ++ [nn] →
        ¬ p = metaPathOf target → ¬ p = metaPathOf (target.dropLast ++ [nn]) →
        ¬ p = onchainPathOf target → ¬ p = onchainPathOf (target.dropLast ++ [nn]) →
        lookupF (rename_item fs sid path nn).1.files p = lookupF fs.files p)
      ∧ ((¬ target.dropLast ++ [nn] = metaPathOf target) →
         (¬ target.dropLast ++ [nn] = metaPathOf (target.dropLast ++ [nn])) →
         (¬ target.dropLast ++ [nn] = onchainPathOf target) →
         (¬ target.dropLast ++ [nn] = onchainPathOf (target.dropLast ++ [nn])) →
         lookupF (rename_item fs sid path nn).1.files (target.dropLast ++ [nn])
           = lookupF fs.files target))
    ∧ (∀ (fs : FS) (sid src dst : String) (source destDir : FPath),
      safeTarget (rootPath sid) src = .ok source →
      safeTarget (rootPath sid) dst = .ok destDir →
      isFileB fs source = true →
      dirExistsB (mkdirP fs destDir) (destDir ++ [lastNameOf source]) = false →
      ∀ p, ¬ p = source → ¬ p = destDir ++ [lastNameOf source] →
        ¬ p = metaPathOf source → ¬ p = metaPathOf (destDir ++ [lastNameOf source]) →
        ¬ p = onchainPathOf source → ¬ p = onchainPathOf (destDir ++ [lastNameOf source]) →
        lookupF (move_item fs sid src dst).1.files p = lookupF fs.files p)
    ∧ (∀ (fs : FS) (sid path : String) (target : FPath) (rec : Bool),
      safeTarget (rootPath sid) path = .ok target → dirExistsB fs target = false →
      isFileB fs target = true →
      ∀ p, ¬ p = target → ¬ p = metaPathOf target → ¬ p = onchainPathOf target →
        lookupF (delete_item fs sid path rec).1.files p = lookupF fs.files p)
    ∧ (∀ (fs : FS) (sid : String) (p : FPath) (bs : List Nat),
      lookupF fs.files p = some (.raw bs) →
      lookupF (refresh_metadata_paths fs sid).files p = some (.raw bs))
    ∧ (∀ (σ : Type) (sha : List Nat → String) (c : Client σ) (fs : FS) (s : σ)
        (sid rel : String) (t : FPath),
      safeTarget (rootPath sid) rel = .ok t →
      ∀ p, ¬ p = metaPathOf t → ¬ p = onchainPathOf t →
        lookupF (simulate_transaction sha c fs s sid rel).1.files p = lookupF fs.files p) := by
  refine ⟨?_, ?_, ?_, ?_, ?_⟩
  · intro fs sid path nn target hsafe hv1 hv2 hv3 hf hd
    constructor
    · intro p h1 h2 h3 h4 h5 h6
      exact rename_item_file_frame fs sid path nn target hsafe hv1 hv2 hv3 hf hd p
        h1 h2 h3 h4 h5 h6
    · intro g3 g4 g5 g6
      obtain ⟨d, hdlook⟩ : ∃ d, lookupF fs.files target = some d := by
        unfold isFileB at hf
        cases hl : lookupF fs.files target with
        | none => rw [hl] at hf; simp at hf
        | some d => exact ⟨d, rfl⟩
      unfold rename_item
      dsimp only
      rw [hsafe]
      dsimp only
      simp only [hv1, hv2, hv3, hf, hd, Bool.false_or, Bool.or_false,
        Bool.or_self, Bool.false_eq_true, if_false, if_true, decide_eq_true_eq, if_pos,
        ite_true, ite_false, not_false_eq_true]
      rw [relocateSidecars_frame _ _ _ _ _ g3 g4 g5 g6,
        lookupF_moveEntry_dst _ _ _ _ hdlook, hdlook]
  · intro fs sid src dst source destDir hsafe hsafe2 hf hd p h1 h2 h3 h4 h5 h6
    exact move_item_file_frame fs sid src dst source destDir hsafe hsafe2 hf hd p
      h1 h2 h3 h4 h5 h6
  · intro fs sid path target rec hsafe hdir hf p h1 h2 h3
    exact delete_item_file_frame fs sid path target hsafe hdir hf rec p h1 h2 h3
  · intro fs sid p bs h
    exact refresh_raw_frame fs sid p bs h
  · intro σ sha c fs s sid rel t hsafe p hp1 hp2
    exact simulate_transaction_frame sha c fs s sid rel t hsafe p hp1 hp2

/-- Witness for C9: in a two-file namespace, deleting `a.txt` leaves
`sub/b.txt`'s bytes untouched, and the resynchronization leaves raw
bytes untouched. -/
theorem C9_no_inplace_edit_except_upload_witness :
    (safeTarget (rootPath "ns") "a.txt" = .ok ["cwd", "DATA", "ns", "a.txt"])
    ∧ lookupF (delete_item
        ⟨[(["cwd", "DATA", "ns", "a.txt"], .raw [1]),
          (["cwd", "DATA", "ns", "sub", "b.txt"], .raw [2])], []⟩
        "ns" "a.txt" false).1.files ["cwd", "DATA", "ns", "sub", "b.txt"]
      = some (.raw [2])
    ∧ lookupF (refresh_metadata_paths
        ⟨[(["cwd", "DATA", "ns", "a.txt"], .raw [1])], []⟩ "ns").files
        ["cwd", "DATA", "ns", "a.txt"] = some (.raw [1]) := by
  refine ⟨rfl, ?_, ?_⟩
  · have h := C9_no_inplace_edit_except_upload.2.2.1
      ⟨[(["cwd", "DATA", "ns", "a.txt"], .raw [1]),
        (["cwd", "DATA", "ns", "sub", "b.txt"], .raw [2])], []⟩
      "ns" "a.txt" ["cwd", "DATA", "ns", "a.txt"] false rfl (by decide) (by rfl)
      ["cwd", "DATA", "ns", "sub", "b.txt"] (by decide) (by decide) (by decide)
    rw [h]
    rfl
  · exact C9_no_inplace_edit_except_upload.2.2.2.1
      ⟨[(["cwd", "DATA", "ns", "a.txt"], .raw [1])], []⟩ "ns"
      ["cwd", "DATA", "ns", "a.txt"] [1] rfl

/- ----------------------------------------------------------------- -/
/- Path-name disequalities: a content path, its sidecar and its
   on-chain artifact are pairwise distinct.                           -/
/- ----------------------------------------------------------------- -/

theorem string_data_append (a b : String) : (a ++ b).data = a.data ++ b.data := rfl

theorem string_ne_append_right (s t : String) (h : ¬ t = "") : ¬ s = s ++ t := by
  intro he
  apply h
  have hd : s.data = s.data ++ t.data := by
    rw [← string_data_append, ← he]
  have hnil : t.data = [] := by
    have hlen := congrArg List.length hd
    rw [List.length_append] at hlen
    have : t.data.length = 0 := by omega
    exact List.length_eq_zero.mp this
  cases t with
  | mk d =>
    cases hnil
    rfl

theorem string_append_left_cancel (a b c : String) (h : a ++ b = a ++ c) : b = c := by
  have hd : a.data ++ b.data = a.data ++ c.data := by
    rw [← string_data_append, ← string_data_append, h]
  have hbc := List.append_cancel_left hd
  cases b with
  | mk db =>
    cases c with
    | mk dc =>
      cases hbc
      rfl

theorem lastNameOf_concat (l : List String) (a : String) : lastNameOf (l ++ [a]) = a := by
  simp [lastNameOf]

theorem ne_metaPathOf_self (t : FPath) : ¬ t = metaPathOf t := by
  intro he
  have hl : lastNameOf t = lastNameOf t ++ "-METADATA.JSON" := by
    conv_lhs => rw [he]
    exact lastNameOf_concat _ _
  exact string_ne_append_right _ _ (by decide) hl

theorem ne_onchainPathOf_self (t : FPath) : ¬ t = onchainPathOf t := by
  intro he
  have hl : lastNameOf t = lastNameOf t ++ "-ONCHAIN-METADATA.JSON" := by
    conv_lhs => rw [he]
    exact lastNameOf_concat _ _
  exact string_ne_append_right _ _ (by decide) hl

theorem metaPathOf_ne_onchainPathOf (t : FPath) : ¬ metaPathOf t = onchainPathOf t := by
  intro he
  have h2 : lastNameOf t ++ "-METADATA.JSON" = lastNameOf t ++ "-ONCHAIN-METADATA.JSON" := by
    have := congrArg lastNameOf he
    rwa [metaPathOf, onchainPathOf, lastNameOf_concat, lastNameOf_concat] at this
  have := string_append_left_cancel _ _ _ h2
  exact absurd this (by decide)

/-- `create_asset` unfolded: fund, then submit. -/
theorem create_assetM_eq {σ : Type} (c : Client σ) (payload : String) (s1 : σ) :
    create_assetM c payload s1
      = ((ensure_funded c.getBalance c.fundWallet c.sleepStep c.minBalance
            c.topupAmount 6 s1).2.2 ++ [.submitAsset payload],
         (ensure_funded c.getBalance c.fundWallet c.sleepStep c.minBalance
            c.topupAmount 6 s1).2.1,
         c.submitRes (ensure_funded c.getBalance c.fundWallet c.sleepStep c.minBalance
            c.topupAmount 6 s1).2.1) := rfl

/-- A successful bootstrap unfolded. -/
theorem bootstrapMgr_ok {σ : Type} (c : Client σ) (s : σ) (addr : String)
    (hlog : c.loginErr = none) (hdapp : c.dappErr = none) (hjwt : c.jwtErr = none)
    (hwal : c.walletRes = .ok addr) :
    bootstrapMgr c s
      = ([.login, .dappSetup, .jwtSetup, .walletSetup]
          ++ (ensure_funded c.getBalance c.fundWallet c.sleepStep c.minBalance
              c.topupAmount 6 s).2.2,
         .ok (addr, (ensure_funded c.getBalance c.fundWallet c.sleepStep c.minBalance
              c.topupAmount 6 s).2.1)) := by
  unfold bootstrapMgr
  rw [hlog, hdapp, hjwt, hwal]

/- ----------------------------------------------------------------- -/
/- C6: ledger-submission failure appends one Error entry and nothing
   else about the document changes.                                   -/
/- ----------------------------------------------------------------- -/

/-- The `type` field the except-blocks write for each exception class. -/
def submitKind : SubmitErr → String
  | .apiError _ => "asa_mint_error"
  | .unexpected _ => "unexpected_error"

/-- `str(e)` of the caught exception. -/
def submitMsg : SubmitErr → String
  | .apiError m0 => m0
  | .unexpected m0 => m0

/-- The fixed shape of every `Error` ValidationEntry: a non-null
timestamp, null ledger identifiers, and no `asset_id` key. -/
theorem mkErrEntry_fields (kind msg now : String) :
    jGet (mkErrEntry kind msg now) "timestamp" = some (.str now)
    ∧ jGet (mkErrEntry kind msg now) "txid" = some .null
    ∧ jGet (mkErrEntry kind msg now) "sender" = some .null
    ∧ jGet (mkErrEntry kind msg now) "receiver" = some .null
    ∧ jGet (mkErrEntry kind msg now) "note" = some .null
    ∧ jGet (mkErrEntry kind msg now) "asset_id" = none := by
  refine ⟨?_, ?_, ?_, ?_, ?_, ?_⟩ <;> simp [mkErrEntry, jGet, lookupStr]

/-- C6: when the asset-issuance submission fails during the deferred
notarization step — with a backend `ApiError` or any other exception —
the task completes silently and the document's sidecar gains exactly
one `Error` entry (type `asa_mint_error` resp. `unexpected_error`):
`validations` becomes the old list plus that single entry, every other
metadata field is unchanged, the entry carries a non-null timestamp and
no ledger identifiers (`txid`/`sender`/`receiver`/`note` are null and
no `asset_id` key exists), and the document bytes at the content path
are untouched — the upload is never rolled back. -/
theorem C6_submission_failure_appends_error {σ : Type} (sha : List Nat → String)
    (c : Client σ) (fs : FS) (s : σ) (sid rel : String) (t : FPath) (m : JVal)
    (h : String) (vs : List JVal) (e : SubmitErr) (addr : String)
    (hsafe : safeTarget (rootPath sid) rel = .ok t)
    (hmeta : lookupF fs.files (metaPathOf t) = some (.jdata m))
    (hh : jGet m "document_hash" = some (.str h)) (hne : ¬ h = "")
    (hvs : jGet m "validations" = some (.arr vs))
    (hlog : c.loginErr = none) (hdapp : c.dappErr = none) (hjwt : c.jwtErr = none)
    (hwal : c.walletRes = .ok addr)
    (hsub : ∀ u, c.submitRes u = .error e) :
    (simulate_transaction sha c fs s sid rel).2.2.2 = .ok ()
    ∧ lookupF (simulate_transaction sha c fs s sid rel).1.files t = lookupF fs.files t
    ∧ lookupF (simulate_transaction sha c fs s sid rel).1.files (metaPathOf t)
        = some (.jdata (appendValidation m (mkErrEntry (submitKind e) (submitMsg e) c.now)))
    ∧ jGet (appendValidation m (mkErrEntry (submitKind e) (submitMsg e) c.now)) "validations"
        = some (.arr (vs ++ [mkErrEntry (submitKind e) (submitMsg e) c.now]))
    ∧ (∀ k, ¬ k = "validations" →
        jGet (appendValidation m (mkErrEntry (submitKind e) (submitMsg e) c.now)) k = jGet m k)
    ∧ jGet (mkErrEntry (submitKind e) (submitMsg e) c.now) "timestamp" = some (.str c.now)
    ∧ ¬ (JVal.str c.now) = JVal.null
    ∧ jGet (mkErrEntry (submitKind e) (submitMsg e) c.now) "txid" = some .null
    ∧ jGet (mkErrEntry (submitKind e) (submitMsg e) c.now) "sender" = some .null
    ∧ jGet (mkErrEntry (submitKind e) (submitMsg e) c.now) "receiver" = some .null
    ∧ jGet (mkErrEntry (submitKind e) (submitMsg e) c.now) "asset_id" = none := by
  have hobj : ∃ fields, m = .obj fields := jGet_some_obj _ _ _ hh
  have hr : (simulate_transaction sha c fs s sid rel).1 = errBranchFS
      ⟨insertF fs.files (onchainPathOf t)
        (.raw (utf8Bytes (commitmentPayloadIndentStr h sid rel (lastNameOf t)))),
        fs.dirs⟩
      (metaPathOf t) m (submitKind e) (submitMsg e) c.now
      ∧ (simulate_transaction sha c fs s sid rel).2.2.2 = .ok () := by
    unfold simulate_transaction
    dsimp only
    rw [hsafe]
    dsimp only
    rw [hmeta]
    unfold simulateStep2
    dsimp only
    rw [hh]
    dsimp only
    rw [if_neg hne]
    unfold simulateStep3
    rw [bootstrapMgr_ok c s addr hlog hdapp hjwt hwal]
    dsimp only
    rw [create_assetM_eq, hsub]
    cases e with
    | apiError m0 => exact ⟨rfl, rfl⟩
    | unexpected m0 => exact ⟨rfl, rfl⟩
  refine ⟨hr.2, ?_, ?_, ?_, ?_, ?_, ?_, ?_, ?_, ?_, ?_⟩
  · rw [hr.1]
    unfold errBranchFS
    dsimp only
    rw [lookupF_insert_ne _ _ _ _ (ne_metaPathOf_self t),
      lookupF_insert_ne _ _ _ _ (ne_onchainPathOf_self t)]
  · rw [hr.1]
    unfold errBranchFS
    dsimp only
    exact lookupF_insert_self _ _ _
  · exact jGet_appendValidation_self _ _ _ hvs
  · exact fun k hk => jGet_appendValidation_ne _ _ _ hk hobj
  · exact (mkErrEntry_fields _ _ _).1
  · intro hcon
    cases hcon
  · exact (mkErrEntry_fields _ _ _).2.1
  · exact (mkErrEntry_fields _ _ _).2.2.1
  · exact (mkErrEntry_fields _ _ _).2.2.2.1
  · exact (mkErrEntry_fields _ _ _).2.2.2.2.2

/-- Witness for C6: a failing backend (`ApiError "boom"`) on a stored
document leaves the bytes in place and the run completes silently. -/
theorem C6_submission_failure_appends_error_witness :
    (¬ ("HX" : String) = "")
    ∧ (simulate_transaction (σ := Nat) (fun _ => "MH")
        ⟨none, none, none, .ok "ADDR", id, (· + ·), id, 100, 100,
          fun _ => .error (.apiError "boom"), "T1"⟩
        ⟨[(["cwd", "DATA", "ns", "a.txt"], .raw [1, 2, 3]),
          (["cwd", "DATA", "ns", "a.txt-METADATA.JSON"],
            .jdata (.obj [("document_hash", .str "HX"), ("validations", .arr [])]))], []⟩
        0 "ns" "a.txt").2.2.2 = .ok ()
    ∧ lookupF (simulate_transaction (σ := Nat) (fun _ => "MH")
        ⟨none, none, none, .ok "ADDR", id, (· + ·), id, 100, 100,
          fun _ => .error (.apiError "boom"), "T1"⟩
        ⟨[(["cwd", "DATA", "ns", "a.txt"], .raw [1, 2, 3]),
          (["cwd", "DATA", "ns", "a.txt-METADATA.JSON"],
            .jdata (.obj [("document_hash", .str "HX"), ("validations", .arr [])]))], []⟩
        0 "ns" "a.txt").1.files ["cwd", "DATA", "ns", "a.txt"] = some (.raw [1, 2, 3]) := by
  have h := C6_submission_failure_appends_error (σ := Nat) (fun _ => "MH")
    ⟨none, none, none, .ok "ADDR", id, (· + ·), id, 100, 100,
      fun _ => .error (.apiError "boom"), "T1"⟩
    ⟨[(["cwd", "DATA", "ns", "a.txt"], .raw [1, 2, 3]),
      (["cwd", "DATA", "ns", "a.txt-METADATA.JSON"],
        .jdata (.obj [("document_hash", .str "HX"), ("validations", .arr [])]))], []⟩
    0 "ns" "a.txt" ["cwd", "DATA", "ns", "a.txt"]
    (.obj [("document_hash", .str "HX"), ("validations", .arr [])])
    "HX" [] (.apiError "boom") "ADDR"
    rfl rfl rfl (by decide) rfl rfl rfl rfl rfl (fun u => rfl)
  exact ⟨by decide, h.1, h.2.1.trans rfl⟩

/- ----------------------------------------------------------------- -/
/- C4: the commitment payload and hash.                               -/
/- ----------------------------------------------------------------- -/

/-- Is the event the on-chain-metadata artifact write? -/
def isArtifactEv : Ev → Bool
  | .artifactWrite _ _ => true
  | _ => false

/-- Is the event a dispenser funding request (an on-ledger payment)? -/
def isFundingEv : Ev → Bool
  | .fundingRequest _ => true
  | _ => false

/-- Is the event the asset-issuance submission? -/
def isSubmitEv : Ev → Bool
  | .submitAsset _ => true
  | _ => false

/-- The funding loop emits only balance reads and funding requests. -/
theorem ensure_funded_events {σ : Type} (getBal : σ → Nat) (fund : σ → Nat → σ)
    (sleep : σ → σ) (minBal topup : Nat) (n : Nat) (s : σ) :
    ∀ ev ∈ (ensure_funded getBal fund sleep minBal topup n s).2.2,
      isArtifactEv ev = false ∧ isSubmitEv ev = false := by
  induction n generalizing s with
  | zero =>
    intro ev hev
    simp only [ensure_funded, List.mem_singleton] at hev
    subst hev
    exact ⟨rfl, rfl⟩
  | succ n ih =>
    intro ev hev
    by_cases hb : minBal ≤ getBal s
    · simp only [ensure_funded, if_pos hb, List.mem_singleton] at hev
      subst hev
      exact ⟨rfl, rfl⟩
    · simp only [ensure_funded, if_neg hb, List.mem_cons] at hev
      rcases hev with rfl | rfl | hev
      · exact ⟨rfl, rfl⟩
      · exact ⟨rfl, rfl⟩
      · exact ih _ ev hev

/-- The trace of one notarization attempt after a successful bootstrap:
bootstrap events, then the artifact write carrying the canonical
payload, then the pre-submission funding events, then the single
submission carrying the same payload — regardless of how the submission
turns out. -/
theorem simulateStep3_trace {σ : Type} (sha : List Nat → String) (c : Client σ) (fs : FS)
    (s : σ) (sid rel : String) (cp mp op : FPath) (h : String) (meta : JVal) (addr : String)
    (hlog : c.loginErr = none) (hdapp : c.dappErr = none) (hjwt : c.jwtErr = none)
    (hwal : c.walletRes = .ok addr) :
    (simulateStep3 sha c fs s sid rel cp mp op h meta).2.2.1
      = (([.login, .dappSetup, .jwtSetup, .walletSetup]
          ++ (ensure_funded c.getBalance c.fundWallet c.sleepStep c.minBalance
              c.topupAmount 6 s).2.2)
          ++ [.artifactWrite op (commitmentPayloadStr h sid rel (lastNameOf cp))])
        ++ ((ensure_funded c.getBalance c.fundWallet c.sleepStep c.minBalance c.topupAmount 6
            (ensure_funded c.getBalance c.fundWallet c.sleepStep c.minBalance
              c.topupAmount 6 s).2.1).2.2
          ++ [.submitAsset (commitmentPayloadStr h sid rel (lastNameOf cp))]) := by
  unfold simulateStep3
  rw [bootstrapMgr_ok c s addr hlog hdapp hjwt hwal]
  dsimp only
  rw [create_assetM_eq]
  cases hs : c.submitRes (ensure_funded c.getBalance c.fundWallet c.sleepStep c.minBalance
      c.topupAmount 6 (ensure_funded c.getBalance c.fundWallet c.sleepStep c.minBalance
        c.topupAmount 6 s).2.1).2.1 with
  | error e => cases e <;> rfl
  | ok resp =>
    dsimp only
    repeat' split
    all_goals rfl

/-- After a successful bootstrap the canonical payload is persisted to
the artifact path in every outcome, submission failures included. -/
theorem simulateStep3_artifact {σ : Type} (sha : List Nat → String) (c : Client σ) (fs : FS)
    (s : σ) (sid rel : String) (cp mp op : FPath) (h : String) (meta : JVal) (addr : String)
    (hlog : c.loginErr = none) (hdapp : c.dappErr = none) (hjwt : c.jwtErr = none)
    (hwal : c.walletRes = .ok addr) (hmo : ¬ op = mp) :
    lookupF (simulateStep3 sha c fs s sid rel cp mp op h meta).1.files op
      = some (.raw (utf8Bytes (commitmentPayloadIndentStr h sid rel (lastNameOf cp)))) := by
  unfold simulateStep3 errBranchFS
  rw [bootstrapMgr_ok c s addr hlog hdapp hjwt hwal]
  dsimp only
  rw [create_assetM_eq]
  cases hs : c.submitRes (ensure_funded c.getBalance c.fundWallet c.sleepStep c.minBalance
      c.topupAmount 6 (ensure_funded c.getBalance c.fundWallet c.sleepStep c.minBalance
        c.topupAmount 6 s).2.1).2.1 with
  | error e =>
    cases e
    all_goals
      rw [lookupF_insert_ne _ _ _ _ hmo]
      exact lookupF_insert_self _ _ _
  | ok resp =>
    dsimp only
    repeat' split
    all_goals rw [lookupF_insert_ne _ _ _ _ hmo]
    all_goals exact lookupF_insert_self _ _ _

/-- C4 counterexample: the claim says the payload is persisted "before
any ledger call is made".  On a wallet whose balance starts below the
minimum, the bootstrap inside `_get_asset_manager()` issues a dispenser
funding request — an on-ledger payment — *before* the artifact is
written: the trace up to the first artifact write already contains a
funding request.  (The artifact itself is still persisted, and the
submission comes after it.) -/
theorem C4_counterexample_funding_before_artifact :
    (((simulate_transaction (σ := Nat) (fun _ => "MH")
        ⟨none, none, none, .ok "ADDR", id, (· + ·), id, 100, 100,
          fun _ => .error (.apiError "boom"), "T1"⟩
        ⟨[(["cwd", "DATA", "ns", "a.txt"], .raw [1, 2, 3]),
          (["cwd", "DATA", "ns", "a.txt-METADATA.JSON"],
            .jdata (.obj [("document_hash", .str "HX"), ("validations", .arr [])]))], []⟩
        0 "ns" "a.txt").2.2.1.takeWhile (fun ev => !isArtifactEv ev)).any isFundingEv = true)
    ∧ ((simulate_transaction (σ := Nat) (fun _ => "MH")
        ⟨none, none, none, .ok "ADDR", id, (· + ·), id, 100, 100,
          fun _ => .error (.apiError "boom"), "T1"⟩
        ⟨[(["cwd", "DATA", "ns", "a.txt"], .raw [1, 2, 3]),
          (["cwd", "DATA", "ns", "a.txt-METADATA.JSON"],
            .jdata (.obj [("document_hash", .str "HX"), ("validations", .arr [])]))], []⟩
        0 "ns" "a.txt").2.2.1.any isArtifactEv = true)
    ∧ lookupF (simulate_transaction (σ := Nat) (fun _ => "MH")
        ⟨none, none, none, .ok "ADDR", id, (· + ·), id, 100, 100,
          fun _ => .error (.apiError "boom"), "T1"⟩
        ⟨[(["cwd", "DATA", "ns", "a.txt"], .raw [1, 2, 3]),
          (["cwd", "DATA", "ns", "a.txt-METADATA.JSON"],
            .jdata (.obj [("document_hash", .str "HX"), ("validations", .arr [])]))], []⟩
        0 "ns" "a.txt").1.files ["cwd", "DATA", "ns", "a.txt-ONCHAIN-METADATA.JSON"]
      = some (.raw (utf8Bytes (commitmentPayloadIndentStr "HX" "ns" "a.txt" "a.txt"))) :=
  ⟨rfl, rfl, rfl⟩

/-- C4 (amended: the commitment payload — the canonical serialization
of `(fingerprint, namespace, relative_path, file_name)` — and hence its
hash are pure functions of those four inputs, independent of the
wallet/network state: in every run the artifact bytes written and the
payload submitted equal `commitmentPayloadStr`/`commitmentPayloadIndentStr`
applied to exactly those four values, whatever the backend environment;
and the artifact is persisted *before the asset-issuance submission* —
wallet bootstrap and funding calls to the transaction service may
precede it — so even a failed submission leaves a verifiable persisted
hash): the trace is exactly bootstrap events (balance reads and funding
requests only), then the artifact write, then pre-submission funding,
then the one submission, and the artifact file holds the canonical
payload in every outcome. -/
theorem C4_commitment_pure_and_persisted_before_submission {σ : Type}
    (sha : List Nat → String) (c : Client σ) (fs : FS) (s : σ) (sid rel : String)
    (t : FPath) (m : JVal) (h : String) (addr : String)
    (hsafe : safeTarget (rootPath sid) rel = .ok t)
    (hmeta : lookupF fs.files (metaPathOf t) = some (.jdata m))
    (hh : jGet m "document_hash" = some (.str h)) (hne : ¬ h = "")
    (hlog : c.loginErr = none) (hdapp : c.dappErr = none) (hjwt : c.jwtErr = none)
    (hwal : c.walletRes = .ok addr) :
    (simulate_transaction sha c fs s sid rel).2.2.1
      = (([.login, .dappSetup, .jwtSetup, .walletSetup]
          ++ (ensure_funded c.getBalance c.fundWallet c.sleepStep c.minBalance
              c.topupAmount 6 s).2.2)
          ++ [.artifactWrite (onchainPathOf t) (commitmentPayloadStr h sid rel (lastNameOf t))])
        ++ ((ensure_funded c.getBalance c.fundWallet c.sleepStep c.minBalance c.topupAmount 6
            (ensure_funded c.getBalance c.fundWallet c.sleepStep c.minBalance
              c.topupAmount 6 s).2.1).2.2
          ++ [.submitAsset (commitmentPayloadStr h sid rel (lastNameOf t))])
    ∧ lookupF (simulate_transaction sha c fs s sid rel).1.files (onchainPathOf t)
        = some (.raw (utf8Bytes (commitmentPayloadIndentStr h sid rel (lastNameOf t))))
    ∧ (∀ ev ∈ (ensure_funded c.getBalance c.fundWallet c.sleepStep c.minBalance
        c.topupAmount 6 s).2.2, isArtifactEv ev = false ∧ isSubmitEv ev = false) := by
  have hstep : simulate_transaction sha c fs s sid rel
      = simulateStep3 sha c fs s sid rel t (metaPathOf t) (onchainPathOf t) h m := by
    unfold simulate_transaction
    dsimp only
    rw [hsafe]
    dsimp only
    rw [hmeta]
    unfold simulateStep2
    dsimp only
    rw [hh]
    dsimp only
    rw [if_neg hne]
  refine ⟨?_, ?_, ensure_funded_events _ _ _ _ _ _ _⟩
  · rw [hstep]
    exact simulateStep3_trace sha c fs s sid rel t (metaPathOf t) (onchainPathOf t) h m addr
      hlog hdapp hjwt hwal
  · rw [hstep]
    exact simulateStep3_artifact sha c fs s sid rel t (metaPathOf t) (onchainPathOf t) h m
      addr hlog hdapp hjwt hwal
      (fun hh0 => metaPathOf_ne_onchainPathOf t hh0.symm)

/-- Witness for C4: on the concrete failing-submission run the trace
has its artifact write before the submission and after the bootstrap. -/
theorem C4_commitment_pure_and_persisted_before_submission_witness :
    (¬ ("HX" : String) = "")
    ∧ (simulate_transaction (σ := Nat) (fun _ => "MH")
        ⟨none, none, none, .ok "ADDR", id, (· + ·), id, 100, 100,
          fun _ => .error (.apiError "boom"), "T1"⟩
        ⟨[(["cwd", "DATA", "ns", "a.txt"], .raw [1, 2, 3]),
          (["cwd", "DATA", "ns", "a.txt-METADATA.JSON"],
            .jdata (.obj [("document_hash", .str "HX"), ("validations", .arr [])]))], []⟩
        0 "ns" "a.txt").2.2.1
      = (([.login, .dappSetup, .jwtSetup, .walletSetup]
          ++ [.balanceRead 0, .fundingRequest 100, .balanceRead 100])
          ++ [.artifactWrite ["cwd", "DATA", "ns", "a.txt-ONCHAIN-METADATA.JSON"]
              (commitmentPayloadStr "HX" "ns" "a.txt" "a.txt")])
        ++ ([.balanceRead 100]
          ++ [.submitAsset (commitmentPayloadStr "HX" "ns" "a.txt" "a.txt")]) := by
  have h := C4_commitment_pure_and_persisted_before_submission (σ := Nat) (fun _ => "MH")
    ⟨none, none, none, .ok "ADDR", id, (· + ·), id, 100, 100,
      fun _ => .error (.apiError "boom"), "T1"⟩
    ⟨[(["cwd", "DATA", "ns", "a.txt"], .raw [1, 2, 3]),
      (["cwd", "DATA", "ns", "a.txt-METADATA.JSON"],
        .jdata (.obj [("document_hash", .str "HX"), ("validations", .arr [])]))], []⟩
    0 "ns" "a.txt" ["cwd", "DATA", "ns", "a.txt"]
    (.obj [("document_hash", .str "HX"), ("validations", .arr [])])
    "HX" "ADDR" rfl rfl rfl (by decide) rfl rfl rfl rfl
  exact ⟨by decide, h.1.trans (by rfl)⟩

/- ----------------------------------------------------------------- -/
/- Well-formed path segments and injectivity of the POSIX join.       -/
/- ----------------------------------------------------------------- -/

/-- A well-formed segment: non-empty, no `/` (true of every segment a
real path split can produce). -/
def wfSeg (s : String) : Bool := !(s = "" : Bool) && !containsSlashB s

/-- All segments well formed. -/
def wfPath (p : FPath) : Bool := p.all wfSeg

theorem wfSeg_ne_empty (s : String) (h : wfSeg s = true) : ¬ s.data = [] := by
  intro hd
  cases s with
  | mk d =>
    cases hd
    simp [wfSeg] at h

theorem wfSeg_no_slash (s : String) (h : wfSeg s = true) : ∀ c ∈ s.data, ¬ c = '/' := by
  intro c hc hslash
  have h2 : containsSlashB s = false := by
    simp only [wfSeg, Bool.and_eq_true, Bool.not_eq_true'] at h
    exact h.2
  unfold containsSlashB at h2
  rw [List.any_eq_false] at h2
  exact absurd (by simpa using hslash) (by simpa using h2 c hc)

theorem split_at_sep (sep : Char) (xs : List Char) : ∀ (us ys vs : List Char),
    (∀ c ∈ xs, ¬ c = sep) → (∀ c ∈ us, ¬ c = sep) →
    xs ++ sep :: ys = us ++ sep :: vs → xs = us ∧ ys = vs := by
  induction xs with
  | nil =>
    intro us ys vs _ hu h
    cases us with
    | nil => simpa using h
    | cons u ur =>
      simp only [List.nil_append, List.cons_append, List.cons.injEq] at h
      exact absurd h.1.symm (hu u (List.mem_cons_self u ur))
  | cons x xr ih =>
    intro us ys vs hx hu h
    cases us with
    | nil =>
      simp only [List.cons_append, List.nil_append, List.cons.injEq] at h
      exact absurd h.1 (hx x (List.mem_cons_self x xr))
    | cons u ur =>
      simp only [List.cons_append, List.cons.injEq] at h
      obtain ⟨rfl, h2⟩ := h
      have hr := ih ur ys vs (fun c hc => hx c (List.mem_cons_of_mem _ hc))
        (fun c hc => hu c (List.mem_cons_of_mem _ hc)) h2
      exact ⟨by rw [hr.1], hr.2⟩

theorem joinSegs_cons_cons (x y : String) (r : List String) :
    joinSegs (x :: y :: r) = x ++ "/" ++ joinSegs (y :: r) := rfl

theorem joinSegs_cons_cons_data (x y : String) (r : List String) :
    (joinSegs (x :: y :: r)).data = x.data ++ '/' :: (joinSegs (y :: r)).data := by
  rw [joinSegs_cons_cons]
  show (x.data ++ "/".data) ++ (joinSegs (y :: r)).data = _
  simp

theorem joinSegs_inj (a : List String) : ∀ (b : List String),
    wfPath a = true → wfPath b = true → joinSegs a = joinSegs b → a = b := by
  induction a with
  | nil =>
    intro b _ hwb h
    cases b with
    | nil => rfl
    | cons y r =>
      cases r with
      | nil =>
        have : ("" : String) = y := h
        have hy : wfSeg y = true := by
          simp only [wfPath, List.all_cons, List.all_nil, Bool.and_true] at hwb
          exact hwb
        exact absurd (congrArg String.data this).symm (wfSeg_ne_empty y hy)
      | cons z r2 =>
        have hd := congrArg String.data h
        rw [joinSegs_cons_cons_data] at hd
        simp [joinSegs] at hd
  | cons x xr ih =>
    intro b hwa hwb h
    have hwx : wfSeg x = true := by
      simp only [wfPath, List.all_cons, Bool.and_eq_true] at hwa
      exact hwa.1
    have hwxr : wfPath xr = true := by
      simp only [wfPath, List.all_cons, Bool.and_eq_true] at hwa
      exact hwa.2
    cases b with
    | nil =>
      cases xr with
      | nil =>
        have : x = ("" : String) := h
        exact absurd (congrArg String.data this) (wfSeg_ne_empty x hwx)
      | cons y r =>
        have hd := congrArg String.data h
        rw [joinSegs_cons_cons_data] at hd
        simp [joinSegs] at hd
    | cons u ur =>
      have hwu : wfSeg u = true := by
        simp only [wfPath, List.all_cons, Bool.and_eq_true] at hwb
        exact hwb.1
      have hwur : wfPath ur = true := by
        simp only [wfPath, List.all_cons, Bool.and_eq_true] at hwb
        exact hwb.2
      cases xr with
      | nil =>
        cases ur with
        | nil =>
          have : x = u := h
          rw [this]
        | cons z r2 =>
          have hd := congrArg String.data h
          rw [joinSegs_cons_cons_data] at hd
          show [x] = u :: z :: r2
          exfalso
          have hmem : '/' ∈ x.data := by
            rw [show joinSegs [x] = x from rfl] at hd
            rw [hd]
            simp
          exact wfSeg_no_slash x hwx '/' hmem rfl
      | cons y r =>
        cases ur with
        | nil =>
          have hd := congrArg String.data h
          rw [joinSegs_cons_cons_data] at hd
          exfalso
          have hmem : '/' ∈ u.data := by
            rw [show joinSegs [u] = u from rfl] at hd
            rw [← hd]
            simp
          exact wfSeg_no_slash u hwu '/' hmem rfl
        | cons z r2 =>
          have hd := congrArg String.data h
          rw [joinSegs_cons_cons_data, joinSegs_cons_cons_data] at hd
          have hsplit := split_at_sep '/' x.data u.data
            (joinSegs (y :: r)).data (joinSegs (z :: r2)).data
            (wfSeg_no_slash x hwx) (wfSeg_no_slash u hwu) hd
          have hx : x = u := by
            cases x with
            | mk dx =>
              cases u with
              | mk du =>
                cases hsplit.1
                rfl
          have hj : joinSegs (y :: r) = joinSegs (z :: r2) := by
            have := hsplit.2
            cases hjy : joinSegs (y :: r) with
            | mk dy =>
              cases hjz : joinSegs (z :: r2) with
              | mk dz =>
                rw [hjy, hjz] at this
                simp only at this
                cases this
                rfl
          have := ih (z :: r2) hwxr hwur hj
          rw [hx, this]

theorem endsWithM_append (x suf : String) : endsWithM (x ++ suf) suf = true := by
  unfold endsWithM
  rw [string_data_append]
  rw [List.isSuffixOf_iff_suffix]
  exact List.suffix_append _ _

theorem endsWithM_decomp (s suf : String) (h : endsWithM s suf = true) :
    ∃ pre, s = pre ++ suf := by
  unfold endsWithM at h
  rw [List.isSuffixOf_iff_suffix] at h
  obtain ⟨pre, hpre⟩ := h
  refine ⟨⟨pre⟩, ?_⟩
  cases s with
  | mk d =>
    cases hpre
    rfl

theorem dropSuffixM_of_append (x suf : String) : dropSuffixM (x ++ suf) suf = x := by
  unfold dropSuffixM
  rw [endsWithM_append]
  simp only [if_true]
  rw [string_data_append]
  have hlen : (x.data ++ suf.data).length - suf.data.length = x.data.length := by
    rw [List.length_append]
    omega
  rw [hlen, List.take_left]

theorem concat_decomp (l : FPath) (h : ¬ l = []) : l = l.dropLast ++ [lastNameOf l] := by
  induction l with
  | nil => exact absurd rfl h
  | cons x r ih =>
    cases r with
    | nil => rfl
    | cons y r2 =>
      have := ih (by simp)
      calc x :: y :: r2 = x :: (y :: r2) := rfl
        _ = x :: ((y :: r2).dropLast ++ [lastNameOf (y :: r2)]) := by rw [← this]
        _ = (x :: y :: r2).dropLast ++ [lastNameOf (x :: y :: r2)] := by
            simp [lastNameOf, List.dropLast]

theorem lastNameOf_append (a b : FPath) (hb : ¬ b = []) :
    lastNameOf (a ++ b) = lastNameOf b := by
  conv_lhs => rw [concat_decomp b hb]
  rw [← List.append_assoc]
  rw [lastNameOf_concat]

theorem joinSegs_concat_append (l : List String) (a b : String) :
    joinSegs (l ++ [a ++ b]) = joinSegs (l ++ [a]) ++ b := by
  induction l with
  | nil => rfl
  | cons x r ih =>
    cases r with
    | nil =>
      show x ++ "/" ++ (a ++ b) = (x ++ "/" ++ a) ++ b
      simp [String.append_assoc]
    | cons y r2 =>
      show x ++ "/" ++ joinSegs ((y :: r2) ++ [a ++ b])
        = (x ++ "/" ++ joinSegs ((y :: r2) ++ [a])) ++ b
      rw [ih]
      simp [String.append_assoc]

theorem prefix_decomp (p q : FPath) (h : p.isPrefixOf q = true) :
    q = p ++ q.drop p.length := by
  rw [List.isPrefixOf_iff_prefix] at h
  obtain ⟨suf, hsuf⟩ := h
  conv_lhs => rw [← hsuf]
  rw [← hsuf, List.drop_left]

theorem wfPath_drop (p : FPath) (n : Nat) (h : wfPath p = true) : wfPath (p.drop n) = true := by
  simp only [wfPath, List.all_eq_true] at h ⊢
  exact fun x hx => h x (List.mem_of_mem_drop hx)

theorem wfPath_dropLast (p : FPath) (h : wfPath p = true) : wfPath p.dropLast = true := by
  simp only [wfPath, List.all_eq_true] at h ⊢
  exact fun x hx => h x (List.dropLast_sublist p |>.mem hx)

theorem wfPath_append (a b : FPath) (ha : wfPath a = true) (hb : wfPath b = true) :
    wfPath (a ++ b) = true := by
  simp only [wfPath, List.all_eq_true] at ha hb ⊢
  intro x hx
  rcases List.mem_append.mp hx with h | h
  · exact ha x h
  · exact hb x h

theorem containsSlashB_append (a b : String) :
    containsSlashB (a ++ b) = (containsSlashB a || containsSlashB b) := by
  unfold containsSlashB
  rw [string_data_append, List.any_append]

theorem wfSeg_append_of_left (a b : String) (ha : wfSeg a = true)
    (hb : containsSlashB b = false) : wfSeg (a ++ b) = true := by
  simp only [wfSeg, Bool.and_eq_true, Bool.not_eq_true'] at ha ⊢
  obtain ⟨ha1, ha2⟩ := ha
  constructor
  · rw [decide_eq_false_iff_not]
    rw [decide_eq_false_iff_not] at ha1
    intro hab
    apply ha1
    have hd := congrArg String.data hab
    rw [string_data_append] at hd
    have hanil : a.data = [] := (List.append_eq_nil.mp hd).1
    cases a
    cases hanil
    rfl
  · rw [containsSlashB_append, ha2, hb]
    rfl

/-- Decompose a properly-prefixed path into the root and a non-empty
relative part. -/
theorem rel_decomp (root q : FPath) (hp : properPrefixB root q = true) :
    q = root ++ q.drop root.length ∧ ¬ q.drop root.length = [] := by
  have h1 : root.isPrefixOf q = true := by
    simp only [properPrefixB, Bool.and_eq_true] at hp
    exact hp.1
  have h2 : ¬ root = q := by
    simp only [properPrefixB, Bool.and_eq_true, Bool.not_eq_true',
      decide_eq_false_iff_not] at hp
    exact hp.2
  have hd := prefix_decomp root q h1
  refine ⟨hd, fun hnil => ?_⟩
  rw [hnil, List.append_nil] at hd
  exact h2 hd.symm

theorem lastNameOf_mem (l : FPath) (h : ¬ l = []) : lastNameOf l ∈ l := by
  induction l with
  | nil => exact absurd rfl h
  | cons x r ih =>
    cases r with
    | nil => simp [lastNameOf]
    | cons y r2 =>
      have hm := ih (by simp)
      have hstep : lastNameOf (x :: y :: r2) = lastNameOf (y :: r2) := rfl
      rw [hstep]
      exact List.mem_cons_of_mem x hm

/-- The sidecar path decomposed over the namespace root. -/
theorem metaPath_decomp (root target : FPath) (hp : properPrefixB root target = true) :
    metaPathOf target = root ++ ((target.drop root.length).dropLast
      ++ [lastNameOf (target.drop root.length) ++ "-METADATA.JSON"]) := by
  obtain ⟨hdec, hrelne⟩ := rel_decomp root target hp
  have hrel := concat_decomp _ hrelne
  have htgt : target = (root ++ (target.drop root.length).dropLast)
      ++ [lastNameOf (target.drop root.length)] := by
    rw [List.append_assoc, ← hrel, ← hdec]
  have htdl : target.dropLast = root ++ (target.drop root.length).dropLast := by
    conv_lhs => rw [htgt]
    rw [List.dropLast_concat]
  have hlast2 : lastNameOf target = lastNameOf (target.drop root.length) := by
    conv_lhs => rw [htgt, lastNameOf_concat]
  unfold metaPathOf
  rw [htdl, hlast2, List.append_assoc]

/-- The relative POSIX path of a sidecar is the content's relative path
plus the `-METADATA.JSON` suffix. -/
theorem join_rel_metaPath (root target : FPath)
    (hp : properPrefixB root target = true) :
    joinSegs ((metaPathOf target).drop root.length)
      = joinSegs (target.drop root.length) ++ "-METADATA.JSON" := by
  obtain ⟨hdec, hrelne⟩ := rel_decomp root target hp
  have hrel := concat_decomp _ hrelne
  rw [metaPath_decomp root target hp, List.drop_left, joinSegs_concat_append, ← hrel]

theorem mem_eraseF (l : List (FPath × FData)) (p : FPath) (e : FPath × FData)
    (h : e ∈ eraseF l p) : e ∈ l ∧ ¬ e.1 = p := by
  unfold eraseF at h
  have hm := List.mem_filter.mp h
  refine ⟨hm.1, ?_⟩
  have := hm.2
  simpa using this

/-- If a namespace state holds no file at a content path nor at its
sidecar path, and no directory at the content path, then the listing
has no entry under the content's relative POSIX key. -/
theorem list_omits_path (g : FS) (sid : String) (target : FPath)
    (l : List (String × JVal))
    (hproper : properPrefixB (rootPath sid) target = true)
    (hwft : wfPath target = true)
    (hwf : ∀ e ∈ g.files, wfPath e.1 = true)
    (hwfd : ∀ d ∈ g.dirs, wfPath d = true)
    (hnometa : ∀ e ∈ g.files, ¬ e.1 = metaPathOf target)
    (hnotarget : ∀ e ∈ g.files, ¬ e.1 = target)
    (hnod : ∀ d ∈ g.dirs, ¬ d = target)
    (hl : list_files_with_metadata g sid = .ok l) :
    ∀ v, ¬ (joinSegs (target.drop (rootPath sid).length), v) ∈ l := by
  intro v hmem
  unfold list_files_with_metadata at hl
  by_cases hex : existsB g (rootPath sid) = true
  case neg =>
    rw [if_neg hex] at hl
    cases hl
  rw [if_pos hex] at hl
  injection hl with hleq
  rw [← hleq] at hmem
  obtain ⟨hdecT, hrelTne⟩ := rel_decomp (rootPath sid) target hproper
  have hwfrelT : wfPath (target.drop (rootPath sid).length) = true := wfPath_drop _ _ hwft
  rcases List.mem_append.mp hmem with hA | hB
  · obtain ⟨e, he, hfe⟩ := List.mem_filterMap.mp hA
    obtain ⟨ep, ed⟩ := e
    by_cases h1 : (properPrefixB (rootPath sid) ep
        && endsWithM (lastNameOf ep) "-METADATA.JSON") = true
    case neg =>
      rw [if_neg h1] at hfe
      cases hfe
    rw [if_pos h1] at hfe
    by_cases h2 : endsWithM (lastNameOf ep) "-ONCHAIN-METADATA.JSON" = true
    case pos =>
      rw [if_pos h2] at hfe
      cases hfe
    rw [if_neg h2] at hfe
    have h1a : properPrefixB (rootPath sid) ep = true := by
      rw [Bool.and_eq_true] at h1
      exact h1.1
    have h1b : endsWithM (lastNameOf ep) "-METADATA.JSON" = true := by
      rw [Bool.and_eq_true] at h1
      exact h1.2
    obtain ⟨hdecE, hrelEne⟩ := rel_decomp (rootPath sid) ep h1a
    have hwfE : wfPath ep = true := hwf (ep, ed) he
    have hwfrelE : wfPath (ep.drop (rootPath sid).length) = true := wfPath_drop _ _ hwfE
    cases ed with
    | jdata j =>
      simp only [Option.some.injEq, Prod.mk.injEq] at hfe
      obtain ⟨hkey, _⟩ := hfe
      obtain ⟨pre, hpre⟩ := endsWithM_decomp _ _ h1b
      have hrelE := concat_decomp (ep.drop (rootPath sid).length) hrelEne
      have hlastE : lastNameOf ep = lastNameOf (ep.drop (rootPath sid).length) := by
        conv_lhs => rw [hdecE]
        exact lastNameOf_append _ _ hrelEne
      have hjoin : joinSegs (ep.drop (rootPath sid).length)
          = joinSegs ((ep.drop (rootPath sid).length).dropLast ++ [pre])
            ++ "-METADATA.JSON" := by
        conv_lhs => rw [hrelE, ← hlastE, hpre]
        exact joinSegs_concat_append _ _ _
      rw [hjoin, dropSuffixM_of_append] at hkey
      have hfull : joinSegs (ep.drop (rootPath sid).length)
          = joinSegs ((metaPathOf target).drop (rootPath sid).length) := by
        rw [hjoin, hkey, join_rel_metaPath _ _ hproper]
      have hwfMeta : wfPath ((metaPathOf target).drop (rootPath sid).length) = true := by
        rw [metaPath_decomp _ _ hproper, List.drop_left]
        apply wfPath_append
        · exact wfPath_dropLast _ hwfrelT
        · show wfPath [_] = true
          simp only [wfPath, List.all_cons, List.all_nil, Bool.and_true]
          apply wfSeg_append_of_left
          · have hmem2 := lastNameOf_mem _ hrelTne
            simp only [wfPath, List.all_eq_true] at hwfrelT
            exact hwfrelT _ hmem2
          · decide
      have heq := joinSegs_inj _ _ hwfrelE hwfMeta hfull
      have hept : ep = metaPathOf target := by
        rw [hdecE, heq]
        rw [metaPath_decomp _ _ hproper, List.drop_left, ← metaPath_decomp _ _ hproper]
      exact hnometa _ he hept
    | raw bs =>
      simp only [Option.some.injEq, Prod.mk.injEq] at hfe
      obtain ⟨hkey, _⟩ := hfe
      have heq := joinSegs_inj _ _ hwfrelE hwfrelT hkey
      have hept : ep = target := by
        rw [hdecE, heq, ← hdecT]
      exact hnotarget _ he hept
  · obtain ⟨d, hd, hfd⟩ := List.mem_filterMap.mp hB
    by_cases h1 : (properPrefixB (rootPath sid) d
        && endsWithM (lastNameOf d) "-METADATA.JSON"
        && !endsWithM (lastNameOf d) "-ONCHAIN-METADATA.JSON") = true
    case neg =>
      rw [if_neg h1] at hfd
      cases hfd
    rw [if_pos h1] at hfd
    simp only [Option.some.injEq, Prod.mk.injEq] at hfd
    obtain ⟨hkey, _⟩ := hfd
    have h1a : properPrefixB (rootPath sid) d = true := by
      simp only [Bool.and_eq_true] at h1
      exact h1.1.1
    obtain ⟨hdecD, hrelDne⟩ := rel_decomp (rootPath sid) d h1a
    have hwfrelD : wfPath (d.drop (rootPath sid).length) = true :=
      wfPath_drop _ _ (hwfd d hd)
    have heq := joinSegs_inj _ _ hwfrelD hwfrelT hkey
    have hdt : d = target := by
      rw [hdecD, heq, ← hdecT]
    exact hnod d hd hdt

/- ----------------------------------------------------------------- -/
/- C7: delete semantics.                                              -/
/- ----------------------------------------------------------------- -/

/-- C7: a non-recursive delete of a non-empty directory fails with
`DirectoryNotEmpty` and changes nothing; deleting an existing file
succeeds and removes the content, its metadata sidecar and its
commitment artifact together — afterwards none of the three exists,
directories and every unrelated file are untouched (no partial result),
and a subsequent `list()` of the namespace has no entry under the
file's relative path; deleting a non-existent path fails `NotFound`
with nothing changed. -/
theorem C7_delete_semantics :
    (∀ (fs : FS) (sid path : String) (target : FPath),
      safeTarget (rootPath sid) path = .ok target →
      dirExistsB fs target = true → hasChildB fs target = true →
      delete_item fs sid path false = (fs, .error .directoryNotEmpty))
    ∧ (∀ (fs : FS) (sid path : String) (target : FPath),
      safeTarget (rootPath sid) path = .ok target →
      dirExistsB fs target = false → isFileB fs target = true →
      (delete_item fs sid path false).2 = .ok ()
      ∧ lookupF (delete_item fs sid path false).1.files target = none
      ∧ lookupF (delete_item fs sid path false).1.files (metaPathOf target) = none
      ∧ lookupF (delete_item fs sid path false).1.files (onchainPathOf target) = none
      ∧ (delete_item fs sid path false).1.dirs = fs.dirs
      ∧ (∀ p, ¬ p = target → ¬ p = metaPathOf target → ¬ p = onchainPathOf target →
          lookupF (delete_item fs sid path false).1.files p = lookupF fs.files p)
      ∧ (properPrefixB (rootPath sid) target = true → wfPath target = true →
        (∀ e ∈ fs.files, wfPath e.1 = true) → (∀ d ∈ fs.dirs, wfPath d = true) →
        ∀ l, list_files_with_metadata (delete_item fs sid path false).1 sid = .ok l →
        ∀ v, ¬ (joinSegs (target.drop (rootPath sid).length), v) ∈ l))
    ∧ (∀ (fs : FS) (sid path : String) (target : FPath) (rec : Bool),
      safeTarget (rootPath sid) path = .ok target →
      dirExistsB fs target = false → isFileB fs target = false →
      delete_item fs sid path rec = (fs, .error .notFound)) := by
  refine ⟨?_, ?_, ?_⟩
  · intro fs sid path target hsafe hdir hchild
    unfold delete_item
    dsimp only
    rw [hsafe]
    dsimp only
    simp [hdir, hchild]
  · intro fs sid path target hsafe hdir hf
    have hr : delete_item fs sid path false
        = (⟨eraseF (eraseF (eraseF fs.files target) (metaPathOf target))
            (onchainPathOf target), fs.dirs⟩, .ok ()) := by
      unfold delete_item
      dsimp only
      rw [hsafe]
      dsimp only
      simp [hdir, hf]
    refine ⟨by rw [hr], ?_, ?_, ?_, by rw [hr],
      fun p h1 h2 h3 => delete_item_file_frame fs sid path target hsafe hdir hf false p
        h1 h2 h3, ?_⟩
    · rw [hr]
      show lookupF (eraseF (eraseF (eraseF fs.files target) (metaPathOf target))
        (onchainPathOf target)) target = none
      rw [lookupF_erase_ne _ _ _ (ne_onchainPathOf_self target),
        lookupF_erase_ne _ _ _ (ne_metaPathOf_self target), lookupF_erase_self]
    · rw [hr]
      show lookupF (eraseF (eraseF (eraseF fs.files target) (metaPathOf target))
        (onchainPathOf target)) (metaPathOf target) = none
      rw [lookupF_erase_ne _ _ _ (metaPathOf_ne_onchainPathOf target), lookupF_erase_self]
    · rw [hr]
      exact lookupF_erase_self _ _
    · intro hproper hwft hwf hwfd l hl v
      have hg : (delete_item fs sid path false).1
          = ⟨eraseF (eraseF (eraseF fs.files target) (metaPathOf target))
              (onchainPathOf target), fs.dirs⟩ := by rw [hr]
      rw [hg] at hl
      refine list_omits_path _ sid target l hproper hwft ?_ ?_ ?_ ?_ ?_ hl v
      · intro e he
        have h3 := mem_eraseF _ _ _ he
        have h2 := mem_eraseF _ _ _ h3.1
        have h1 := mem_eraseF _ _ _ h2.1
        exact hwf e h1.1
      · exact hwfd
      · intro e he
        have h3 := mem_eraseF _ _ _ he
        have h2 := mem_eraseF _ _ _ h3.1
        exact h2.2
      · intro e he
        have h3 := mem_eraseF _ _ _ he
        have h2 := mem_eraseF _ _ _ h3.1
        have h1 := mem_eraseF _ _ _ h2.1
        exact h1.2
      · intro d hd hdt
        have hcont : fs.dirs.contains target = false := by
          unfold dirExistsB at hdir
          simp only [Bool.or_eq_false_iff] at hdir
          exact hdir.1.1
        have hnm : ¬ target ∈ fs.dirs := by
          intro hmem2
          have h2 : fs.dirs.contains target = true := (List.elem_iff).mpr hmem2
          rw [h2] at hcont
          cases hcont
        exact hnm (hdt ▸ hd)
  · intro fs sid path target rec hsafe hdir hf
    unfold delete_item
    dsimp only
    rw [hsafe]
    dsimp only
    simp [hdir, hf]

/-- Witness for C7 on a two-file namespace with a subdirectory:
a non-recursive delete of `sub` fails `DirectoryNotEmpty` with the
state unchanged, deleting `a.txt` succeeds, removes its bytes, and the
subsequent listing (which still shows `sub/b.txt`) has no entry for
`a.txt`; deleting a missing path fails `NotFound` with the state
unchanged. -/
theorem C7_delete_semantics_witness :
    delete_item
      ⟨[(["cwd", "DATA", "ns", "a.txt"], .raw [1, 2]),
        (["cwd", "DATA", "ns", "a.txt-METADATA.JSON"],
          .jdata (.obj [("file_name", .str "a.txt"), ("folder_path", .str "")])),
        (["cwd", "DATA", "ns", "sub", "b.txt"], .raw [3]),
        (["cwd", "DATA", "ns", "sub", "b.txt-METADATA.JSON"],
          .jdata (.obj [("file_name", .str "b.txt"), ("folder_path", .str "sub")]))],
       [["cwd"], ["cwd", "DATA"], ["cwd", "DATA", "ns"], ["cwd", "DATA", "ns", "sub"]]⟩
      "ns" "sub" false
    = (⟨[(["cwd", "DATA", "ns", "a.txt"], .raw [1, 2]),
        (["cwd", "DATA", "ns", "a.txt-METADATA.JSON"],
          .jdata (.obj [("file_name", .str "a.txt"), ("folder_path", .str "")])),
        (["cwd", "DATA", "ns", "sub", "b.txt"], .raw [3]),
        (["cwd", "DATA", "ns", "sub", "b.txt-METADATA.JSON"],
          .jdata (.obj [("file_name", .str "b.txt"), ("folder_path", .str "sub")]))],
       [["cwd"], ["cwd", "DATA"], ["cwd", "DATA", "ns"], ["cwd", "DATA", "ns", "sub"]]⟩,
      .error .directoryNotEmpty)
    ∧ (delete_item
      ⟨[(["cwd", "DATA", "ns", "a.txt"], .raw [1, 2]),
        (["cwd", "DATA", "ns", "a.txt-METADATA.JSON"],
          .jdata (.obj [("file_name", .str "a.txt"), ("folder_path", .str "")])),
        (["cwd", "DATA", "ns", "sub", "b.txt"], .raw [3]),
        (["cwd", "DATA", "ns", "sub", "b.txt-METADATA.JSON"],
          .jdata (.obj [("file_name", .str "b.txt"), ("folder_path", .str "sub")]))],
       [["cwd"], ["cwd", "DATA"], ["cwd", "DATA", "ns"], ["cwd", "DATA", "ns", "sub"]]⟩
      "ns" "a.txt" false).2 = .ok ()
    ∧ lookupF (delete_item
      ⟨[(["cwd", "DATA", "ns", "a.txt"], .raw [1, 2]),
        (["cwd", "DATA", "ns", "a.txt-METADATA.JSON"],
          .jdata (.obj [("file_name", .str "a.txt"), ("folder_path", .str "")])),
        (["cwd", "DATA", "ns", "sub", "b.txt"], .raw [3]),
        (["cwd", "DATA", "ns", "sub", "b.txt-METADATA.JSON"],
          .jdata (.obj [("file_name", .str "b.txt"), ("folder_path", .str "sub")]))],
       [["cwd"], ["cwd", "DATA"], ["cwd", "DATA", "ns"], ["cwd", "DATA", "ns", "sub"]]⟩
      "ns" "a.txt" false).1.files ["cwd", "DATA", "ns", "a.txt"] = none
    ∧ ¬ (("a.txt", JVal.null)
        ∈ [("sub/b.txt", JVal.obj [("file_name", .str "b.txt"), ("folder_path", .str "sub")])])
    ∧ delete_item
      ⟨[(["cwd", "DATA", "ns", "a.txt"], .raw [1, 2]),
        (["cwd", "DATA", "ns", "a.txt-METADATA.JSON"],
          .jdata (.obj [("file_name", .str "a.txt"), ("folder_path", .str "")])),
        (["cwd", "DATA", "ns", "sub", "b.txt"], .raw [3]),
        (["cwd", "DATA", "ns", "sub", "b.txt-METADATA.JSON"],
          .jdata (.obj [("file_name", .str "b.txt"), ("folder_path", .str "sub")]))],
       [["cwd"], ["cwd", "DATA"], ["cwd", "DATA", "ns"], ["cwd", "DATA", "ns", "sub"]]⟩
      "ns" "missing.txt" false
    = (⟨[(["cwd", "DATA", "ns", "a.txt"], .raw [1, 2]),
        (["cwd", "DATA", "ns", "a.txt-METADATA.JSON"],
          .jdata (.obj [("file_name", .str "a.txt"), ("folder_path", .str "")])),
        (["cwd", "DATA", "ns", "sub", "b.txt"], .raw [3]),
        (["cwd", "DATA", "ns", "sub", "b.txt-METADATA.JSON"],
          .jdata (.obj [("file_name", .str "b.txt"), ("folder_path", .str "sub")]))],
       [["cwd"], ["cwd", "DATA"], ["cwd", "DATA", "ns"], ["cwd", "DATA", "ns", "sub"]]⟩,
      .error .notFound) := by
  have h2 := (C7_delete_semantics).2.1
    ⟨[(["cwd", "DATA", "ns", "a.txt"], .raw [1, 2]),
      (["cwd", "DATA", "ns", "a.txt-METADATA.JSON"],
        .jdata (.obj [("file_name", .str "a.txt"), ("folder_path", .str "")])),
      (["cwd", "DATA", "ns", "sub", "b.txt"], .raw [3]),
      (["cwd", "DATA", "ns", "sub", "b.txt-METADATA.JSON"],
        .jdata (.obj [("file_name", .str "b.txt"), ("folder_path", .str "sub")]))],
     [["cwd"], ["cwd", "DATA"], ["cwd", "DATA", "ns"], ["cwd", "DATA", "ns", "sub"]]⟩
    "ns" "a.txt" ["cwd", "DATA", "ns", "a.txt"] rfl rfl rfl
  refine ⟨?_, h2.1, h2.2.1, ?_, ?_⟩
  · exact (C7_delete_semantics).1
      ⟨[(["cwd", "DATA", "ns", "a.txt"], .raw [1, 2]),
        (["cwd", "DATA", "ns", "a.txt-METADATA.JSON"],
          .jdata (.obj [("file_name", .str "a.txt"), ("folder_path", .str "")])),
        (["cwd", "DATA", "ns", "sub", "b.txt"], .raw [3]),
        (["cwd", "DATA", "ns", "sub", "b.txt-METADATA.JSON"],
          .jdata (.obj [("file_name", .str "b.txt"), ("folder_path", .str "sub")]))],
       [["cwd"], ["cwd", "DATA"], ["cwd", "DATA", "ns"], ["cwd", "DATA", "ns", "sub"]]⟩
      "ns" "sub" ["cwd", "DATA", "ns", "sub"] rfl rfl rfl
  · exact h2.2.2.2.2.2.2 (by decide) (by decide) (by decide) (by decide)
      [("sub/b.txt", JVal.obj [("file_name", .str "b.txt"), ("folder_path", .str "sub")])]
      rfl JVal.null
  · exact (C7_delete_semantics).2.2
      ⟨[(["cwd", "DATA", "ns", "a.txt"], .raw [1, 2]),
        (["cwd", "DATA", "ns", "a.txt-METADATA.JSON"],
          .jdata (.obj [("file_name", .str "a.txt"), ("folder_path", .str "")])),
        (["cwd", "DATA", "ns", "sub", "b.txt"], .raw [3]),
        (["cwd", "DATA", "ns", "sub", "b.txt-METADATA.JSON"],
          .jdata (.obj [("file_name", .str "b.txt"), ("folder_path", .str "sub")]))],
       [["cwd"], ["cwd", "DATA"], ["cwd", "DATA", "ns"], ["cwd", "DATA", "ns", "sub"]]⟩
      "ns" "missing.txt" ["cwd", "DATA", "ns", "missing.txt"] false rfl rfl rfl

/- ----------------------------------------------------------------- -/
/- C8: rename round trip.  A single successful file rename is first
   characterized exactly (`rename_item_file_eq`), then the endpoint
   including the resynchronization (`storage_rename_step`); the round
   trip composes the step with itself.                                -/
/- ----------------------------------------------------------------- -/

theorem string_append_right_cancel (a b c : String) (h : a ++ c = b ++ c) : a = b := by
  have hd : a.data ++ c.data = b.data ++ c.data := by
    rw [← string_data_append, ← string_data_append, h]
  have hab := List.append_cancel_right hd
  cases a with
  | mk da =>
    cases b with
    | mk db =>
      cases hab
      rfl

theorem concat_ne_concat (d : List String) (x y : String) (h : ¬ x = y) :
    ¬ d ++ [x] = d ++ [y] := by
  intro hcon
  have h2 := List.append_cancel_left hcon
  injection h2 with h3
  exact h h3

theorem metaPathOf_concat (l : List String) (a : String) :
    metaPathOf (l ++ [a]) = l ++ [a ++ "-METADATA.JSON"] := by
  unfold metaPathOf
  rw [List.dropLast_concat, lastNameOf_concat]

theorem onchainPathOf_concat (l : List String) (a : String) :
    onchainPathOf (l ++ [a]) = l ++ [a ++ "-ONCHAIN-METADATA.JSON"] := by
  unfold onchainPathOf
  rw [List.dropLast_concat, lastNameOf_concat]

theorem properPrefixB_self_append (p q : FPath) (h : ¬ q = []) :
    properPrefixB p (p ++ q) = true := by
  unfold properPrefixB
  have h1 : p.isPrefixOf (p ++ q) = true := by
    rw [List.isPrefixOf_iff_prefix]
    exact List.prefix_append p q
  have h2 : ¬ p = p ++ q := by
    intro hcon
    have hlen := congrArg List.length hcon
    rw [List.length_append] at hlen
    have hq : q.length = 0 := by omega
    exact h (List.length_eq_zero.mp hq)
  rw [h1]
  simp [h2]

theorem properPrefixB_of_le_length (p q : FPath) (h : q.length ≤ p.length) :
    properPrefixB p q = false := by
  unfold properPrefixB
  by_cases hpre : p.isPrefixOf q = true
  · have hp : p <+: q := (List.isPrefixOf_iff_prefix).mp hpre
    have heq : p = q := hp.eq_of_length (by have := hp.length_le; omega)
    rw [hpre]
    simp [heq]
  · rw [Bool.not_eq_true] at hpre
    rw [hpre]
    rfl

theorem mem_insertF (l : List (FPath × FData)) (p : FPath) (d : FData)
    (e : FPath × FData) (h : e ∈ insertF l p d) : e = (p, d) ∨ e ∈ l := by
  rcases List.mem_cons.mp h with h1 | h2
  · exact .inl h1
  · exact .inr (mem_eraseF _ _ _ h2).1

theorem lookupF_erase_none (l : List (FPath × FData)) (q p : FPath)
    (h : lookupF l p = none) : lookupF (eraseF l q) p = none := by
  by_cases hpq : p = q
  · subst hpq
    exact lookupF_erase_self _ _
  · rw [lookupF_erase_ne _ _ _ hpq]
    exact h

theorem jOptEqStr_self (s : String) : jOptEqStr (some (.str s)) s = true := by
  simp [jOptEqStr]

/-- Exact result of `rename_item` on an existing file whose sidecar is
present and whose on-chain artifact is absent: the bytes move, the
sidecar moves and gets `file_name` rewritten, nothing else changes. -/
theorem rename_item_file_eq (fs : FS) (sid path nn : String) (target : FPath)
    (bytes : List Nat) (mOld : JVal)
    (hsafe : safeTarget (rootPath sid) path = .ok target)
    (hv1 : ¬ nn = "") (hv2 : ¬ nn = ".") (hv3 : containsSlashB nn = false)
    (hA : lookupF fs.files target = some (.raw bytes))
    (hMA : lookupF fs.files (metaPathOf target) = some (.jdata mOld))
    (hOA : lookupF fs.files (onchainPathOf target) = none)
    (hd : dirExistsB fs (target.dropLast ++ [nn]) = false)
    (hne1 : ¬ metaPathOf target = target.dropLast ++ [nn])
    (hne2 : ¬ onchainPathOf target = metaPathOf (target.dropLast ++ [nn]))
    (hne3 : ¬ onchainPathOf target = target.dropLast ++ [nn]) :
    rename_item fs sid path nn
      = (⟨insertF (insertF (eraseF (insertF (eraseF fs.files target)
            (target.dropLast ++ [nn]) (.raw bytes)) (metaPathOf target))
            (metaPathOf (target.dropLast ++ [nn])) (.jdata mOld))
            (metaPathOf (target.dropLast ++ [nn]))
            (.jdata (jSet mOld "file_name" (.str nn))), fs.dirs⟩, .ok ()) := by
  have hf : isFileB fs target = true := by
    unfold isFileB
    rw [hA]
    rfl
  unfold rename_item
  dsimp only
  rw [hsafe]
  dsimp only
  simp only [hv1, hv2, hv3, hf, hd, Bool.false_or, Bool.or_false, Bool.or_self,
    Bool.false_eq_true, if_false, if_true, decide_eq_true_eq, if_pos, ite_true,
    ite_false, not_false_eq_true]
  have hm1 : moveEntry fs target (target.dropLast ++ [nn])
      = ⟨insertF (eraseF fs.files target) (target.dropLast ++ [nn]) (.raw bytes),
        fs.dirs⟩ := by
    unfold moveEntry
    rw [hA]
  rw [hm1]
  unfold relocateSidecars
  dsimp only
  have hl1 : lookupF (insertF (eraseF fs.files target) (target.dropLast ++ [nn]) (.raw bytes))
      (metaPathOf target) = some (.jdata mOld) := by
    rw [lookupF_insert_ne _ _ _ _ hne1,
      lookupF_erase_ne _ _ _ (fun h => ne_metaPathOf_self target h.symm), hMA]
  have hc1 : isFileB ⟨insertF (eraseF fs.files target) (target.dropLast ++ [nn]) (.raw bytes),
      fs.dirs⟩ (metaPathOf target) = true := by
    unfold isFileB
    rw [hl1]
    rfl
  simp only [hc1, if_true, ite_true]
  have hm2 : moveEntry ⟨insertF (eraseF fs.files target) (target.dropLast ++ [nn]) (.raw bytes),
      fs.dirs⟩ (metaPathOf target) (metaPathOf (target.dropLast ++ [nn]))
      = ⟨insertF (eraseF (insertF (eraseF fs.files target) (target.dropLast ++ [nn])
          (.raw bytes)) (metaPathOf target)) (metaPathOf (target.dropLast ++ [nn]))
          (.jdata mOld), fs.dirs⟩ := by
    unfold moveEntry
    rw [hl1]
  rw [hm2]
  have hl2 : lookupF (insertF (eraseF (insertF (eraseF fs.files target)
      (target.dropLast ++ [nn]) (.raw bytes)) (metaPathOf target))
      (metaPathOf (target.dropLast ++ [nn])) (.jdata mOld)) (onchainPathOf target) = none := by
    rw [lookupF_insert_ne _ _ _ _ hne2,
      lookupF_erase_ne _ _ _ (fun h => metaPathOf_ne_onchainPathOf target h.symm),
      lookupF_insert_ne _ _ _ _ hne3,
      lookupF_erase_ne _ _ _ (fun h => ne_onchainPathOf_self target h.symm), hOA]
  have hc2 : isFileB ⟨insertF (eraseF (insertF (eraseF fs.files target)
      (target.dropLast ++ [nn]) (.raw bytes)) (metaPathOf target))
      (metaPathOf (target.dropLast ++ [nn])) (.jdata mOld), fs.dirs⟩
      (onchainPathOf target) = false := by
    unfold isFileB
    rw [hl2]
    rfl
  simp only [hc2, Bool.false_eq_true, if_false, ite_false]
  have hl3 : lookupF (insertF (eraseF (insertF (eraseF fs.files target)
      (target.dropLast ++ [nn]) (.raw bytes)) (metaPathOf target))
      (metaPathOf (target.dropLast ++ [nn])) (.jdata mOld))
      (metaPathOf (target.dropLast ++ [nn])) = some (.jdata mOld) :=
    lookupF_insert_self _ _ _
  rw [hl3]

/-- Exact result of `rename_item` on an existing file whose sidecar and
on-chain artifact are both present (a notarized document): the bytes,
the sidecar and the artifact all move, and the relocated sidecar gets
`file_name` rewritten. -/
theorem rename_item_file_eq_onchain (fs : FS) (sid path nn : String) (target : FPath)
    (bytes : List Nat) (mOld : JVal) (od : FData)
    (hsafe : safeTarget (rootPath sid) path = .ok target)
    (hv1 : ¬ nn = "") (hv2 : ¬ nn = ".") (hv3 : containsSlashB nn = false)
    (hA : lookupF fs.files target = some (.raw bytes))
    (hMA : lookupF fs.files (metaPathOf target) = some (.jdata mOld))
    (hOA : lookupF fs.files (onchainPathOf target) = some od)
    (hd : dirExistsB fs (target.dropLast ++ [nn]) = false)
    (hne1 : ¬ metaPathOf target = target.dropLast ++ [nn])
    (hne2 : ¬ onchainPathOf target = metaPathOf (target.dropLast ++ [nn]))
    (hne3 : ¬ onchainPathOf target = target.dropLast ++ [nn]) :
    rename_item fs sid path nn
      = (⟨insertF (insertF (eraseF (insertF (eraseF (insertF (eraseF fs.files target)
            (target.dropLast ++ [nn]) (.raw bytes)) (metaPathOf target))
            (metaPathOf (target.dropLast ++ [nn])) (.jdata mOld))
            (onchainPathOf target)) (onchainPathOf (target.dropLast ++ [nn])) od)
            (metaPathOf (target.dropLast ++ [nn]))
            (.jdata (jSet mOld "file_name" (.str nn))), fs.dirs⟩, .ok ()) := by
  have hf : isFileB fs target = true := by
    unfold isFileB
    rw [hA]
    rfl
  unfold rename_item
  dsimp only
  rw [hsafe]
  dsimp only
  simp only [hv1, hv2, hv3, hf, hd, Bool.false_or, Bool.or_false, Bool.or_self,
    Bool.false_eq_true, if_false, if_true, decide_eq_true_eq, if_pos, ite_true,
    ite_false, not_false_eq_true]
  have hm1 : moveEntry fs target (target.dropLast ++ [nn])
      = ⟨insertF (eraseF fs.files target) (target.dropLast ++ [nn]) (.raw bytes),
        fs.dirs⟩ := by
    unfold moveEntry
    rw [hA]
  rw [hm1]
  unfold relocateSidecars
  dsimp only
  have hl1 : lookupF (insertF (eraseF fs.files target) (target.dropLast ++ [nn]) (.raw bytes))
      (metaPathOf target) = some (.jdata mOld) := by
    rw [lookupF_insert_ne _ _ _ _ hne1,
      lookupF_erase_ne _ _ _ (fun h => ne_metaPathOf_self target h.symm), hMA]
  have hc1 : isFileB ⟨insertF (eraseF fs.files target) (target.dropLast ++ [nn]) (.raw bytes),
      fs.dirs⟩ (metaPathOf target) = true := by
    unfold isFileB
    rw [hl1]
    rfl
  simp only [hc1, if_true, ite_true]
  have hm2 : moveEntry ⟨insertF (eraseF fs.files target) (target.dropLast ++ [nn]) (.raw bytes),
      fs.dirs⟩ (metaPathOf target) (metaPathOf (target.dropLast ++ [nn]))
      = ⟨insertF (eraseF (insertF (eraseF fs.files target) (target.dropLast ++ [nn])
          (.raw bytes)) (metaPathOf target)) (metaPathOf (target.dropLast ++ [nn]))
          (.jdata mOld), fs.dirs⟩ := by
    unfold moveEntry
    rw [hl1]
  rw [hm2]
  have hl2 : lookupF (insertF (eraseF (insertF (eraseF fs.files target)
      (target.dropLast ++ [nn]) (.raw bytes)) (metaPathOf target))
      (metaPathOf (target.dropLast ++ [nn])) (.jdata mOld)) (onchainPathOf target)
      = some od := by
    rw [lookupF_insert_ne _ _ _ _ hne2,
      lookupF_erase_ne _ _ _ (fun h => metaPathOf_ne_onchainPathOf target h.symm),
      lookupF_insert_ne _ _ _ _ hne3,
      lookupF_erase_ne _ _ _ (fun h => ne_onchainPathOf_self target h.symm), hOA]
  have hc2 : isFileB ⟨insertF (eraseF (insertF (eraseF fs.files target)
      (target.dropLast ++ [nn]) (.raw bytes)) (metaPathOf target))
      (metaPathOf (target.dropLast ++ [nn])) (.jdata mOld), fs.dirs⟩
      (onchainPathOf target) = true := by
    unfold isFileB
    rw [hl2]
    rfl
  simp only [hc2, if_true, ite_true]
  have hm3 : moveEntry ⟨insertF (eraseF (insertF (eraseF fs.files target)
      (target.dropLast ++ [nn]) (.raw bytes)) (metaPathOf target))
      (metaPathOf (target.dropLast ++ [nn])) (.jdata mOld), fs.dirs⟩
      (onchainPathOf target) (onchainPathOf (target.dropLast ++ [nn]))
      = ⟨insertF (eraseF (insertF (eraseF (insertF (eraseF fs.files target)
          (target.dropLast ++ [nn]) (.raw bytes)) (metaPathOf target))
          (metaPathOf (target.dropLast ++ [nn])) (.jdata mOld)) (onchainPathOf target))
          (onchainPathOf (target.dropLast ++ [nn])) od, fs.dirs⟩ := by
    unfold moveEntry
    rw [hl2]
  rw [hm3]
  have hl3 : lookupF (insertF (eraseF (insertF (eraseF (insertF (eraseF fs.files target)
      (target.dropLast ++ [nn]) (.raw bytes)) (metaPathOf target))
      (metaPathOf (target.dropLast ++ [nn])) (.jdata mOld)) (onchainPathOf target))
      (onchainPathOf (target.dropLast ++ [nn])) od)
      (metaPathOf (target.dropLast ++ [nn])) = some (.jdata mOld) := by
    rw [lookupF_insert_ne _ _ _ _
        (fun h => metaPathOf_ne_onchainPathOf (target.dropLast ++ [nn]) h),
      lookupF_erase_ne _ _ _ (fun h => hne2 h.symm),
      lookupF_insert_self]
  rw [hl3]

/-- One successful run of the rename endpoint (`rename_item` followed by
the resynchronization) on a file `dir/old` with an in-sync sidecar and
no on-chain artifact: the outcome is `ok`, the bytes and the rewritten
sidecar sit at the new name, the old pair is gone, absent paths stay
absent, directories are untouched, and no sibling name below the same
parent becomes a directory. -/
theorem storage_rename_step (fs : FS) (sid path old nn : String) (folder dir : FPath)
    (bytes : List Nat) (mOld : JVal)
    (hdirdef : dir = rootPath sid ++ folder)
    (hsafe : safeTarget (rootPath sid) path = .ok (dir ++ [old]))
    (hv1 : ¬ nn = "") (hv2 : ¬ nn = ".") (hv3 : containsSlashB nn = false)
    (hA : lookupF fs.files (dir ++ [old]) = some (.raw bytes))
    (hMA : lookupF fs.files (dir ++ [old ++ "-METADATA.JSON"]) = some (.jdata mOld))
    (hOA : lookupF fs.files (dir ++ [old ++ "-ONCHAIN-METADATA.JSON"]) = none)
    (hd : dirExistsB fs (dir ++ [nn]) = false)
    (hroot : fs.dirs.contains (rootPath sid) = true)
    (hs0 : ¬ old = nn)
    (hs1 : ¬ old ++ "-METADATA.JSON" = nn)
    (hs2 : ¬ old ++ "-ONCHAIN-METADATA.JSON" = nn ++ "-METADATA.JSON")
    (hs3 : ¬ old ++ "-ONCHAIN-METADATA.JSON" = nn)
    (hs4 : ¬ old = nn ++ "-METADATA.JSON")
    (hcN : endsWithM (nn ++ "-METADATA.JSON") "-ONCHAIN-METADATA.JSON" = false)
    (hrN : replaceAllM (nn ++ "-METADATA.JSON") "-METADATA.JSON" "" = nn)
    (hfp : jGet mOld "folder_path" = some (.str (joinSegs folder))) :
    (storage_rename fs sid path nn).2 = .ok ()
    ∧ lookupF (storage_rename fs sid path nn).1.files (dir ++ [nn]) = some (.raw bytes)
    ∧ lookupF (storage_rename fs sid path nn).1.files (dir ++ [nn ++ "-METADATA.JSON"])
      = some (.jdata (jSet mOld "file_name" (.str nn)))
    ∧ lookupF (storage_rename fs sid path nn).1.files (dir ++ [old]) = none
    ∧ lookupF (storage_rename fs sid path nn).1.files (dir ++ [old ++ "-METADATA.JSON"])
      = none
    ∧ (∀ p, ¬ p = dir ++ [nn] → ¬ p = dir ++ [nn ++ "-METADATA.JSON"] →
        lookupF fs.files p = none → lookupF (storage_rename fs sid path nn).1.files p = none)
    ∧ (storage_rename fs sid path nn).1.dirs = fs.dirs
    ∧ (∀ x, dirExistsB fs (dir ++ [x]) = false →
        dirExistsB (storage_rename fs sid path nn).1 (dir ++ [x]) = false) := by
  have hdl : (dir ++ [old]).dropLast = dir := List.dropLast_concat
  have hre := rename_item_file_eq fs sid path nn (dir ++ [old]) bytes mOld hsafe hv1 hv2 hv3
    hA (by rw [metaPathOf_concat]; exact hMA) (by rw [onchainPathOf_concat]; exact hOA)
    (by rw [hdl]; exact hd)
    (by rw [metaPathOf_concat, hdl]; exact concat_ne_concat _ _ _ hs1)
    (by rw [onchainPathOf_concat, hdl, metaPathOf_concat]; exact concat_ne_concat _ _ _ hs2)
    (by rw [onchainPathOf_concat, hdl]; exact concat_ne_concat _ _ _ hs3)
  rw [hdl] at hre
  simp only [metaPathOf_concat] at hre
  generalize hF : insertF (insertF (eraseF (insertF (eraseF fs.files (dir ++ [old]))
      (dir ++ [nn]) (.raw bytes)) (dir ++ [old ++ "-METADATA.JSON"]))
      (dir ++ [nn ++ "-METADATA.JSON"]) (.jdata mOld))
      (dir ++ [nn ++ "-METADATA.JSON"]) (.jdata (jSet mOld "file_name" (.str nn))) = F at hre
  have hnnm : ¬ (dir ++ [nn] : FPath) = dir ++ [nn ++ "-METADATA.JSON"] :=
    concat_ne_concat _ _ _ (string_ne_append_right _ _ (by decide))
  have hF1 : lookupF F (dir ++ [nn]) = some (.raw bytes) := by
    rw [← hF, lookupF_insert_ne _ _ _ _ hnnm, lookupF_insert_ne _ _ _ _ hnnm,
      lookupF_erase_ne _ _ _ (concat_ne_concat _ _ _ (fun h => hs1 h.symm)),
      lookupF_insert_self]
  have hF2 : lookupF F (dir ++ [nn ++ "-METADATA.JSON"])
      = some (.jdata (jSet mOld "file_name" (.str nn))) := by
    rw [← hF, lookupF_insert_self]
  have hF3 : lookupF F (dir ++ [old]) = none := by
    rw [← hF, lookupF_insert_ne _ _ _ _ (concat_ne_concat _ _ _ hs4),
      lookupF_insert_ne _ _ _ _ (concat_ne_concat _ _ _ hs4),
      lookupF_erase_ne _ _ _ (concat_ne_concat _ _ _ (string_ne_append_right _ _ (by decide))),
      lookupF_insert_ne _ _ _ _ (concat_ne_concat _ _ _ hs0),
      lookupF_erase_self]
  have hF4 : lookupF F (dir ++ [old ++ "-METADATA.JSON"]) = none := by
    have hmm : ¬ (dir ++ [old ++ "-METADATA.JSON"] : FPath)
        = dir ++ [nn ++ "-METADATA.JSON"] :=
      concat_ne_concat _ _ _ (fun h => hs0 (string_append_right_cancel _ _ _ h))
    rw [← hF, lookupF_insert_ne _ _ _ _ hmm, lookupF_insert_ne _ _ _ _ hmm,
      lookupF_erase_self]
  have hF5 : ∀ p, ¬ p = dir ++ [nn] → ¬ p = dir ++ [nn ++ "-METADATA.JSON"] →
      lookupF fs.files p = none → lookupF F p = none := by
    intro p h1 h2 hp
    rw [← hF, lookupF_insert_ne _ _ _ _ h2, lookupF_insert_ne _ _ _ _ h2]
    apply lookupF_erase_none
    rw [lookupF_insert_ne _ _ _ _ h1]
    exact lookupF_erase_none _ _ _ hp
  have hex : existsB ⟨F, fs.dirs⟩ (rootPath sid) = true := by
    unfold existsB dirExistsB
    rw [hroot]
    simp
  have hr : storage_rename fs sid path nn
      = (⟨F.map (fun e => (e.1, refreshData ⟨F, fs.dirs⟩ (rootPath sid) e.1 e.2)), fs.dirs⟩,
        .ok ()) := by
    unfold storage_rename
    rw [hre]
    dsimp only
    unfold refresh_metadata_paths
    dsimp only
    rw [if_pos hex]
  obtain ⟨fl, hmo⟩ := jGet_some_obj mOld "folder_path" _ hfp
  subst hmo
  have hRD : refreshData ⟨F, fs.dirs⟩ (rootPath sid) (dir ++ [nn ++ "-METADATA.JSON"])
      (.jdata (jSet (.obj fl) "file_name" (.str nn)))
      = .jdata (jSet (.obj fl) "file_name" (.str nn)) := by
    have hpp : properPrefixB (rootPath sid) (dir ++ [nn ++ "-METADATA.JSON"]) = true := by
      rw [hdirdef, List.append_assoc]
      exact properPrefixB_self_append _ _ (by simp)
    have hexC : existsB ⟨F, fs.dirs⟩ (dir ++ [nn]) = true := by
      unfold existsB isFileB
      rw [hF1]
      rfl
    unfold refreshData
    dsimp only
    simp only [lastNameOf_concat, List.dropLast_concat, hrN, hpp, endsWithM_append, hcN,
      Bool.and_true, Bool.true_and, Bool.not_false, if_true, ite_true, hexC]
    rw [hdirdef, List.drop_left]
    rw [jGet_jSet_ne _ _ _ _ (by decide), hfp, jOptEqStr_self]
    rw [if_pos rfl]
    have hgfn : jGet (jSet (.obj fl) "file_name" (.str nn)) "file_name"
        = some (.str nn) := jGet_jSet_self _ _ _
    rw [hgfn, jOptEqStr_self]
    rw [if_pos rfl]
  refine ⟨by rw [hr], ?_, ?_, ?_, ?_, ?_, by rw [hr], ?_⟩
  · rw [hr]
    show lookupF (F.map (fun e => (e.1, refreshData ⟨F, fs.dirs⟩ (rootPath sid) e.1 e.2)))
      (dir ++ [nn]) = some (.raw bytes)
    rw [lookupF_mapData, hF1]
    rfl
  · rw [hr]
    show lookupF (F.map (fun e => (e.1, refreshData ⟨F, fs.dirs⟩ (rootPath sid) e.1 e.2)))
      (dir ++ [nn ++ "-METADATA.JSON"]) = some (.jdata (jSet (.obj fl) "file_name" (.str nn)))
    rw [lookupF_mapData, hF2]
    show some (refreshData ⟨F, fs.dirs⟩ (rootPath sid) (dir ++ [nn ++ "-METADATA.JSON"])
      (.jdata (jSet (.obj fl) "file_name" (.str nn)))) = _
    rw [hRD]
  · rw [hr]
    show lookupF (F.map (fun e => (e.1, refreshData ⟨F, fs.dirs⟩ (rootPath sid) e.1 e.2)))
      (dir ++ [old]) = none
    rw [lookupF_mapData, hF3]
    rfl
  · rw [hr]
    show lookupF (F.map (fun e => (e.1, refreshData ⟨F, fs.dirs⟩ (rootPath sid) e.1 e.2)))
      (dir ++ [old ++ "-METADATA.JSON"]) = none
    rw [lookupF_mapData, hF4]
    rfl
  · intro p h1 h2 hp
    rw [hr]
    show lookupF (F.map (fun e => (e.1, refreshData ⟨F, fs.dirs⟩ (rootPath sid) e.1 e.2)))
      p = none
    rw [lookupF_mapData, hF5 p h1 h2 hp]
    rfl
  · intro x hx
    rw [hr]
    unfold dirExistsB at hx ⊢
    simp only [Bool.or_eq_false_iff] at hx
    obtain ⟨⟨hx1, hx2⟩, hx3⟩ := hx
    have hmid : (F.map (fun e => (e.1, refreshData ⟨F, fs.dirs⟩ (rootPath sid) e.1 e.2))).any
        (fun e => properPrefixB (dir ++ [x]) e.1) = false := by
      rw [List.any_map, List.any_eq_false]
      intro e he
      show ¬ properPrefixB (dir ++ [x]) e.1 = true
      rw [← hF] at he
      have hlen : ∀ y : String, properPrefixB (dir ++ [x]) (dir ++ [y]) = false := by
        intro y
        apply properPrefixB_of_le_length
        simp
      rcases mem_insertF _ _ _ _ he with h1 | h1
      · rw [h1]
        dsimp only
        rw [hlen]
        exact Bool.false_ne_true
      rcases mem_insertF _ _ _ _ h1 with h2 | h2
      · rw [h2]
        dsimp only
        rw [hlen]
        exact Bool.false_ne_true
      have h3 := (mem_eraseF _ _ _ h2).1
      rcases mem_insertF _ _ _ _ h3 with h4 | h4
      · rw [h4]
        dsimp only
        rw [hlen]
        exact Bool.false_ne_true
      have h5 := (mem_eraseF _ _ _ h4).1
      exact (List.any_eq_false.mp hx2) e h5
    rw [hx1, hmid, hx3]
    rfl

/-- An entry that is not a qualifying sidecar is left alone. -/
theorem refreshData_skip (fs : FS) (root p : FPath) (d : FData)
    (hc : (properPrefixB root p && endsWithM (lastNameOf p) "-METADATA.JSON"
      && !endsWithM (lastNameOf p) "-ONCHAIN-METADATA.JSON") = false) :
    refreshData fs root p d = d := by
  cases d with
  | raw b => rfl
  | jdata j =>
    unfold refreshData
    dsimp only
    rw [if_neg (by rw [hc]; exact Bool.false_ne_true)]

/-- One successful run of the rename endpoint on a notarized file
`dir/old` — sidecar and on-chain artifact both present: the outcome is
`ok`, the bytes, the rewritten sidecar and the untouched artifact all
sit at the new name, the old triple is gone, absent paths stay absent,
directories are untouched, and no sibling name below the same parent
becomes a directory (the resynchronization skips the relocated
artifact because its name ends in `-ONCHAIN-METADATA.JSON`). -/
theorem storage_rename_step_onchain (fs : FS) (sid path old nn : String) (folder dir : FPath)
    (bytes : List Nat) (mOld : JVal) (od : FData)
    (hdirdef : dir = rootPath sid ++ folder)
    (hsafe : safeTarget (rootPath sid) path = .ok (dir ++ [old]))
    (hv1 : ¬ nn = "") (hv2 : ¬ nn = ".") (hv3 : containsSlashB nn = false)
    (hA : lookupF fs.files (dir ++ [old]) = some (.raw bytes))
    (hMA : lookupF fs.files (dir ++ [old ++ "-METADATA.JSON"]) = some (.jdata mOld))
    (hOA : lookupF fs.files (dir ++ [old ++ "-ONCHAIN-METADATA.JSON"]) = some od)
    (hd : dirExistsB fs (dir ++ [nn]) = false)
    (hroot : fs.dirs.contains (rootPath sid) = true)
    (hs0 : ¬ old = nn)
    (hs1 : ¬ old ++ "-METADATA.JSON" = nn)
    (hs2 : ¬ old ++ "-ONCHAIN-METADATA.JSON" = nn ++ "-METADATA.JSON")
    (hs3 : ¬ old ++ "-ONCHAIN-METADATA.JSON" = nn)
    (hs4 : ¬ old = nn ++ "-METADATA.JSON")
    (hs5 : ¬ old = nn ++ "-ONCHAIN-METADATA.JSON")
    (hs6 : ¬ old ++ "-METADATA.JSON" = nn ++ "-ONCHAIN-METADATA.JSON")
    (hcN : endsWithM (nn ++ "-METADATA.JSON") "-ONCHAIN-METADATA.JSON" = false)
    (hrN : replaceAllM (nn ++ "-METADATA.JSON") "-METADATA.JSON" "" = nn)
    (hfp : jGet mOld "folder_path" = some (.str (joinSegs folder))) :
    (storage_rename fs sid path nn).2 = .ok ()
    ∧ lookupF (storage_rename fs sid path nn).1.files (dir ++ [nn]) = some (.raw bytes)
    ∧ lookupF (storage_rename fs sid path nn).1.files (dir ++ [nn ++ "-METADATA.JSON"])
      = some (.jdata (jSet mOld "file_name" (.str nn)))
    ∧ lookupF (storage_rename fs sid path nn).1.files (dir ++ [old]) = none
    ∧ lookupF (storage_rename fs sid path nn).1.files (dir ++ [old ++ "-METADATA.JSON"])
      = none
    ∧ (∀ p, ¬ p = dir ++ [nn] → ¬ p = dir ++ [nn ++ "-METADATA.JSON"] →
        ¬ p = dir ++ [nn ++ "-ONCHAIN-METADATA.JSON"] →
        lookupF fs.files p = none → lookupF (storage_rename fs sid path nn).1.files p = none)
    ∧ (storage_rename fs sid path nn).1.dirs = fs.dirs
    ∧ (∀ x, dirExistsB fs (dir ++ [x]) = false →
        dirExistsB (storage_rename fs sid path nn).1 (dir ++ [x]) = false)
    ∧ lookupF (storage_rename fs sid path nn).1.files
        (dir ++ [nn ++ "-ONCHAIN-METADATA.JSON"]) = some od
    ∧ lookupF (storage_rename fs sid path nn).1.files
        (dir ++ [old ++ "-ONCHAIN-METADATA.JSON"]) = none := by
  have hdl : (dir ++ [old]).dropLast = dir := List.dropLast_concat
  have hre := rename_item_file_eq_onchain fs sid path nn (dir ++ [old]) bytes mOld od
    hsafe hv1 hv2 hv3
    hA (by rw [metaPathOf_concat]; exact hMA) (by rw [onchainPathOf_concat]; exact hOA)
    (by rw [hdl]; exact hd)
    (by rw [metaPathOf_concat, hdl]; exact concat_ne_concat _ _ _ hs1)
    (by rw [onchainPathOf_concat, hdl, metaPathOf_concat]; exact concat_ne_concat _ _ _ hs2)
    (by rw [onchainPathOf_concat, hdl]; exact concat_ne_concat _ _ _ hs3)
  rw [hdl] at hre
  simp only [metaPathOf_concat, onchainPathOf_concat] at hre
  generalize hF : insertF (insertF (eraseF (insertF (eraseF (insertF (eraseF fs.files
      (dir ++ [old])) (dir ++ [nn]) (.raw bytes)) (dir ++ [old ++ "-METADATA.JSON"]))
      (dir ++ [nn ++ "-METADATA.JSON"]) (.jdata mOld))
      (dir ++ [old ++ "-ONCHAIN-METADATA.JSON"]))
      (dir ++ [nn ++ "-ONCHAIN-METADATA.JSON"]) od)
      (dir ++ [nn ++ "-METADATA.JSON"]) (.jdata (jSet mOld "file_name" (.str nn))) = F at hre
  have hnnm : ¬ (dir ++ [nn] : FPath) = dir ++ [nn ++ "-METADATA.JSON"] :=
    concat_ne_concat _ _ _ (string_ne_append_right _ _ (by decide))
  have hnno : ¬ (dir ++ [nn] : FPath) = dir ++ [nn ++ "-ONCHAIN-METADATA.JSON"] :=
    concat_ne_concat _ _ _ (string_ne_append_right _ _ (by decide))
  have hmo : ¬ (dir ++ [nn ++ "-ONCHAIN-METADATA.JSON"] : FPath)
      = dir ++ [nn ++ "-METADATA.JSON"] :=
    concat_ne_concat _ _ _ (fun h => absurd (string_append_left_cancel _ _ _ h) (by decide))
  have hF1 : lookupF F (dir ++ [nn]) = some (.raw bytes) := by
    rw [← hF, lookupF_insert_ne _ _ _ _ hnnm, lookupF_insert_ne _ _ _ _ hnno,
      lookupF_erase_ne _ _ _ (concat_ne_concat _ _ _ (fun h => hs3 h.symm)),
      lookupF_insert_ne _ _ _ _ hnnm,
      lookupF_erase_ne _ _ _ (concat_ne_concat _ _ _ (fun h => hs1 h.symm)),
      lookupF_insert_self]
  have hF2 : lookupF F (dir ++ [nn ++ "-METADATA.JSON"])
      = some (.jdata (jSet mOld "file_name" (.str nn))) := by
    rw [← hF, lookupF_insert_self]
  have hF3 : lookupF F (dir ++ [old]) = none := by
    rw [← hF, lookupF_insert_ne _ _ _ _ (concat_ne_concat _ _ _ hs4),
      lookupF_insert_ne _ _ _ _ (concat_ne_concat _ _ _ hs5),
      lookupF_erase_ne _ _ _ (concat_ne_concat _ _ _ (string_ne_append_right _ _ (by decide))),
      lookupF_insert_ne _ _ _ _ (concat_ne_concat _ _ _ hs4),
      lookupF_erase_ne _ _ _ (concat_ne_concat _ _ _ (string_ne_append_right _ _ (by decide))),
      lookupF_insert_ne _ _ _ _ (concat_ne_concat _ _ _ hs0),
      lookupF_erase_self]
  have hF4 : lookupF F (dir ++ [old ++ "-METADATA.JSON"]) = none := by
    have hmm : ¬ (dir ++ [old ++ "-METADATA.JSON"] : FPath)
        = dir ++ [nn ++ "-METADATA.JSON"] :=
      concat_ne_concat _ _ _ (fun h => hs0 (string_append_right_cancel _ _ _ h))
    rw [← hF, lookupF_insert_ne _ _ _ _ hmm,
      lookupF_insert_ne _ _ _ _ (concat_ne_concat _ _ _ hs6),
      lookupF_erase_ne _ _ _ (concat_ne_concat _ _ _
        (fun h => absurd (string_append_left_cancel _ _ _ h) (by decide))),
      lookupF_insert_ne _ _ _ _ hmm,
      lookupF_erase_self]
  have hF6 : lookupF F (dir ++ [old ++ "-ONCHAIN-METADATA.JSON"]) = none := by
    rw [← hF, lookupF_insert_ne _ _ _ _ (concat_ne_concat _ _ _ hs2),
      lookupF_insert_ne _ _ _ _ (concat_ne_concat _ _ _
        (fun h => hs0 (string_append_right_cancel _ _ _ h))),
      lookupF_erase_self]
  have hF7 : lookupF F (dir ++ [nn ++ "-ONCHAIN-METADATA.JSON"]) = some od := by
    rw [← hF, lookupF_insert_ne _ _ _ _ hmo, lookupF_insert_self]
  have hF5 : ∀ p, ¬ p = dir ++ [nn] → ¬ p = dir ++ [nn ++ "-METADATA.JSON"] →
      ¬ p = dir ++ [nn ++ "-ONCHAIN-METADATA.JSON"] →
      lookupF fs.files p = none → lookupF F p = none := by
    intro p h1 h2 h3 hp
    rw [← hF, lookupF_insert_ne _ _ _ _ h2, lookupF_insert_ne _ _ _ _ h3]
    apply lookupF_erase_none
    rw [lookupF_insert_ne _ _ _ _ h2]
    apply lookupF_erase_none
    rw [lookupF_insert_ne _ _ _ _ h1]
    exact lookupF_erase_none _ _ _ hp
  have hex : existsB ⟨F, fs.dirs⟩ (rootPath sid) = true := by
    unfold existsB dirExistsB
    rw [hroot]
    simp
  have hr : storage_rename fs sid path nn
      = (⟨F.map (fun e => (e.1, refreshData ⟨F, fs.dirs⟩ (rootPath sid) e.1 e.2)), fs.dirs⟩,
        .ok ()) := by
    unfold storage_rename
    rw [hre]
    dsimp only
    unfold refresh_metadata_paths
    dsimp only
    rw [if_pos hex]
  obtain ⟨fl, hmov⟩ := jGet_some_obj mOld "folder_path" _ hfp
  subst hmov
  have hRD : refreshData ⟨F, fs.dirs⟩ (rootPath sid) (dir ++ [nn ++ "-METADATA.JSON"])
      (.jdata (jSet (.obj fl) "file_name" (.str nn)))
      = .jdata (jSet (.obj fl) "file_name" (.str nn)) := by
    have hpp : properPrefixB (rootPath sid) (dir ++ [nn ++ "-METADATA.JSON"]) = true := by
      rw [hdirdef, List.append_assoc]
      exact properPrefixB_self_append _ _ (by simp)
    have hexC : existsB ⟨F, fs.dirs⟩ (dir ++ [nn]) = true := by
      unfold existsB isFileB
      rw [hF1]
      rfl
    unfold refreshData
    dsimp only
    simp only [lastNameOf_concat, List.dropLast_concat, hrN, hpp, endsWithM_append, hcN,
      Bool.and_true, Bool.true_and, Bool.not_false, if_true, ite_true, hexC]
    rw [hdirdef, List.drop_left]
    rw [jGet_jSet_ne _ _ _ _ (by decide), hfp, jOptEqStr_self]
    rw [if_pos rfl]
    have hgfn : jGet (jSet (.obj fl) "file_name" (.str nn)) "file_name"
        = some (.str nn) := jGet_jSet_self _ _ _
    rw [hgfn, jOptEqStr_self]
    rw [if_pos rfl]
  have hg : (properPrefixB (rootPath sid) (dir ++ [nn ++ "-ONCHAIN-METADATA.JSON"])
      && endsWithM (lastNameOf (dir ++ [nn ++ "-ONCHAIN-METADATA.JSON"])) "-METADATA.JSON"
      && !endsWithM (lastNameOf (dir ++ [nn ++ "-ONCHAIN-METADATA.JSON"]))
        "-ONCHAIN-METADATA.JSON") = false := by
    simp only [lastNameOf_concat, endsWithM_append, Bool.not_true, Bool.and_false]
  refine ⟨by rw [hr], ?_, ?_, ?_, ?_, ?_, by rw [hr], ?_, ?_, ?_⟩
  · rw [hr]
    show lookupF (F.map (fun e => (e.1, refreshData ⟨F, fs.dirs⟩ (rootPath sid) e.1 e.2)))
      (dir ++ [nn]) = some (.raw bytes)
    rw [lookupF_mapData, hF1]
    rfl
  · rw [hr]
    show lookupF (F.map (fun e => (e.1, refreshData ⟨F, fs.dirs⟩ (rootPath sid) e.1 e.2)))
      (dir ++ [nn ++ "-METADATA.JSON"]) = some (.jdata (jSet (.obj fl) "file_name" (.str nn)))
    rw [lookupF_mapData, hF2]
    show some (refreshData ⟨F, fs.dirs⟩ (rootPath sid) (dir ++ [nn ++ "-METADATA.JSON"])
      (.jdata (jSet (.obj fl) "file_name" (.str nn)))) = _
    rw [hRD]
  · rw [hr]
    show lookupF (F.map (fun e => (e.1, refreshData ⟨F, fs.dirs⟩ (rootPath sid) e.1 e.2)))
      (dir ++ [old]) = none
    rw [lookupF_mapData, hF3]
    rfl
  · rw [hr]
    show lookupF (F.map (fun e => (e.1, refreshData ⟨F, fs.dirs⟩ (rootPath sid) e.1 e.2)))
      (dir ++ [old ++ "-METADATA.JSON"]) = none
    rw [lookupF_mapData, hF4]
    rfl
  · intro p h1 h2 h3 hp
    rw [hr]
    show lookupF (F.map (fun e => (e.1, refreshData ⟨F, fs.dirs⟩ (rootPath sid) e.1 e.2)))
      p = none
    rw [lookupF_mapData, hF5 p h1 h2 h3 hp]
    rfl
  · intro x hx
    rw [hr]
    unfold dirExistsB at hx ⊢
    simp only [Bool.or_eq_false_iff] at hx
    obtain ⟨⟨hx1, hx2⟩, hx3⟩ := hx
    have hmid : (F.map (fun e => (e.1, refreshData ⟨F, fs.dirs⟩ (rootPath sid) e.1 e.2))).any
        (fun e => properPrefixB (dir ++ [x]) e.1) = false := by
      rw [List.any_map, List.any_eq_false]
      intro e he
      show ¬ properPrefixB (dir ++ [x]) e.1 = true
      rw [← hF] at he
      have hlen : ∀ y : String, properPrefixB (dir ++ [x]) (dir ++ [y]) = false := by
        intro y
        apply properPrefixB_of_le_length
        simp
      rcases mem_insertF _ _ _ _ he with h1 | h1
      · rw [h1]
        dsimp only
        rw [hlen]
        exact Bool.false_ne_true
      rcases mem_insertF _ _ _ _ h1 with h2 | h2
      · rw [h2]
        dsimp only
        rw [hlen]
        exact Bool.false_ne_true
      have h3 := (mem_eraseF _ _ _ h2).1
      rcases mem_insertF _ _ _ _ h3 with h4 | h4
      · rw [h4]
        dsimp only
        rw [hlen]
        exact Bool.false_ne_true
      have h5 := (mem_eraseF _ _ _ h4).1
      rcases mem_insertF _ _ _ _ h5 with h6 | h6
      · rw [h6]
        dsimp only
        rw [hlen]
        exact Bool.false_ne_true
      have h7 := (mem_eraseF _ _ _ h6).1
      exact (List.any_eq_false.mp hx2) e h7
    rw [hx1, hmid, hx3]
    rfl
  · rw [hr]
    show lookupF (F.map (fun e => (e.1, refreshData ⟨F, fs.dirs⟩ (rootPath sid) e.1 e.2)))
      (dir ++ [nn ++ "-ONCHAIN-METADATA.JSON"]) = some od
    rw [lookupF_mapData, hF7]
    show some (refreshData ⟨F, fs.dirs⟩ (rootPath sid)
      (dir ++ [nn ++ "-ONCHAIN-METADATA.JSON"]) od) = _
    rw [refreshData_skip _ _ _ _ hg]
  · rw [hr]
    show lookupF (F.map (fun e => (e.1, refreshData ⟨F, fs.dirs⟩ (rootPath sid) e.1 e.2)))
      (dir ++ [old ++ "-ONCHAIN-METADATA.JSON"]) = none
    rw [lookupF_mapData, hF6]
    rfl

/-- C8 counterexample: the claim quantifies over every new name B, but
renaming `a.txt` to the colliding name `a.txt-METADATA.JSON` makes
`os.rename` overwrite the metadata sidecar with the document bytes; the
sidecar relocation then drags those bytes on to
`a.txt-METADATA.JSON-METADATA.JSON`, parsing them as JSON fails
(`jsonError`) after the state was already mutated, and the rename back
fails `osError` because nothing is left at the source: neither the
relative path nor any metadata field is restored. -/
theorem C8_counterexample_sidecar_name_collision :
    (storage_rename
      ⟨[(["cwd", "DATA", "ns", "a.txt"], .raw [1, 2]),
        (["cwd", "DATA", "ns", "a.txt-METADATA.JSON"],
          .jdata (.obj [("file_name", .str "a.txt"), ("folder_path", .str "")]))],
       [["cwd"], ["cwd", "DATA"], ["cwd", "DATA", "ns"]]⟩
      "ns" "a.txt" "a.txt-METADATA.JSON").2 = .error .jsonError
    ∧ lookupF (storage_rename
      ⟨[(["cwd", "DATA", "ns", "a.txt"], .raw [1, 2]),
        (["cwd", "DATA", "ns", "a.txt-METADATA.JSON"],
          .jdata (.obj [("file_name", .str "a.txt"), ("folder_path", .str "")]))],
       [["cwd"], ["cwd", "DATA"], ["cwd", "DATA", "ns"]]⟩
      "ns" "a.txt" "a.txt-METADATA.JSON").1.files ["cwd", "DATA", "ns", "a.txt"] = none
    ∧ lookupF (storage_rename
      ⟨[(["cwd", "DATA", "ns", "a.txt"], .raw [1, 2]),
        (["cwd", "DATA", "ns", "a.txt-METADATA.JSON"],
          .jdata (.obj [("file_name", .str "a.txt"), ("folder_path", .str "")]))],
       [["cwd"], ["cwd", "DATA"], ["cwd", "DATA", "ns"]]⟩
      "ns" "a.txt" "a.txt-METADATA.JSON").1.files
      ["cwd", "DATA", "ns", "a.txt-METADATA.JSON"] = none
    ∧ lookupF (storage_rename
      ⟨[(["cwd", "DATA", "ns", "a.txt"], .raw [1, 2]),
        (["cwd", "DATA", "ns", "a.txt-METADATA.JSON"],
          .jdata (.obj [("file_name", .str "a.txt"), ("folder_path", .str "")]))],
       [["cwd"], ["cwd", "DATA"], ["cwd", "DATA", "ns"]]⟩
      "ns" "a.txt" "a.txt-METADATA.JSON").1.files
      ["cwd", "DATA", "ns", "a.txt-METADATA.JSON-METADATA.JSON"] = some (.raw [1, 2])
    ∧ (storage_rename (storage_rename
      ⟨[(["cwd", "DATA", "ns", "a.txt"], .raw [1, 2]),
        (["cwd", "DATA", "ns", "a.txt-METADATA.JSON"],
          .jdata (.obj [("file_name", .str "a.txt"), ("folder_path", .str "")]))],
       [["cwd"], ["cwd", "DATA"], ["cwd", "DATA", "ns"]]⟩
      "ns" "a.txt" "a.txt-METADATA.JSON").1 "ns" "a.txt-METADATA.JSON" "a.txt").2
      = .error .osError
    ∧ lookupF (storage_rename (storage_rename
      ⟨[(["cwd", "DATA", "ns", "a.txt"], .raw [1, 2]),
        (["cwd", "DATA", "ns", "a.txt-METADATA.JSON"],
          .jdata (.obj [("file_name", .str "a.txt"), ("folder_path", .str "")]))],
       [["cwd"], ["cwd", "DATA"], ["cwd", "DATA", "ns"]]⟩
      "ns" "a.txt" "a.txt-METADATA.JSON").1 "ns" "a.txt-METADATA.JSON" "a.txt").1.files
      ["cwd", "DATA", "ns", "a.txt"] = none :=
  ⟨rfl, rfl, rfl, rfl, rfl, rfl⟩

/-- C8: for a file stored at `folder/aName` with an in-sync sidecar,
its on-chain artifact present or absent (`oa`), and any valid new name
`bName` (names pairwise non-colliding with each other's
sidecar/artifact names, the destination name fresh, no directory in the
way), renaming A→B and then B→A through the rename endpoint — each run
including the metadata-path resynchronization the endpoint performs —
restores the original relative path: the bytes are back at A and gone
from B, the file's MetadataRecord is field-for-field the original
object, the on-chain artifact is back at A's name exactly as it was,
and directories are untouched. -/
theorem C8_rename_round_trip
    (fs : FS) (sid pathA pathB aName bName : String) (folder : FPath)
    (bytes : List Nat) (m : JVal) (oa : Option FData)
    (hsafeA : safeTarget (rootPath sid) pathA = .ok (rootPath sid ++ folder ++ [aName]))
    (hsafeB : safeTarget (rootPath sid) pathB = .ok (rootPath sid ++ folder ++ [bName]))
    (haV1 : ¬ aName = "") (haV2 : ¬ aName = ".") (haV3 : containsSlashB aName = false)
    (hbV1 : ¬ bName = "") (hbV2 : ¬ bName = ".") (hbV3 : containsSlashB bName = false)
    (hA : lookupF fs.files (rootPath sid ++ folder ++ [aName]) = some (.raw bytes))
    (hMA : lookupF fs.files (rootPath sid ++ folder ++ [aName ++ "-METADATA.JSON"])
      = some (.jdata m))
    (hOA : lookupF fs.files (rootPath sid ++ folder ++ [aName ++ "-ONCHAIN-METADATA.JSON"])
      = oa)
    (hOB : lookupF fs.files (rootPath sid ++ folder ++ [bName ++ "-ONCHAIN-METADATA.JSON"])
      = none)
    (hdA : dirExistsB fs (rootPath sid ++ folder ++ [aName]) = false)
    (hdB : dirExistsB fs (rootPath sid ++ folder ++ [bName]) = false)
    (hroot : fs.dirs.contains (rootPath sid) = true)
    (hs0 : ¬ aName = bName)
    (hs1 : ¬ aName ++ "-METADATA.JSON" = bName)
    (hs2 : ¬ aName ++ "-ONCHAIN-METADATA.JSON" = bName ++ "-METADATA.JSON")
    (hs3 : ¬ aName ++ "-ONCHAIN-METADATA.JSON" = bName)
    (hs4 : ¬ aName = bName ++ "-METADATA.JSON")
    (hs6 : ¬ bName ++ "-ONCHAIN-METADATA.JSON" = aName ++ "-METADATA.JSON")
    (hs7 : ¬ bName ++ "-ONCHAIN-METADATA.JSON" = aName)
    (hcA : endsWithM (aName ++ "-METADATA.JSON") "-ONCHAIN-METADATA.JSON" = false)
    (hcB : endsWithM (bName ++ "-METADATA.JSON") "-ONCHAIN-METADATA.JSON" = false)
    (hrA : replaceAllM (aName ++ "-METADATA.JSON") "-METADATA.JSON" "" = aName)
    (hrB : replaceAllM (bName ++ "-METADATA.JSON") "-METADATA.JSON" "" = bName)
    (hmfn : jGet m "file_name" = some (.str aName))
    (hmfp : jGet m "folder_path" = some (.str (joinSegs folder))) :
    (storage_rename fs sid pathA bName).2 = .ok ()
    ∧ (storage_rename (storage_rename fs sid pathA bName).1 sid pathB aName).2 = .ok ()
    ∧ lookupF (storage_rename (storage_rename fs sid pathA bName).1 sid pathB aName).1.files
        (rootPath sid ++ folder ++ [aName]) = some (.raw bytes)
    ∧ lookupF (storage_rename (storage_rename fs sid pathA bName).1 sid pathB aName).1.files
        (rootPath sid ++ folder ++ [aName ++ "-METADATA.JSON"]) = some (.jdata m)
    ∧ lookupF (storage_rename (storage_rename fs sid pathA bName).1 sid pathB aName).1.files
        (rootPath sid ++ folder ++ [bName]) = none
    ∧ lookupF (storage_rename (storage_rename fs sid pathA bName).1 sid pathB aName).1.files
        (rootPath sid ++ folder ++ [bName ++ "-METADATA.JSON"]) = none
    ∧ lookupF (storage_rename (storage_rename fs sid pathA bName).1 sid pathB aName).1.files
        (rootPath sid ++ folder ++ [aName ++ "-ONCHAIN-METADATA.JSON"]) = oa
    ∧ lookupF (storage_rename (storage_rename fs sid pathA bName).1 sid pathB aName).1.files
        (rootPath sid ++ folder ++ [bName ++ "-ONCHAIN-METADATA.JSON"]) = none
    ∧ (storage_rename (storage_rename fs sid pathA bName).1 sid pathB aName).1.dirs
      = fs.dirs := by
  cases oa with
  | none =>
    obtain ⟨ho1, hb1, hmb1, ha1, hma1, hfr1, hdirs1, hdpres1⟩ :=
      storage_rename_step fs sid pathA aName bName folder (rootPath sid ++ folder) bytes m
        rfl hsafeA hbV1 hbV2 hbV3 hA hMA hOA hdB hroot hs0 hs1 hs2 hs3 hs4 hcB hrB hmfp
    have hOB1 : lookupF (storage_rename fs sid pathA bName).1.files
        (rootPath sid ++ folder ++ [bName ++ "-ONCHAIN-METADATA.JSON"]) = none := by
      apply hfr1
      · exact concat_ne_concat _ _ _
          (fun h => string_ne_append_right bName "-ONCHAIN-METADATA.JSON" (by decide) h.symm)
      · exact concat_ne_concat _ _ _
          (fun h => absurd (string_append_left_cancel bName _ _ h) (by decide))
      · exact hOB
    have hOA1 : lookupF (storage_rename fs sid pathA bName).1.files
        (rootPath sid ++ folder ++ [aName ++ "-ONCHAIN-METADATA.JSON"]) = none := by
      apply hfr1
      · exact concat_ne_concat _ _ _ hs3
      · exact concat_ne_concat _ _ _ hs2
      · exact hOA
    obtain ⟨fl, hmo⟩ := jGet_some_obj m "folder_path" _ hmfp
    have hfp1 : jGet (jSet m "file_name" (.str bName)) "folder_path"
        = some (.str (joinSegs folder)) := by
      rw [hmo]
      rw [jGet_jSet_ne _ _ _ _ (by decide)]
      rw [← hmo]
      exact hmfp
    obtain ⟨ho2, hb2, hmb2, ha2, hma2, hfr2, hdirs2, hdpres2⟩ :=
      storage_rename_step (storage_rename fs sid pathA bName).1 sid pathB bName aName folder
        (rootPath sid ++ folder) bytes (jSet m "file_name" (.str bName))
        rfl hsafeB haV1 haV2 haV3 hb1 hmb1 hOB1 (hdpres1 aName hdA)
        (by rw [hdirs1]; exact hroot)
        (fun h => hs0 h.symm) (fun h => hs4 h.symm) hs6 hs7 (fun h => hs1 h.symm)
        hcA hrA hfp1
    have hOA2 : lookupF (storage_rename (storage_rename fs sid pathA bName).1 sid pathB
        aName).1.files (rootPath sid ++ folder ++ [aName ++ "-ONCHAIN-METADATA.JSON"])
        = none := by
      apply hfr2
      · exact concat_ne_concat _ _ _
          (fun h => string_ne_append_right aName "-ONCHAIN-METADATA.JSON" (by decide) h.symm)
      · exact concat_ne_concat _ _ _
          (fun h => absurd (string_append_left_cancel aName _ _ h) (by decide))
      · exact hOA1
    have hOB2 : lookupF (storage_rename (storage_rename fs sid pathA bName).1 sid pathB
        aName).1.files (rootPath sid ++ folder ++ [bName ++ "-ONCHAIN-METADATA.JSON"])
        = none := by
      apply hfr2
      · exact concat_ne_concat _ _ _ hs7
      · exact concat_ne_concat _ _ _ hs6
      · exact hOB1
    have hmm : jSet (jSet m "file_name" (.str bName)) "file_name" (.str aName) = m := by
      rw [jSet_jSet]
      exact jSet_self _ _ _ hmfn
    rw [hmm] at hmb2
    exact ⟨ho1, ho2, hb2, hmb2, ha2, hma2, hOA2, hOB2, hdirs2.trans hdirs1⟩
  | some od =>
    obtain ⟨ho1, hb1, hmb1, ha1, hma1, hfr1, hdirs1, hdpres1, hon1, hoo1⟩ :=
      storage_rename_step_onchain fs sid pathA aName bName folder (rootPath sid ++ folder)
        bytes m od rfl hsafeA hbV1 hbV2 hbV3 hA hMA hOA hdB hroot
        hs0 hs1 hs2 hs3 hs4 (fun h => hs7 h.symm) (fun h => hs6 h.symm) hcB hrB hmfp
    obtain ⟨fl, hmo⟩ := jGet_some_obj m "folder_path" _ hmfp
    have hfp1 : jGet (jSet m "file_name" (.str bName)) "folder_path"
        = some (.str (joinSegs folder)) := by
      rw [hmo]
      rw [jGet_jSet_ne _ _ _ _ (by decide)]
      rw [← hmo]
      exact hmfp
    obtain ⟨ho2, hb2, hmb2, ha2, hma2, hfr2, hdirs2, hdpres2, hon2, hoo2⟩ :=
      storage_rename_step_onchain (storage_rename fs sid pathA bName).1 sid pathB bName aName
        folder (rootPath sid ++ folder) bytes (jSet m "file_name" (.str bName)) od
        rfl hsafeB haV1 haV2 haV3 hb1 hmb1 hon1 (hdpres1 aName hdA)
        (by rw [hdirs1]; exact hroot)
        (fun h => hs0 h.symm) (fun h => hs4 h.symm) hs6 hs7 (fun h => hs1 h.symm)
        (fun h => hs3 h.symm) (fun h => hs2 h.symm) hcA hrA hfp1
    have hmm : jSet (jSet m "file_name" (.str bName)) "file_name" (.str aName) = m := by
      rw [jSet_jSet]
      exact jSet_self _ _ _ hmfn
    rw [hmm] at hmb2
    exact ⟨ho1, ho2, hb2, hmb2, ha2, hma2, hon2, hoo2, hdirs2.trans hdirs1⟩

/-- Witness for C8 on a notarized document: renaming `a.txt` (bytes,
sidecar and on-chain artifact all present) to `b.txt` and back in
namespace `ns` succeeds twice, puts the bytes back at `a.txt`, leaves
nothing at `b.txt`, the sidecar holds exactly the original record, and
the artifact is back at `a.txt-ONCHAIN-METADATA.JSON` unchanged. -/
theorem C8_rename_round_trip_witness :
    (storage_rename
      ⟨[(["cwd", "DATA", "ns", "a.txt"], .raw [1, 2]),
        (["cwd", "DATA", "ns", "a.txt-METADATA.JSON"],
          .jdata (.obj [("file_name", .str "a.txt"), ("folder_path", .str "")])),
        (["cwd", "DATA", "ns", "a.txt-ONCHAIN-METADATA.JSON"],
          .jdata (.obj [("asset_id", .num 7)]))],
       [["cwd"], ["cwd", "DATA"], ["cwd", "DATA", "ns"]]⟩
      "ns" "a.txt" "b.txt").2 = .ok ()
    ∧ (storage_rename (storage_rename
      ⟨[(["cwd", "DATA", "ns", "a.txt"], .raw [1, 2]),
        (["cwd", "DATA", "ns", "a.txt-METADATA.JSON"],
          .jdata (.obj [("file_name", .str "a.txt"), ("folder_path", .str "")])),
        (["cwd", "DATA", "ns", "a.txt-ONCHAIN-METADATA.JSON"],
          .jdata (.obj [("asset_id", .num 7)]))],
       [["cwd"], ["cwd", "DATA"], ["cwd", "DATA", "ns"]]⟩
      "ns" "a.txt" "b.txt").1 "ns" "b.txt" "a.txt").2 = .ok ()
    ∧ lookupF (storage_rename (storage_rename
      ⟨[(["cwd", "DATA", "ns", "a.txt"], .raw [1, 2]),
        (["cwd", "DATA", "ns", "a.txt-METADATA.JSON"],
          .jdata (.obj [("file_name", .str "a.txt"), ("folder_path", .str "")])),
        (["cwd", "DATA", "ns", "a.txt-ONCHAIN-METADATA.JSON"],
          .jdata (.obj [("asset_id", .num 7)]))],
       [["cwd"], ["cwd", "DATA"], ["cwd", "DATA", "ns"]]⟩
      "ns" "a.txt" "b.txt").1 "ns" "b.txt" "a.txt").1.files
      ["cwd", "DATA", "ns", "a.txt"] = some (.raw [1, 2])
    ∧ lookupF (storage_rename (storage_rename
      ⟨[(["cwd", "DATA", "ns", "a.txt"], .raw [1, 2]),
        (["cwd", "DATA", "ns", "a.txt-METADATA.JSON"],
          .jdata (.obj [("file_name", .str "a.txt"), ("folder_path", .str "")])),
        (["cwd", "DATA", "ns", "a.txt-ONCHAIN-METADATA.JSON"],
          .jdata (.obj [("asset_id", .num 7)]))],
       [["cwd"], ["cwd", "DATA"], ["cwd", "DATA", "ns"]]⟩
      "ns" "a.txt" "b.txt").1 "ns" "b.txt" "a.txt").1.files
      ["cwd", "DATA", "ns", "a.txt-METADATA.JSON"]
      = some (.jdata (.obj [("file_name", .str "a.txt"), ("folder_path", .str "")]))
    ∧ lookupF (storage_rename (storage_rename
      ⟨[(["cwd", "DATA", "ns", "a.txt"], .raw [1, 2]),
        (["cwd", "DATA", "ns", "a.txt-METADATA.JSON"],
          .jdata (.obj [("file_name", .str "a.txt"), ("folder_path", .str "")])),
        (["cwd", "DATA", "ns", "a.txt-ONCHAIN-METADATA.JSON"],
          .jdata (.obj [("asset_id", .num 7)]))],
       [["cwd"], ["cwd", "DATA"], ["cwd", "DATA", "ns"]]⟩
      "ns" "a.txt" "b.txt").1 "ns" "b.txt" "a.txt").1.files
      ["cwd", "DATA", "ns", "b.txt"] = none
    ∧ lookupF (storage_rename (storage_rename
      ⟨[(["cwd", "DATA", "ns", "a.txt"], .raw [1, 2]),
        (["cwd", "DATA", "ns", "a.txt-METADATA.JSON"],
          .jdata (.obj [("file_name", .str "a.txt"), ("folder_path", .str "")])),
        (["cwd", "DATA", "ns", "a.txt-ONCHAIN-METADATA.JSON"],
          .jdata (.obj [("asset_id", .num 7)]))],
       [["cwd"], ["cwd", "DATA"], ["cwd", "DATA", "ns"]]⟩
      "ns" "a.txt" "b.txt").1 "ns" "b.txt" "a.txt").1.files
      ["cwd", "DATA", "ns", "a.txt-ONCHAIN-METADATA.JSON"]
      = some (.jdata (.obj [("asset_id", .num 7)]))
    ∧ lookupF (storage_rename (storage_rename
      ⟨[(["cwd", "DATA", "ns", "a.txt"], .raw [1, 2]),
        (["cwd", "DATA", "ns", "a.txt-METADATA.JSON"],
          .jdata (.obj [("file_name", .str "a.txt"), ("folder_path", .str "")])),
        (["cwd", "DATA", "ns", "a.txt-ONCHAIN-METADATA.JSON"],
          .jdata (.obj [("asset_id", .num 7)]))],
       [["cwd"], ["cwd", "DATA"], ["cwd", "DATA", "ns"]]⟩
      "ns" "a.txt" "b.txt").1 "ns" "b.txt" "a.txt").1.files
      ["cwd", "DATA", "ns", "b.txt-ONCHAIN-METADATA.JSON"] = none := by
  have h := C8_rename_round_trip
    ⟨[(["cwd", "DATA", "ns", "a.txt"], .raw [1, 2]),
      (["cwd", "DATA", "ns", "a.txt-METADATA.JSON"],
        .jdata (.obj [("file_name", .str "a.txt"), ("folder_path", .str "")])),
      (["cwd", "DATA", "ns", "a.txt-ONCHAIN-METADATA.JSON"],
        .jdata (.obj [("asset_id", .num 7)]))],
     [["cwd"], ["cwd", "DATA"], ["cwd", "DATA", "ns"]]⟩
    "ns" "a.txt" "b.txt" "a.txt" "b.txt" [] [1, 2]
    (.obj [("file_name", .str "a.txt"), ("folder_path", .str "")])
    (some (.jdata (.obj [("asset_id", .num 7)])))
    rfl rfl (by decide) (by decide) rfl (by decide) (by decide) rfl
    rfl rfl rfl rfl rfl rfl rfl
    (by decide) (by decide) (by decide) (by decide) (by decide) (by decide) (by decide)
    rfl rfl rfl rfl rfl rfl
  exact ⟨h.1, h.2.1, h.2.2.1, h.2.2.2.1, h.2.2.2.2.1, h.2.2.2.2.2.2.1,
    h.2.2.2.2.2.2.2.1⟩

/- ----------------------------------------------------------------- -/
/- C10: the resynchronization is idempotent and frame-preserving.     -/
/- ----------------------------------------------------------------- -/

theorem jOptEqStr_eq (o : Option JVal) (s : String) (h : jOptEqStr o s = true) :
    o = some (.str s) := by
  match o with
  | some (.str a) =>
    have ha : a = s := by
      unfold jOptEqStr at h
      exact of_decide_eq_true h
    rw [ha]
  | none => exact absurd h (by simp [jOptEqStr])
  | some (.num n) => exact absurd h (by simp [jOptEqStr])
  | some (.bool b) => exact absurd h (by simp [jOptEqStr])
  | some .null => exact absurd h (by simp [jOptEqStr])
  | some (.arr xs) => exact absurd h (by simp [jOptEqStr])
  | some (.obj fl) => exact absurd h (by simp [jOptEqStr])

/-- `jSet` at one key never changes what `jGet` reads at another. -/
theorem jGet_jSet_other (j : JVal) (k k' : String) (v : JVal) (h : ¬ k' = k) :
    jGet (jSet j k v) k' = jGet j k' := by
  cases j with
  | obj fields => exact jGet_jSet_ne _ _ _ _ h
  | str s => rfl
  | num n => rfl
  | bool b => rfl
  | null => rfl
  | arr xs => rfl

/-- Refreshing keys, membership and directories are exactly preserved
by a value-only map over the entries, so every existence test is. -/
theorem existsB_mapData (fs : FS) (g : FPath → FData → FData) (q : FPath) :
    existsB ⟨fs.files.map (fun e => (e.1, g e.1 e.2)), fs.dirs⟩ q = existsB fs q := by
  unfold existsB isFileB dirExistsB
  dsimp only
  rw [lookupF_mapData, List.any_map]
  cases lookupF fs.files q <;> rfl

/-- A sidecar whose path fields already match the disk location is left
byte-identical. -/
theorem refreshData_noop (fs : FS) (root p : FPath) (j : JVal)
    (h1 : jOptEqStr (jGet j "folder_path")
      (joinSegs (p.dropLast.drop root.length)) = true)
    (h2 : jOptEqStr (jGet j "file_name")
      (lastNameOf (p.dropLast ++ [replaceAllM (lastNameOf p) "-METADATA.JSON" ""]))
      = true) :
    refreshData fs root p (.jdata j) = .jdata j := by
  unfold refreshData
  dsimp only
  split
  · split
    · rfl
    · rfl
  · rfl

/-- The rewrite touches only `folder_path` and `file_name`. -/
theorem refreshData_jGet_other (fs : FS) (root p : FPath) (j j' : JVal) (k : String)
    (h : refreshData fs root p (.jdata j) = .jdata j')
    (h1 : ¬ k = "folder_path") (h2 : ¬ k = "file_name") :
    jGet j' k = jGet j k := by
  unfold refreshData at h
  dsimp only at h
  split at h
  · split at h
    · split at h
      · split at h
        · injection h with h3
          rw [← h3]
        · injection h with h3
          rw [← h3, jGet_jSet_other _ _ _ _ h2]
      · split at h
        · injection h with h3
          rw [← h3, jGet_jSet_other _ _ _ _ h1]
        · injection h with h3
          rw [← h3, jGet_jSet_other _ _ _ _ h2, jGet_jSet_other _ _ _ _ h1]
    · injection h with h3
      rw [← h3]
  · injection h with h3
    rw [← h3]

/-- One pass of the per-sidecar rewrite is idempotent, as long as the
second pass runs against a state with the same existence tests (which
the rewrite itself guarantees, since it never moves or creates
entries). -/
theorem refreshData_idem (fs fs2 : FS) (root p : FPath) (d : FData)
    (hex : ∀ q, existsB fs2 q = existsB fs q) :
    refreshData fs2 root p (refreshData fs root p d) = refreshData fs root p d := by
  cases d with
  | raw b => rfl
  | jdata j =>
    by_cases hc : (properPrefixB root p && endsWithM (lastNameOf p) "-METADATA.JSON"
        && !endsWithM (lastNameOf p) "-ONCHAIN-METADATA.JSON") = true
    case neg =>
      rw [Bool.not_eq_true] at hc
      rw [refreshData_skip fs root p (.jdata j) hc, refreshData_skip fs2 root p (.jdata j) hc]
    case pos =>
      by_cases hx : existsB fs
          (p.dropLast ++ [replaceAllM (lastNameOf p) "-METADATA.JSON" ""]) = true
      case neg =>
        have hx2 : ¬ existsB fs2
            (p.dropLast ++ [replaceAllM (lastNameOf p) "-METADATA.JSON" ""]) = true := by
          rw [hex]
          exact hx
        have hin : refreshData fs root p (.jdata j) = .jdata j := by
          unfold refreshData
          dsimp only
          rw [if_pos hc, if_neg hx]
        have hout : refreshData fs2 root p (.jdata j) = .jdata j := by
          unfold refreshData
          dsimp only
          rw [if_pos hc, if_neg hx2]
        rw [hin, hout]
      case pos =>
        cases j with
        | str s =>
          have hin : refreshData fs root p (.jdata (.str s)) = .jdata (.str s) := by
            unfold refreshData
            dsimp only
            simp [jGet, jSet, jOptEqStr]
          have hout : refreshData fs2 root p (.jdata (.str s)) = .jdata (.str s) := by
            unfold refreshData
            dsimp only
            simp [jGet, jSet, jOptEqStr]
          rw [hin, hout]
        | num n =>
          have hin : refreshData fs root p (.jdata (.num n)) = .jdata (.num n) := by
            unfold refreshData
            dsimp only
            simp [jGet, jSet, jOptEqStr]
          have hout : refreshData fs2 root p (.jdata (.num n)) = .jdata (.num n) := by
            unfold refreshData
            dsimp only
            simp [jGet, jSet, jOptEqStr]
          rw [hin, hout]
        | bool b =>
          have hin : refreshData fs root p (.jdata (.bool b)) = .jdata (.bool b) := by
            unfold refreshData
            dsimp only
            simp [jGet, jSet, jOptEqStr]
          have hout : refreshData fs2 root p (.jdata (.bool b)) = .jdata (.bool b) := by
            unfold refreshData
            dsimp only
            simp [jGet, jSet, jOptEqStr]
          rw [hin, hout]
        | null =>
          have hin : refreshData fs root p (.jdata .null) = .jdata .null := by
            unfold refreshData
            dsimp only
            simp [jGet, jSet, jOptEqStr]
          have hout : refreshData fs2 root p (.jdata .null) = .jdata .null := by
            unfold refreshData
            dsimp only
            simp [jGet, jSet, jOptEqStr]
          rw [hin, hout]
        | arr xs =>
          have hin : refreshData fs root p (.jdata (.arr xs)) = .jdata (.arr xs) := by
            unfold refreshData
            dsimp only
            simp [jGet, jSet, jOptEqStr]
          have hout : refreshData fs2 root p (.jdata (.arr xs)) = .jdata (.arr xs) := by
            unfold refreshData
            dsimp only
            simp [jGet, jSet, jOptEqStr]
          rw [hin, hout]
        | obj fields =>
          have hin : ∃ j2, refreshData fs root p (.jdata (.obj fields)) = .jdata j2
              ∧ jGet j2 "folder_path"
                = some (.str (joinSegs (p.dropLast.drop root.length)))
              ∧ jGet j2 "file_name" = some (.str (lastNameOf (p.dropLast
                  ++ [replaceAllM (lastNameOf p) "-METADATA.JSON" ""]))) := by
            unfold refreshData
            dsimp only
            rw [if_pos hc, if_pos hx]
            by_cases h1 : jOptEqStr (jGet (JVal.obj fields) "folder_path")
                (joinSegs (p.dropLast.drop root.length)) = true
            · rw [if_pos h1]
              by_cases h2 : jOptEqStr (jGet (JVal.obj fields) "file_name")
                  (lastNameOf (p.dropLast
                    ++ [replaceAllM (lastNameOf p) "-METADATA.JSON" ""])) = true
              · rw [if_pos h2]
                exact ⟨_, rfl, jOptEqStr_eq _ _ h1, jOptEqStr_eq _ _ h2⟩
              · rw [if_neg h2]
                refine ⟨_, rfl, ?_, ?_⟩
                · rw [jGet_jSet_other _ _ _ _ (by decide)]
                  exact jOptEqStr_eq _ _ h1
                · exact jGet_jSet_self _ _ _
            · rw [if_neg h1]
              by_cases h2 : jOptEqStr (jGet (jSet (JVal.obj fields) "folder_path"
                  (.str (joinSegs (p.dropLast.drop root.length)))) "file_name")
                  (lastNameOf (p.dropLast
                    ++ [replaceAllM (lastNameOf p) "-METADATA.JSON" ""])) = true
              · rw [if_pos h2]
                exact ⟨_, rfl, jGet_jSet_self _ _ _, jOptEqStr_eq _ _ h2⟩
              · rw [if_neg h2]
                refine ⟨_, rfl, ?_, ?_⟩
                · rw [jGet_jSet_other _ _ _ _ (by decide)]
                  exact jGet_jSet_self _ _ _
                · show jGet (jSet (.obj (setField fields "folder_path"
                    (.str (joinSegs (p.dropLast.drop root.length))))) "file_name"
                      (.str (lastNameOf (p.dropLast
                        ++ [replaceAllM (lastNameOf p) "-METADATA.JSON" ""])))) "file_name"
                    = _
                  exact jGet_jSet_self _ _ _
          obtain ⟨j2, hin2, hfp2, hfn2⟩ := hin
          rw [hin2, refreshData_noop fs2 root p j2
            (by rw [hfp2]; exact jOptEqStr_self _) (by rw [hfn2]; exact jOptEqStr_self _)]

/-- The resynchronization endpoint pass is idempotent on whole states. -/
theorem refresh_refresh (fs : FS) (sid : String) :
    refresh_metadata_paths (refresh_metadata_paths fs sid) sid
      = refresh_metadata_paths fs sid := by
  unfold refresh_metadata_paths
  dsimp only
  by_cases hex : existsB fs (rootPath sid) = true
  case neg =>
    rw [if_neg hex, if_neg hex]
  case pos =>
    rw [if_pos hex]
    have hex2 : existsB ⟨fs.files.map (fun e =>
        (e.1, refreshData fs (rootPath sid) e.1 e.2)), fs.dirs⟩ (rootPath sid) = true := by
      rw [existsB_mapData]
      exact hex
    rw [if_pos hex2]
    congr 1
    rw [List.map_map]
    apply List.map_congr_left
    intro e he
    show (e.1, refreshData ⟨fs.files.map (fun e =>
        (e.1, refreshData fs (rootPath sid) e.1 e.2)), fs.dirs⟩ (rootPath sid) e.1
      (refreshData fs (rootPath sid) e.1 e.2)) = (e.1, refreshData fs (rootPath sid) e.1 e.2)
    congr 1
    exact refreshData_idem fs _ (rootPath sid) e.1 e.2 (fun q => existsB_mapData fs _ q)

/-- C10: the metadata-path resynchronization is idempotent — running it
twice equals running it once on every state — and frame-preserving: it
never touches directories, raw-bytes files, or any entry that is not a
qualifying `-METADATA.JSON` sidecar below the namespace root (in
particular every `-ONCHAIN-METADATA.JSON` artifact is skipped); on a
qualifying sidecar it can rewrite only the `folder_path` and
`file_name` fields (every other field, `validations` included, reads
back unchanged), and when those fields already match the content file's
disk location the sidecar is left byte-identical. -/
theorem C10_refresh_idempotent_and_frame :
    (∀ (fs : FS) (sid : String),
      refresh_metadata_paths (refresh_metadata_paths fs sid) sid
        = refresh_metadata_paths fs sid)
    ∧ (∀ (fs : FS) (sid : String), (refresh_metadata_paths fs sid).dirs = fs.dirs)
    ∧ (∀ (fs : FS) (sid : String) (p : FPath) (b : List Nat),
        lookupF fs.files p = some (.raw b) →
        lookupF (refresh_metadata_paths fs sid).files p = some (.raw b))
    ∧ (∀ (fs : FS) (sid : String) (p : FPath) (d : FData),
        (properPrefixB (rootPath sid) p && endsWithM (lastNameOf p) "-METADATA.JSON"
          && !endsWithM (lastNameOf p) "-ONCHAIN-METADATA.JSON") = false →
        lookupF fs.files p = some d →
        lookupF (refresh_metadata_paths fs sid).files p = some d)
    ∧ (∀ (fs : FS) (sid : String) (p : FPath) (j j' : JVal) (k : String),
        lookupF fs.files p = some (.jdata j) →
        lookupF (refresh_metadata_paths fs sid).files p = some (.jdata j') →
        ¬ k = "folder_path" → ¬ k = "file_name" → jGet j' k = jGet j k)
    ∧ (∀ (fs : FS) (sid : String) (p : FPath) (j : JVal),
        lookupF fs.files p = some (.jdata j) →
        jOptEqStr (jGet j "folder_path")
          (joinSegs (p.dropLast.drop (rootPath sid).length)) = true →
        jOptEqStr (jGet j "file_name")
          (lastNameOf (p.dropLast ++ [replaceAllM (lastNameOf p) "-METADATA.JSON" ""]))
          = true →
        lookupF (refresh_metadata_paths fs sid).files p = some (.jdata j)) := by
  refine ⟨fun fs sid => refresh_refresh fs sid, ?_, ?_, ?_, ?_, ?_⟩
  · intro fs sid
    unfold refresh_metadata_paths
    dsimp only
    split
    · rfl
    · rfl
  · exact fun fs sid p b h => refresh_raw_frame fs sid p b h
  · intro fs sid p d hc h
    unfold refresh_metadata_paths
    dsimp only
    split
    · show lookupF (fs.files.map (fun e => (e.1, refreshData fs (rootPath sid) e.1 e.2))) p
        = some d
      rw [lookupF_mapData, h]
      show some (refreshData fs (rootPath sid) p d) = some d
      rw [refreshData_skip _ _ _ _ hc]
    · exact h
  · intro fs sid p j j' k hj hj' h1 h2
    unfold refresh_metadata_paths at hj'
    dsimp only at hj'
    split at hj'
    · rw [lookupF_mapData, hj] at hj'
      injection hj' with h3
      exact refreshData_jGet_other fs (rootPath sid) p j j' k h3 h1 h2
    · rw [hj] at hj'
      injection hj' with h3
      injection h3 with h4
      rw [h4]
  · intro fs sid p j hj hm1 hm2
    unfold refresh_metadata_paths
    dsimp only
    split
    · show lookupF (fs.files.map (fun e => (e.1, refreshData fs (rootPath sid) e.1 e.2))) p
        = some (.jdata j)
      rw [lookupF_mapData, hj]
      show some (refreshData fs (rootPath sid) p (.jdata j)) = some (.jdata j)
      rw [refreshData_noop fs (rootPath sid) p j hm1 hm2]
    · exact hj

/-- Witness for C10 on a namespace holding a document, its in-sync
sidecar and an on-chain artifact: the resynchronization leaves the raw
bytes, the artifact and the matching sidecar byte-identical. -/
theorem C10_refresh_idempotent_and_frame_witness :
    lookupF (refresh_metadata_paths
      ⟨[(["cwd", "DATA", "ns", "x", "doc.pdf"], .raw [7]),
        (["cwd", "DATA", "ns", "x", "doc.pdf-METADATA.JSON"],
          .jdata (.obj [("folder_path", .str "x"), ("file_name", .str "doc.pdf"),
            ("validations", .arr [])])),
        (["cwd", "DATA", "ns", "x", "doc.pdf-ONCHAIN-METADATA.JSON"],
          .jdata (.obj [("asset_id", .num 5)]))],
       [["cwd"], ["cwd", "DATA"], ["cwd", "DATA", "ns"], ["cwd", "DATA", "ns", "x"]]⟩
      "ns").files ["cwd", "DATA", "ns", "x", "doc.pdf"] = some (.raw [7])
    ∧ lookupF (refresh_metadata_paths
      ⟨[(["cwd", "DATA", "ns", "x", "doc.pdf"], .raw [7]),
        (["cwd", "DATA", "ns", "x", "doc.pdf-METADATA.JSON"],
          .jdata (.obj [("folder_path", .str "x"), ("file_name", .str "doc.pdf"),
            ("validations", .arr [])])),
        (["cwd", "DATA", "ns", "x", "doc.pdf-ONCHAIN-METADATA.JSON"],
          .jdata (.obj [("asset_id", .num 5)]))],
       [["cwd"], ["cwd", "DATA"], ["cwd", "DATA", "ns"], ["cwd", "DATA", "ns", "x"]]⟩
      "ns").files ["cwd", "DATA", "ns", "x", "doc.pdf-ONCHAIN-METADATA.JSON"]
      = some (.jdata (.obj [("asset_id", .num 5)]))
    ∧ lookupF (refresh_metadata_paths
      ⟨[(["cwd", "DATA", "ns", "x", "doc.pdf"], .raw [7]),
        (["cwd", "DATA", "ns", "x", "doc.pdf-METADATA.JSON"],
          .jdata (.obj [("folder_path", .str "x"), ("file_name", .str "doc.pdf"),
            ("validations", .arr [])])),
        (["cwd", "DATA", "ns", "x", "doc.pdf-ONCHAIN-METADATA.JSON"],
          .jdata (.obj [("asset_id", .num 5)]))],
       [["cwd"], ["cwd", "DATA"], ["cwd", "DATA", "ns"], ["cwd", "DATA", "ns", "x"]]⟩
      "ns").files ["cwd", "DATA", "ns", "x", "doc.pdf-METADATA.JSON"]
      = some (.jdata (.obj [("folder_path", .str "x"), ("file_name", .str "doc.pdf"),
          ("validations", .arr [])])) := by
  refine ⟨?_, ?_, ?_⟩
  · exact C10_refresh_idempotent_and_frame.2.2.1
      ⟨[(["cwd", "DATA", "ns", "x", "doc.pdf"], .raw [7]),
        (["cwd", "DATA", "ns", "x", "doc.pdf-METADATA.JSON"],
          .jdata (.obj [("folder_path", .str "x"), ("file_name", .str "doc.pdf"),
            ("validations", .arr [])])),
        (["cwd", "DATA", "ns", "x", "doc.pdf-ONCHAIN-METADATA.JSON"],
          .jdata (.obj [("asset_id", .num 5)]))],
       [["cwd"], ["cwd", "DATA"], ["cwd", "DATA", "ns"], ["cwd", "DATA", "ns", "x"]]⟩
      "ns" ["cwd", "DATA", "ns", "x", "doc.pdf"] [7] rfl
  · exact C10_refresh_idempotent_and_frame.2.2.2.1
      ⟨[(["cwd", "DATA", "ns", "x", "doc.pdf"], .raw [7]),
        (["cwd", "DATA", "ns", "x", "doc.pdf-METADATA.JSON"],
          .jdata (.obj [("folder_path", .str "x"), ("file_name", .str "doc.pdf"),
            ("validations", .arr [])])),
        (["cwd", "DATA", "ns", "x", "doc.pdf-ONCHAIN-METADATA.JSON"],
          .jdata (.obj [("asset_id", .num 5)]))],
       [["cwd"], ["cwd", "DATA"], ["cwd", "DATA", "ns"], ["cwd", "DATA", "ns", "x"]]⟩
      "ns" ["cwd", "DATA", "ns", "x", "doc.pdf-ONCHAIN-METADATA.JSON"]
      (.jdata (.obj [("asset_id", .num 5)])) (by decide) rfl
  · exact C10_refresh_idempotent_and_frame.2.2.2.2.2
      ⟨[(["cwd", "DATA", "ns", "x", "doc.pdf"], .raw [7]),
        (["cwd", "DATA", "ns", "x", "doc.pdf-METADATA.JSON"],
          .jdata (.obj [("folder_path", .str "x"), ("file_name", .str "doc.pdf"),
            ("validations", .arr [])])),
        (["cwd", "DATA", "ns", "x", "doc.pdf-ONCHAIN-METADATA.JSON"],
          .jdata (.obj [("asset_id", .num 5)]))],
       [["cwd"], ["cwd", "DATA"], ["cwd", "DATA", "ns"], ["cwd", "DATA", "ns", "x"]]⟩
      "ns" ["cwd", "DATA", "ns", "x", "doc.pdf-METADATA.JSON"]
      (.obj [("folder_path", .str "x"), ("file_name", .str "doc.pdf"),
        ("validations", .arr [])]) rfl (by decide) (by decide)

end Notary
